import Mathlib

/-!
# EIGRP DUAL finite state machine (eigrpd/eigrp_fsm.c)

A shallow embedding of the per-prefix DUAL state machine: the `NSM` action
table, the event classifier `eigrp_get_fsm_event`, the dispatcher
`eigrp_fsm_event` and the eight actions `eigrp_fsm_event_*`; and of the
router-identifier selection `eigrp_router_id_update` and the instance list
(`eigrp_master_init`, `eigrp_new`, `eigrp_add`, `eigrp_lookup`, `eigrp_get`)
of eigrpd/eigrpd.c.

Conventions of the embedding.

* C pointers to records become record values; the message, the prefix it
  points to and the daemon instance are threaded through every function.
* `u_char`, `u_int32_t` and `int` values are `Nat` / `Int`.  The FSM only
  copies and compares distances and only ORs single bits into `req_action`,
  so no arithmetic can leave the machine range.
* Dereferencing `list->head` of an empty list, dereferencing a null
  `adv_router`, and indexing `NSM` outside its bounds are undefined behaviour
  in C; the embedding reports them as a `Fault`.
* The topology layer (`eigrp_topology.c`), the packet layer and the list
  library are not part of the sources under study.  `update_distance` and the
  node-flag computation are parameters (`Topology`); the small helpers are
  modelled from the specification and marked as such.
* `eigrp_send_reply`, `eigrp_update_routing_table` and
  `eigrp_update_topology_table_prefix` belong to the packet layer and the route
  installer.  Their calls are recorded, in order, in the trace `World.sent`;
  the fields of the prefix the FSM works on are not altered by them.
* The back pointer `entry->prefix` of the entry of a message is the prefix of
  the message, and the daemon runs a single instance, so that `msg->eigrp` and
  `eigrp_lookup()` are the same record.
* A sequence of received packets is run by `fsm_run`, which fills the message
  as the packet handlers do and performs one classify-and-dispatch step per
  packet.
-/

namespace Eigrp

/-! ## Constants -/

/-- Modelled from the spec: the state constants `EIGRP_FSM_STATE_*` are declared
in eigrp_fsm.h, which is not among the sources.  The values are the row
indices of `NSM`, whose rows are commented "PASSIVE STATE", "Active 0 state",
..., "Active 3 state", in the order of the specification's state list. -/
def EIGRP_FSM_STATE_PASSIVE : Nat := 0
/-- Modelled from the spec: row "Active 0 state" of `NSM` (see `EIGRP_FSM_STATE_PASSIVE`). -/
def EIGRP_FSM_STATE_ACTIVE_0 : Nat := 1
/-- Modelled from the spec: row "Active 1 state" of `NSM` (see `EIGRP_FSM_STATE_PASSIVE`). -/
def EIGRP_FSM_STATE_ACTIVE_1 : Nat := 2
/-- Modelled from the spec: row "Active 2 state" of `NSM` (see `EIGRP_FSM_STATE_PASSIVE`). -/
def EIGRP_FSM_STATE_ACTIVE_2 : Nat := 3
/-- Modelled from the spec: row "Active 3 state" of `NSM` (see `EIGRP_FSM_STATE_PASSIVE`). -/
def EIGRP_FSM_STATE_ACTIVE_3 : Nat := 4
/-- Modelled from the spec: the number of rows of `NSM` (five states). -/
def EIGRP_FSM_STATE_MAX : Nat := 5

/-- Modelled from the spec: the event constants `EIGRP_FSM_EVENT_*` are declared
in eigrp_fsm.h, which is not among the sources.  The numbers are those of the
specification's table (0 NQ_FCN, 1 LR, 2 Q_FCN, 3 LR_FCS, 4 DINC, 5 QACT,
6 LR_FCN, 7 KEEP) and of the legend heading eigrp_fsm.c.  Event 0: input event
other than query from successor, FC not satisfied. -/
def EIGRP_FSM_EVENT_NQ_FCN : Nat := 0
/-- Modelled from the spec: event 1, last reply, FD is reset. -/
def EIGRP_FSM_EVENT_LR : Nat := 1
/-- Modelled from the spec: event 2, query from successor, FC not satisfied. -/
def EIGRP_FSM_EVENT_Q_FCN : Nat := 2
/-- Modelled from the spec: event 3, last reply, FC satisfied with current value
of FDij. -/
def EIGRP_FSM_EVENT_LR_FCS : Nat := 3
/-- Modelled from the spec: event 4, distance increase while in active state. -/
def EIGRP_FSM_EVENT_DINC : Nat := 4
/-- Modelled from the spec: event 5, query from successor while in active state. -/
def EIGRP_FSM_EVENT_QACT : Nat := 5
/-- Modelled from the spec: event 6, last reply, FC not satisfied with current
value of FDij. -/
def EIGRP_FSM_EVENT_LR_FCN : Nat := 6
/-- Modelled from the spec: event 7, state not changed, usually by receiving not
last reply. -/
def EIGRP_FSM_KEEP_STATE : Nat := 7
/-- Modelled from the spec: the number of columns of `NSM` (eight events). -/
def EIGRP_FSM_EVENT_MAX : Nat := 8

/-- Modelled from the spec: the opcode constants `EIGRP_OPC_*` are declared in a
header that is not among the sources; the values are the wire opcodes
(UPDATE=1, QUERY=3, REPLY=4), the same as `EIGRP_MSG_*` in eigrp_packet.h. -/
def EIGRP_OPC_UPDATE : Nat := 1
/-- Modelled from the spec: wire opcode of QUERY (see `EIGRP_OPC_UPDATE`). -/
def EIGRP_OPC_QUERY : Nat := 3
/-- Modelled from the spec: wire opcode of REPLY (see `EIGRP_OPC_UPDATE`). -/
def EIGRP_OPC_REPLY : Nat := 4

/-- Modelled from the spec: the entry flag bitset is {SUCCESSOR, FSUCCESSOR};
the header giving the bit positions is absent, SUCCESSOR is taken as bit 0. -/
def EIGRP_NEIGHBOR_ENTRY_SUCCESSOR_FLAG : Nat := 1
/-- Modelled from the spec: FSUCCESSOR is taken as bit 1 of the entry flags. -/
def EIGRP_NEIGHBOR_ENTRY_FSUCCESSOR_FLAG : Nat := 2

/-- Modelled from the spec: the request bitset is {NEED_UPDATE, NEED_QUERY};
the header giving the bit positions is absent, NEED_UPDATE is taken as bit 0. -/
def EIGRP_FSM_NEED_UPDATE : Nat := 1
/-- Modelled from the spec: NEED_QUERY is taken as bit 1 of `req_action`. -/
def EIGRP_FSM_NEED_QUERY : Nat := 2

/-! ## Data model -/

/-- Modelled from the spec: the composite metric (bandwidth, delay,
reliability, load, MTU, hop-count); `struct eigrp_metrics` itself is declared
in eigrp_structs.h, which is not among the sources. -/
structure eigrp_metrics where
  bandwidth : Nat
  delay : Nat
  reliability : Nat
  load : Nat
  mtu : Nat
  hop_count : Nat
  deriving DecidableEq, Repr

/-- Modelled from the spec: `same(a, b)` is field-wise equality
(`eigrp_metrics_is_same` is defined outside the sources). -/
def eigrp_metrics_is_same (a b : eigrp_metrics) : Bool := decide (a = b)

/-- The candidate route through one neighbor (`struct eigrp_neighbor_entry`),
restricted to the fields the FSM reads or writes.  `adv_router` is the
identifier of the advertising neighbor. -/
structure eigrp_neighbor_entry where
  adv_router : Nat
  reported_distance : Nat
  distance : Nat
  reported_metric : eigrp_metrics
  total_metric : eigrp_metrics
  flags : Nat
  deriving DecidableEq, Repr

/-- The per-destination record (`struct eigrp_prefix_entry`).  `entries` is the
list `prefix->entries` from head to tail, `rij` the list of neighbors a reply
is awaited from. -/
structure eigrp_prefix_entry where
  destination : Nat
  state : Nat
  fdistance : Nat
  distance : Nat
  rdistance : Nat
  reported_metric : eigrp_metrics
  entries : List eigrp_neighbor_entry
  rij : List Nat
  req_action : Nat
  deriving DecidableEq, Repr

/-- The daemon instance (`struct eigrp`), restricted to the router identifiers,
the autonomous system number and the two change lists created by
`eigrp_new`.  Prefixes on a list are identified by their destination. -/
structure eigrp where
  router_id : Nat
  router_id_static : Nat
  AS : Int
  topology_changes_externalIPV4 : List Nat
  topology_changes_internalIPV4 : List Nat
  deriving DecidableEq, Repr

/-- The FSM input envelope (`struct eigrp_fsm_action_message`).  `pfx` is the
field `prefix` of the C structure, `entry` is null (`none`) when the neighbor
has no candidate for the prefix yet, `adv_router` is null for internal events. -/
structure eigrp_fsm_action_message where
  packet_type : Nat
  eigrp : eigrp
  adv_router : Option Nat
  entry : Option eigrp_neighbor_entry
  incoming_metric : eigrp_metrics
  pfx : eigrp_prefix_entry
  deriving DecidableEq, Repr

/-- What `eigrp_send_reply` is handed as its second argument. -/
inductive ReplyArg where
  | prefix_entry
  | neighbor_entry
  deriving DecidableEq, Repr

/-- Calls the FSM makes into the packet layer and the route installer. -/
inductive Effect where
  | send_reply (nbr : Option Nat) (arg : ReplyArg)
  | update_routing_table (destination : Nat)
  | update_topology_table_pfx (destination : Nat)
  deriving DecidableEq, Repr

/-- Undefined behaviour of the C code, and exhaustion of the recursion budget
of the embedding. -/
inductive Fault where
  | empty_list_head
  | null_adv_router
  | nsm_index_out_of_bounds
  | out_of_fuel
  deriving DecidableEq, Repr

/-- Everything an action can read or write: the message (with the prefix and
the daemon instance it points to), the global neighbor count returned by
`eigrp_nbr_count_get()`, and the trace of outbound calls, oldest first. -/
structure World where
  msg : eigrp_fsm_action_message
  nbr_count : Nat
  sent : List Effect
  deriving DecidableEq, Repr

/-- What one call of `eigrp_topology_update_distance` leaves behind: the
re-sorted entries, the entry `msg->entry` points to, the prefix distance
(the specification lets the call recompute it) and the returned change code. -/
structure UpdateResult where
  entries : List eigrp_neighbor_entry
  entry : eigrp_neighbor_entry
  distance : Nat
  change : Int

/-- The topology layer the FSM is linked against.  `update_distance` is
`eigrp_topology_update_distance` applied to a message whose entry is set;
`node_flags p e` is the flag word `eigrp_topology_update_node_flags(p)` leaves
on entry `e`. -/
structure Topology where
  update_distance : eigrp_fsm_action_message → UpdateResult
  node_flags : eigrp_prefix_entry → eigrp_neighbor_entry → Nat

/-! ## Helpers defined outside the sources -/

/-- Modelled from the spec: `eigrp_neighbor_entry_new` (eigrp_topology.c, not
among the sources) allocates a zeroed candidate; the classifier then stores the
advertising neighbor in it. -/
def eigrp_neighbor_entry_new : eigrp_neighbor_entry :=
  { adv_router := 0, reported_distance := 0, distance := 0,
    reported_metric := ⟨0, 0, 0, 0, 0, 0⟩, total_metric := ⟨0, 0, 0, 0, 0, 0⟩,
    flags := 0 }

/-- Modelled from the spec: `listnode_delete` (list library, not among the
sources) removes the node holding the value and is a no-op when the value is
not on the list. -/
def listnode_delete (l : List Nat) (v : Nat) : List Nat := l.erase v

/-- Modelled from the spec: `listnode_add` (list library, not among the
sources) appends at the tail; the FSM "appends" to the change list. -/
def listnode_add (l : List Nat) (v : Nat) : List Nat := l ++ [v]

/-- The data of `list->head`; the head of an empty list is a null pointer. -/
def list_head {α : Type} (l : List α) : Except Fault α :=
  match l with
  | [] => .error .empty_list_head
  | a :: _ => .ok a

/-- Modelled from the spec: `successors(prefix)` is the ordered list of the
entries with the SUCCESSOR flag set (`eigrp_topology_get_successor` is defined
in eigrp_topology.c, not among the sources). -/
def eigrp_topology_get_successor (p : eigrp_prefix_entry) : List eigrp_neighbor_entry :=
  p.entries.filter (fun e => e.flags &&& EIGRP_NEIGHBOR_ENTRY_SUCCESSOR_FLAG != 0)

/-- The call `eigrp_topology_update_distance(msg)`: the topology layer rewrites
the entries of the prefix, the entry of the message and the prefix distance,
and returns the change code.  The second component is the entry `entry` points
to after the call. -/
def eigrp_topology_update_distance (T : Topology) (msg : eigrp_fsm_action_message) :
    eigrp_fsm_action_message × eigrp_neighbor_entry × Int :=
  let r := T.update_distance msg
  ({ msg with entry := some r.entry,
              pfx := { msg.pfx with entries := r.entries, distance := r.distance } },
   r.entry, r.change)

/-- The call `eigrp_topology_update_node_flags(prefix)`: only the flag words of
the entries change. -/
def eigrp_topology_update_node_flags (T : Topology) (p : eigrp_prefix_entry) :
    eigrp_prefix_entry :=
  { p with entries := p.entries.map (fun e => { e with flags := T.node_flags p e }) }

/-- The test `entry->flags & EIGRP_NEIGHBOR_ENTRY_SUCCESSOR_FLAG`. -/
def is_successor (e : eigrp_neighbor_entry) : Bool :=
  e.flags &&& EIGRP_NEIGHBOR_ENTRY_SUCCESSOR_FLAG != 0

/-! ## The action table -/

/-- The eight functions a cell of `NSM` can hold. -/
inductive Handler where
  | eigrp_fsm_event_keep_state
  | eigrp_fsm_event_nq_fcn
  | eigrp_fsm_event_q_fcn
  | eigrp_fsm_event_lr
  | eigrp_fsm_event_dinc
  | eigrp_fsm_event_lr_fcs
  | eigrp_fsm_event_lr_fcn
  | eigrp_fsm_event_qact
  deriving DecidableEq, Repr

open Handler in
/-- The literal `NSM[EIGRP_FSM_STATE_MAX][EIGRP_FSM_EVENT_MAX]`, row by row. -/
def NSM : List (List Handler) :=
  [ -- PASSIVE STATE
    [ eigrp_fsm_event_nq_fcn,      /- Event 0 -/
      eigrp_fsm_event_keep_state,  /- Event 1 -/
      eigrp_fsm_event_q_fcn,       /- Event 2 -/
      eigrp_fsm_event_keep_state,  /- Event 3 -/
      eigrp_fsm_event_keep_state,  /- Event 4 -/
      eigrp_fsm_event_keep_state,  /- Event 5 -/
      eigrp_fsm_event_keep_state,  /- Event 6 -/
      eigrp_fsm_event_keep_state   /- Event 7 -/ ],
    -- Active 0 state
    [ eigrp_fsm_event_keep_state,  /- Event 0 -/
      eigrp_fsm_event_keep_state,  /- Event 1 -/
      eigrp_fsm_event_keep_state,  /- Event 2 -/
      eigrp_fsm_event_lr_fcs,      /- Event 3 -/
      eigrp_fsm_event_keep_state,  /- Event 4 -/
      eigrp_fsm_event_qact,        /- Event 5 -/
      eigrp_fsm_event_lr_fcn,      /- Event 6 -/
      eigrp_fsm_event_keep_state   /- Event 7 -/ ],
    -- Active 1 state
    [ eigrp_fsm_event_keep_state,  /- Event 0 -/
      eigrp_fsm_event_lr,          /- Event 1 -/
      eigrp_fsm_event_keep_state,  /- Event 2 -/
      eigrp_fsm_event_keep_state,  /- Event 3 -/
      eigrp_fsm_event_dinc,        /- Event 4 -/
      eigrp_fsm_event_qact,        /- Event 5 -/
      eigrp_fsm_event_keep_state,  /- Event 6 -/
      eigrp_fsm_event_keep_state   /- Event 7 -/ ],
    -- Active 2 state
    [ eigrp_fsm_event_keep_state,  /- Event 0 -/
      eigrp_fsm_event_keep_state,  /- Event 1 -/
      eigrp_fsm_event_keep_state,  /- Event 2 -/
      eigrp_fsm_event_lr_fcs,      /- Event 3 -/
      eigrp_fsm_event_keep_state,  /- Event 4 -/
      eigrp_fsm_event_keep_state,  /- Event 5 -/
      eigrp_fsm_event_lr_fcn,      /- Event 6 -/
      eigrp_fsm_event_keep_state   /- Event 7 -/ ],
    -- Active 3 state
    [ eigrp_fsm_event_keep_state,  /- Event 0 -/
      eigrp_fsm_event_lr,          /- Event 1 -/
      eigrp_fsm_event_keep_state,  /- Event 2 -/
      eigrp_fsm_event_keep_state,  /- Event 3 -/
      eigrp_fsm_event_dinc,        /- Event 4 -/
      eigrp_fsm_event_keep_state,  /- Event 5 -/
      eigrp_fsm_event_keep_state,  /- Event 6 -/
      eigrp_fsm_event_keep_state   /- Event 7 -/ ] ]

/-- The cell `NSM[state][event].func`; `none` when either index is outside the
array. -/
def NSM_func (state event : Nat) : Option Handler :=
  match NSM.get? state with
  | none => none
  | some row => row.get? event

/-- The action the transition table of the specification (section 4.C) names
for a state and an event, written from the table: `nq_fcn` and `q_fcn` in
PASSIVE, `lr_fcs`/`lr_fcn` in ACTIVE_0 and ACTIVE_2, `qact` in ACTIVE_0 and
ACTIVE_1, `lr`/`dinc` in ACTIVE_1 and ACTIVE_3, `keep` everywhere else. -/
def spec_transition_table (state event : Nat) : Handler :=
  if state = EIGRP_FSM_STATE_PASSIVE ∧ event = EIGRP_FSM_EVENT_NQ_FCN then
    .eigrp_fsm_event_nq_fcn
  else if state = EIGRP_FSM_STATE_PASSIVE ∧ event = EIGRP_FSM_EVENT_Q_FCN then
    .eigrp_fsm_event_q_fcn
  else if (state = EIGRP_FSM_STATE_ACTIVE_0 ∨ state = EIGRP_FSM_STATE_ACTIVE_2)
      ∧ event = EIGRP_FSM_EVENT_LR_FCS then
    .eigrp_fsm_event_lr_fcs
  else if (state = EIGRP_FSM_STATE_ACTIVE_0 ∨ state = EIGRP_FSM_STATE_ACTIVE_2)
      ∧ event = EIGRP_FSM_EVENT_LR_FCN then
    .eigrp_fsm_event_lr_fcn
  else if (state = EIGRP_FSM_STATE_ACTIVE_0 ∨ state = EIGRP_FSM_STATE_ACTIVE_1)
      ∧ event = EIGRP_FSM_EVENT_QACT then
    .eigrp_fsm_event_qact
  else if (state = EIGRP_FSM_STATE_ACTIVE_1 ∨ state = EIGRP_FSM_STATE_ACTIVE_3)
      ∧ event = EIGRP_FSM_EVENT_LR then
    .eigrp_fsm_event_lr
  else if (state = EIGRP_FSM_STATE_ACTIVE_1 ∨ state = EIGRP_FSM_STATE_ACTIVE_3)
      ∧ event = EIGRP_FSM_EVENT_DINC then
    .eigrp_fsm_event_dinc
  else
    .eigrp_fsm_event_keep_state

/-! ## The event classifier -/

/-- The block `if (entry == NULL) { ... }` at the top of `eigrp_get_fsm_event`:
a fresh candidate owned by `msg->adv_router` is stored in the message.  Reading
`msg->adv_router->ei` dereferences the neighbor, which must not be null. -/
def msg_entry (msg : eigrp_fsm_action_message) : Except Fault eigrp_fsm_action_message :=
  match msg.entry with
  | some _ => .ok msg
  | none =>
    match msg.adv_router with
    | none => .error .null_adv_router
    | some r => .ok { msg with entry := some { eigrp_neighbor_entry_new with adv_router := r } }

/-- The statement `listnode_delete(prefix->rij, entry->adv_router)`. -/
def rij_delete (msg : eigrp_fsm_action_message) (entry : eigrp_neighbor_entry) :
    eigrp_fsm_action_message :=
  { msg with pfx := { msg.pfx with rij := listnode_delete msg.pfx.rij entry.adv_router } }

/-- The function `eigrp_get_fsm_event`: returns the number of the occurred
event together with the message as the call leaves it. -/
def eigrp_get_fsm_event (T : Topology) (msg0 : eigrp_fsm_action_message) :
    Except Fault (Nat × eigrp_fsm_action_message) :=
  let actual_state := msg0.pfx.state
  match msg_entry msg0 with
  | .error f => .error f
  | .ok msg1 =>
    if actual_state = EIGRP_FSM_STATE_PASSIVE then
      match eigrp_topology_update_distance T msg1 with
      | (msg, _, _) =>
        match list_head msg.pfx.entries with
        | .error f => .error f
        | .ok head =>
          if head.reported_distance < msg.pfx.fdistance then
            .ok (EIGRP_FSM_KEEP_STATE, msg)
          else if msg.packet_type = EIGRP_OPC_QUERY then
            .ok (EIGRP_FSM_EVENT_Q_FCN, msg)
          else
            .ok (EIGRP_FSM_EVENT_NQ_FCN, msg)
    else if actual_state = EIGRP_FSM_STATE_ACTIVE_0 then
      match eigrp_topology_update_distance T msg1 with
      | (msg, entry, _) =>
        if msg.packet_type = EIGRP_OPC_REPLY then
          let msg := rij_delete msg entry
          if msg.pfx.rij.length ≠ 0 then
            .ok (EIGRP_FSM_KEEP_STATE, msg)
          else
            match list_head msg.pfx.entries with
            | .error f => .error f
            | .ok head =>
              if head.reported_distance < msg.pfx.fdistance then
                .ok (EIGRP_FSM_EVENT_LR_FCS, msg)
              else
                .ok (EIGRP_FSM_EVENT_LR_FCN, msg)
        else if msg.packet_type = EIGRP_OPC_QUERY ∧ is_successor entry = true then
          .ok (EIGRP_FSM_EVENT_QACT, msg)
        else
          .ok (EIGRP_FSM_KEEP_STATE, msg)
    else if actual_state = EIGRP_FSM_STATE_ACTIVE_1 then
      match eigrp_topology_update_distance T msg1 with
      | (msg, entry, change) =>
        if msg.packet_type = EIGRP_OPC_QUERY ∧ is_successor entry = true then
          .ok (EIGRP_FSM_EVENT_QACT, msg)
        else if msg.packet_type = EIGRP_OPC_REPLY then
          let msg := rij_delete msg entry
          if change = 1 ∧ is_successor entry = true then
            .ok (EIGRP_FSM_EVENT_DINC, msg)
          else if msg.pfx.rij.length ≠ 0 then
            .ok (EIGRP_FSM_KEEP_STATE, msg)
          else
            .ok (EIGRP_FSM_EVENT_LR, msg)
        else if msg.packet_type = EIGRP_OPC_UPDATE ∧ change = 1
            ∧ is_successor entry = true then
          .ok (EIGRP_FSM_EVENT_DINC, msg)
        else
          .ok (EIGRP_FSM_KEEP_STATE, msg)
    else if actual_state = EIGRP_FSM_STATE_ACTIVE_2 then
      match eigrp_topology_update_distance T msg1 with
      | (msg, entry, _) =>
        if msg.packet_type = EIGRP_OPC_REPLY then
          let msg := rij_delete msg entry
          if msg.pfx.rij.length ≠ 0 then
            .ok (EIGRP_FSM_KEEP_STATE, msg)
          else
            match list_head msg.pfx.entries with
            | .error f => .error f
            | .ok head =>
              if head.reported_distance < msg.pfx.fdistance then
                .ok (EIGRP_FSM_EVENT_LR_FCS, msg)
              else
                .ok (EIGRP_FSM_EVENT_LR_FCN, msg)
        else
          .ok (EIGRP_FSM_KEEP_STATE, msg)
    else if actual_state = EIGRP_FSM_STATE_ACTIVE_3 then
      match eigrp_topology_update_distance T msg1 with
      | (msg, entry, change) =>
        if msg.packet_type = EIGRP_OPC_REPLY then
          let msg := rij_delete msg entry
          if change = 1 ∧ is_successor entry = true then
            .ok (EIGRP_FSM_EVENT_DINC, msg)
          else if msg.pfx.rij.length ≠ 0 then
            .ok (EIGRP_FSM_KEEP_STATE, msg)
          else
            .ok (EIGRP_FSM_EVENT_LR, msg)
        else if msg.packet_type = EIGRP_OPC_UPDATE ∧ change = 1
            ∧ is_successor entry = true then
          .ok (EIGRP_FSM_EVENT_DINC, msg)
        else
          .ok (EIGRP_FSM_KEEP_STATE, msg)
    else
      .ok (EIGRP_FSM_KEEP_STATE, msg1)

/-! ## The actions -/

/-- Replaces the prefix of the message of a world. -/
def World.set_pfx (w : World) (p : eigrp_prefix_entry) : World :=
  { w with msg := { w.msg with pfx := p } }

/-- The statement `listnode_add(eigrp->topology_changes_internalIPV4, prefix)`.
The daemon holds a single instance, so `msg->eigrp` and `eigrp_lookup()` (used
by `eigrp_fsm_event_keep_state`) denote the same record. -/
def World.add_change (w : World) : World :=
  let changes :=
    listnode_add w.msg.eigrp.topology_changes_internalIPV4 w.msg.pfx.destination
  { w with msg := { w.msg with
      eigrp := { w.msg.eigrp with topology_changes_internalIPV4 := changes } } }

/-- Records one outbound call. -/
def World.emit (w : World) (e : Effect) : World :=
  { w with sent := w.sent ++ [e] }

/-- The function `eigrp_fsm_event_lr` (event 1). -/
def eigrp_fsm_event_lr (T : Topology) (w : World) : Except Fault World :=
  let pfx := w.msg.pfx
  match list_head pfx.entries with
  | .error f => .error f
  | .ok head =>
    let pfx := { pfx with fdistance := head.distance, distance := head.distance,
                          rdistance := head.distance }
    let pfx := { pfx with reported_metric := head.total_metric }
    let reply : Except Fault World :=
      if pfx.state = EIGRP_FSM_STATE_ACTIVE_3 then
        match list_head (eigrp_topology_get_successor pfx) with
        | .error f => .error f
        | .ok succ => .ok (w.emit (.send_reply (some succ.adv_router) .prefix_entry))
      else .ok w
    match reply with
    | .error f => .error f
    | .ok w =>
      let pfx := { pfx with state := EIGRP_FSM_STATE_PASSIVE }
      let pfx := { pfx with req_action := pfx.req_action ||| EIGRP_FSM_NEED_UPDATE }
      let w := (w.set_pfx pfx).add_change
      let w := w.set_pfx (eigrp_topology_update_node_flags T w.msg.pfx)
      let w := w.emit (.update_routing_table w.msg.pfx.destination)
      let w := w.emit (.update_topology_table_pfx w.msg.pfx.destination)
      .ok w

/-- The function `eigrp_fsm_event_nq_fcn` (event 0). -/
def eigrp_fsm_event_nq_fcn (T : Topology) (w : World) : Except Fault World :=
  let pfx := w.msg.pfx
  let successors := eigrp_topology_get_successor pfx
  let pfx := { pfx with state := EIGRP_FSM_STATE_ACTIVE_1 }
  match list_head successors with
  | .error f => .error f
  | .ok head =>
    let pfx := { pfx with rdistance := head.distance, distance := head.distance,
                          fdistance := head.distance }
    let pfx := { pfx with reported_metric := head.total_metric }
    if w.nbr_count ≠ 0 then
      let pfx := { pfx with req_action := pfx.req_action ||| EIGRP_FSM_NEED_QUERY }
      .ok (w.set_pfx pfx).add_change
    else
      eigrp_fsm_event_lr T (w.set_pfx pfx)

/-- The function `eigrp_fsm_event_q_fcn` (event 2). -/
def eigrp_fsm_event_q_fcn (T : Topology) (w : World) : Except Fault World :=
  let pfx := w.msg.pfx
  let successors := eigrp_topology_get_successor pfx
  let pfx := { pfx with state := EIGRP_FSM_STATE_ACTIVE_3 }
  match list_head successors with
  | .error f => .error f
  | .ok head =>
    let pfx := { pfx with rdistance := head.distance, distance := head.distance,
                          fdistance := head.distance }
    let pfx := { pfx with reported_metric := head.total_metric }
    if w.nbr_count ≠ 0 then
      let pfx := { pfx with req_action := pfx.req_action ||| EIGRP_FSM_NEED_QUERY }
      .ok (w.set_pfx pfx).add_change
    else
      eigrp_fsm_event_lr T (w.set_pfx pfx)

/-- The function `eigrp_fsm_event_keep_state` (event 7 and every unlisted cell). -/
def eigrp_fsm_event_keep_state (T : Topology) (w : World) : Except Fault World :=
  let pfx := w.msg.pfx
  let passive : Except Fault World :=
    if pfx.state = EIGRP_FSM_STATE_PASSIVE then
      match list_head pfx.entries with
      | .error f => .error f
      | .ok head =>
        let w :=
          if eigrp_metrics_is_same pfx.reported_metric head.total_metric = false then
            let pfx := { pfx with rdistance := head.distance, fdistance := head.distance,
                                  distance := head.distance }
            let pfx := { pfx with reported_metric := head.total_metric }
            let w := w.set_pfx pfx
            let w := if w.msg.packet_type = EIGRP_OPC_QUERY then
                       w.emit (.send_reply w.msg.adv_router .neighbor_entry)
                     else w
            let w := w.set_pfx { w.msg.pfx with
                       req_action := w.msg.pfx.req_action ||| EIGRP_FSM_NEED_UPDATE }
            w.add_change
          else w
        let w := w.set_pfx (eigrp_topology_update_node_flags T w.msg.pfx)
        .ok (w.emit (.update_routing_table w.msg.pfx.destination))
    else .ok w
  match passive with
  | .error f => .error f
  | .ok w =>
    if w.msg.packet_type = EIGRP_OPC_QUERY then
      .ok (w.emit (.send_reply w.msg.adv_router .prefix_entry))
    else .ok w

/-- The function `eigrp_fsm_event_lr_fcs` (event 3).  The state is written
before it is compared with ACTIVE_2, as in the source. -/
def eigrp_fsm_event_lr_fcs (T : Topology) (w : World) : Except Fault World :=
  let pfx := w.msg.pfx
  let pfx := { pfx with state := EIGRP_FSM_STATE_PASSIVE }
  match list_head pfx.entries with
  | .error f => .error f
  | .ok head =>
    let pfx := { pfx with distance := head.distance, rdistance := head.distance }
    let pfx := { pfx with reported_metric := head.total_metric }
    let pfx := { pfx with fdistance :=
                   if pfx.fdistance > pfx.distance then pfx.distance else pfx.fdistance }
    let reply : Except Fault World :=
      if pfx.state = EIGRP_FSM_STATE_ACTIVE_2 then
        match list_head (eigrp_topology_get_successor pfx) with
        | .error f => .error f
        | .ok succ => .ok (w.emit (.send_reply (some succ.adv_router) .prefix_entry))
      else .ok w
    match reply with
    | .error f => .error f
    | .ok w =>
      let pfx := { pfx with req_action := pfx.req_action ||| EIGRP_FSM_NEED_UPDATE }
      let w := (w.set_pfx pfx).add_change
      let w := w.set_pfx (eigrp_topology_update_node_flags T w.msg.pfx)
      let w := w.emit (.update_routing_table w.msg.pfx.destination)
      let w := w.emit (.update_topology_table_pfx w.msg.pfx.destination)
      .ok w

/-- The function `eigrp_fsm_event_lr_fcn` (event 6). -/
def eigrp_fsm_event_lr_fcn (T : Topology) (w : World) : Except Fault World :=
  let pfx := w.msg.pfx
  let pfx := { pfx with state :=
                 if pfx.state = EIGRP_FSM_STATE_ACTIVE_0 then EIGRP_FSM_STATE_ACTIVE_1
                 else EIGRP_FSM_STATE_ACTIVE_3 }
  match list_head (eigrp_topology_get_successor pfx) with
  | .error f => .error f
  | .ok best_successor =>
    let pfx := { pfx with rdistance := best_successor.distance,
                          distance := best_successor.distance }
    let pfx := { pfx with reported_metric := best_successor.total_metric }
    if w.nbr_count ≠ 0 then
      let pfx := { pfx with req_action := pfx.req_action ||| EIGRP_FSM_NEED_QUERY }
      .ok (w.set_pfx pfx).add_change
    else
      eigrp_fsm_event_lr T (w.set_pfx pfx)

/-- The function `eigrp_fsm_event_qact` (event 5). -/
def eigrp_fsm_event_qact (w : World) : Except Fault World :=
  let pfx := { w.msg.pfx with state := EIGRP_FSM_STATE_ACTIVE_2 }
  match list_head (eigrp_topology_get_successor pfx) with
  | .error f => .error f
  | .ok succ => .ok (w.set_pfx { pfx with distance := succ.distance })

/-- The function `eigrp_fsm_event_dinc` (event 4).  `call` runs the function a
cell of `NSM` holds; the action re-classifies the message and calls the cell
of the new state when no reply is awaited. -/
def eigrp_fsm_event_dinc (T : Topology) (call : Handler → World → Except Fault World)
    (w : World) : Except Fault World :=
  let pfx := w.msg.pfx
  let pfx := { pfx with state :=
                 if pfx.state = EIGRP_FSM_STATE_ACTIVE_1 then EIGRP_FSM_STATE_ACTIVE_0
                 else EIGRP_FSM_STATE_ACTIVE_2 }
  match list_head (eigrp_topology_get_successor pfx) with
  | .error f => .error f
  | .ok succ =>
    let w := w.set_pfx { pfx with distance := succ.distance }
    if w.msg.pfx.rij.length = 0 then
      match eigrp_get_fsm_event T w.msg with
      | .error f => .error f
      | .ok (event, msg) =>
        let w := { w with msg := msg }
        match NSM_func w.msg.pfx.state event with
        | none => .error .nsm_index_out_of_bounds
        | some func => call func w
    else .ok w

/-- Calling the function held by a cell of `NSM`.  Each call spends one unit of
the recursion budget `fuel`; only `eigrp_fsm_event_dinc` calls back. -/
def NSM_call (T : Topology) : Nat → Handler → World → Except Fault World
  | 0, _, _ => .error .out_of_fuel
  | fuel + 1, func, w =>
    match func with
    | .eigrp_fsm_event_keep_state => eigrp_fsm_event_keep_state T w
    | .eigrp_fsm_event_nq_fcn => eigrp_fsm_event_nq_fcn T w
    | .eigrp_fsm_event_q_fcn => eigrp_fsm_event_q_fcn T w
    | .eigrp_fsm_event_lr => eigrp_fsm_event_lr T w
    | .eigrp_fsm_event_dinc => eigrp_fsm_event_dinc T (NSM_call T fuel) w
    | .eigrp_fsm_event_lr_fcs => eigrp_fsm_event_lr_fcs T w
    | .eigrp_fsm_event_lr_fcn => eigrp_fsm_event_lr_fcn T w
    | .eigrp_fsm_event_qact => eigrp_fsm_event_qact w

/-- The function `eigrp_fsm_event`: executes `NSM[msg->prefix->state][event]`.
Here the event is one of the numbers the classifier returns and the cell is
looked up row by row; an index outside its row or outside the rows is reported
as a fault.  Where such an access lands in the table as C lays it out is
described by `NSM_access` and `eigrp_fsm_event_unchecked`. -/
def eigrp_fsm_event (T : Topology) (fuel : Nat) (w : World) (event : Nat) :
    Except Fault World :=
  match NSM_func w.msg.pfx.state event with
  | none => .error .nsm_index_out_of_bounds
  | some func => NSM_call T fuel func w

/-- One FSM step as the packet handlers perform it: classify the message with
`eigrp_get_fsm_event`, then dispatch the returned event with `eigrp_fsm_event`. -/
def fsm_step (T : Topology) (fuel : Nat) (w : World) : Except Fault World :=
  match eigrp_get_fsm_event T w.msg with
  | .error f => .error f
  | .ok (event, msg) => eigrp_fsm_event T fuel { w with msg := msg } event

/-- The message with the FSM state of its prefix replaced by `s`; every other
field, in particular `rij` and the entries, is kept. -/
def in_state (msg : eigrp_fsm_action_message) (s : Nat) : eigrp_fsm_action_message :=
  { msg with pfx := { msg.pfx with state := s } }

/-! ## The table as it lies in memory -/

/-- The forty cells of `NSM` in the order C stores them: the rows of a
two-dimensional array follow one another, so `NSM[s][e]` is the cell at offset
`EIGRP_FSM_EVENT_MAX * s + e` from the start of the table. -/
def NSM_memory : List Handler := NSM.flatten

/-- The word the access `NSM[state][event].func` reads when nothing checks the
indices: the cell at offset `EIGRP_FSM_EVENT_MAX * state + event`, which for an
index outside its range is a cell of another row as long as the offset stays
inside the table; `none` when the offset is before or past the table, where
the word read is not a cell of `NSM`. -/
def NSM_access (state : Nat) (event : Int) : Option Handler :=
  let offset : Int := (EIGRP_FSM_EVENT_MAX : Int) * (state : Int) + event
  if offset < 0 then none else NSM_memory.get? offset.toNat

/-- The function `eigrp_fsm_event` with its argument `int event` taken over the
whole of `int`: the statement `(*(NSM[msg->prefix->state][event].func))(msg)`
is executed with no test of either index. -/
def eigrp_fsm_event_unchecked (T : Topology) (fuel : Nat) (w : World) (event : Int) :
    Except Fault World :=
  match NSM_access w.msg.pfx.state event with
  | none => .error .nsm_index_out_of_bounds
  | some func => NSM_call T fuel func w

/-! ## A concrete topology layer and sample data

Used to evaluate the model on concrete inputs.  The scalar distance of a metric
is its delay and every link adds 50 to the delay, which reproduces the numbers
of scenarios S1 and S2 (reported distance 50 gives distance 100, 90 gives 140,
120 gives 170). -/

/-- Inserts a candidate before the first entry with a strictly larger distance. -/
def insert_by_distance (e : eigrp_neighbor_entry) :
    List eigrp_neighbor_entry → List eigrp_neighbor_entry
  | [] => [e]
  | x :: xs => if e.distance < x.distance then e :: x :: xs
               else x :: insert_by_distance e xs

/-- A metric whose delay is `d`; the other components are fixed. -/
def sample_metric (d : Nat) : eigrp_metrics :=
  { bandwidth := 1000, delay := d, reliability := 255, load := 1, mtu := 1500, hop_count := 1 }

/-- A candidate of neighbor `n` reporting distance `rd` over a link of cost 50. -/
def sample_entry (n rd flags : Nat) : eigrp_neighbor_entry :=
  { adv_router := n, reported_distance := rd, distance := rd + 50,
    reported_metric := sample_metric rd, total_metric := sample_metric (rd + 50),
    flags := flags }

/-- The sample `update_distance`: no change when the incoming metric is the one
already recorded; otherwise the candidate is rewritten from the incoming
metric and moved to its place in the list ordered by distance.  The change
code is 1 for an increase of the reported distance, 2 for a decrease and 3
otherwise. -/
def sample_update_distance (msg : eigrp_fsm_action_message) : UpdateResult :=
  match msg.entry with
  | none => ⟨msg.pfx.entries, eigrp_neighbor_entry_new, msg.pfx.distance, 0⟩
  | some e =>
    if eigrp_metrics_is_same msg.incoming_metric e.reported_metric = true then
      ⟨msg.pfx.entries, e, msg.pfx.distance, 0⟩
    else
      let rd := msg.incoming_metric.delay
      let e1 : eigrp_neighbor_entry :=
        { e with reported_metric := msg.incoming_metric, reported_distance := rd,
                 total_metric := { msg.incoming_metric with delay := rd + 50 },
                 distance := rd + 50 }
      let rest := msg.pfx.entries.filter (fun x => x.adv_router != e.adv_router)
      ⟨insert_by_distance e1 rest, e1, msg.pfx.distance,
       if e.reported_distance < rd then 1 else if e.reported_distance > rd then 2 else 3⟩

/-- The sample topology layer: a candidate is flagged SUCCESSOR when it is
feasible and as near as the prefix distance. -/
def sample_topology : Topology :=
  { update_distance := sample_update_distance,
    node_flags := fun p e =>
      if e.reported_distance < p.fdistance ∧ e.distance ≤ p.distance then
        EIGRP_NEIGHBOR_ENTRY_SUCCESSOR_FLAG
      else 0 }

/-- The prefix of scenario S1: feasible distance 100, successor N1 (distance
100, reported distance 50) and N2 (distance 200, reported distance 150). -/
def sample_pfx (state : Nat) (rij : List Nat) : eigrp_prefix_entry :=
  { destination := 10, state := state, fdistance := 100, distance := 100, rdistance := 100,
    reported_metric := sample_metric 100,
    entries := [sample_entry 1 50 EIGRP_NEIGHBOR_ENTRY_SUCCESSOR_FLAG, sample_entry 2 150 0],
    rij := rij, req_action := 0 }

/-- A message of the given type from neighbor N1 advertising reported distance
`rd` for the sample prefix. -/
def sample_msg (state : Nat) (rij : List Nat) (packet_type rd : Nat) :
    eigrp_fsm_action_message :=
  { packet_type := packet_type,
    eigrp := ⟨0, 0, 1, [], []⟩,
    adv_router := some 1,
    entry := some (sample_entry 1 50 EIGRP_NEIGHBOR_ENTRY_SUCCESSOR_FLAG),
    incoming_metric := sample_metric rd, pfx := sample_pfx state rij }

/-- The sample message in a world with `n` neighbors and nothing sent yet. -/
def sample_world (state : Nat) (rij : List Nat) (packet_type rd n : Nat) : World :=
  { msg := sample_msg state rij packet_type rd, nbr_count := n, sent := [] }

/-! ## Sequences of packets -/

/-- Modelled from the spec: what the packet layer delivers to the FSM for one
prefix, `(kind, adv_router, reported_metric)`; the packet handlers themselves
(eigrp_update.c, eigrp_query.c, eigrp_reply.c) are not among the sources. -/
structure Packet where
  kind : Nat
  adv_router : Nat
  metric : eigrp_metrics
  deriving DecidableEq, Repr

/-- Modelled from the spec: the packet handlers (not among the sources) fill
the action message for a received packet with its type, the sending neighbor,
the advertised metric and the candidate of that neighbor among the entries of
the prefix (null when there is none, the classifier then creates it), and run
one FSM step. -/
def fsm_receive (T : Topology) (fuel : Nat) (w : World) (p : Packet) : Except Fault World :=
  let entry := w.msg.pfx.entries.find? (fun e => e.adv_router == p.adv_router)
  fsm_step T fuel
    { w with msg := { w.msg with packet_type := p.kind, adv_router := some p.adv_router,
                                 incoming_metric := p.metric, entry := entry } }

/-- Modelled from the spec: a sequence of FSM steps on one prefix, the packets
of a list received one after the other with no drain of the change list in
between; the first fault ends the run. -/
def fsm_run (T : Topology) (fuel : Nat) : World → List Packet → Except Fault World
  | w, [] => .ok w
  | w, p :: ps =>
    match fsm_receive T fuel w p with
    | .error f => .error f
    | .ok w1 => fsm_run T fuel w1 ps

/-! ## A second topology layer: links of a given cost -/

/-- The sample `update_distance` over links of cost `cost` instead of 50. -/
def link_update_distance (cost : Nat) (msg : eigrp_fsm_action_message) : UpdateResult :=
  match msg.entry with
  | none => ⟨msg.pfx.entries, eigrp_neighbor_entry_new, msg.pfx.distance, 0⟩
  | some e =>
    if eigrp_metrics_is_same msg.incoming_metric e.reported_metric = true then
      ⟨msg.pfx.entries, e, msg.pfx.distance, 0⟩
    else
      let rd := msg.incoming_metric.delay
      let e1 : eigrp_neighbor_entry :=
        { e with reported_metric := msg.incoming_metric, reported_distance := rd,
                 total_metric := { msg.incoming_metric with delay := rd + cost },
                 distance := rd + cost }
      let rest := msg.pfx.entries.filter (fun x => x.adv_router != e.adv_router)
      ⟨insert_by_distance e1 rest, e1, msg.pfx.distance,
       if e.reported_distance < rd then 1 else if e.reported_distance > rd then 2 else 3⟩

/-- A topology layer over links of cost `cost` that flags as SUCCESSOR every
candidate as near as the prefix distance. -/
def link_topology (cost : Nat) : Topology :=
  { update_distance := link_update_distance cost,
    node_flags := fun p e =>
      if e.distance ≤ p.distance then EIGRP_NEIGHBOR_ENTRY_SUCCESSOR_FLAG else 0 }

/-- A PASSIVE prefix reached over a link of cost 0: its only candidate, the
successor N1, reports distance 100 and has distance 100; the message is an
UPDATE of N1 lowering the reported distance to `rd`, with one neighbor. -/
def direct_world (rd : Nat) : World :=
  { msg :=
      { packet_type := EIGRP_OPC_UPDATE,
        eigrp := ⟨0, 0, 1, [], []⟩,
        adv_router := some 1,
        entry := some { adv_router := 1, reported_distance := 100, distance := 100,
                        reported_metric := sample_metric 100,
                        total_metric := sample_metric 100,
                        flags := EIGRP_NEIGHBOR_ENTRY_SUCCESSOR_FLAG },
        incoming_metric := sample_metric rd,
        pfx :=
          { destination := 10, state := EIGRP_FSM_STATE_PASSIVE, fdistance := 100,
            distance := 100, rdistance := 100, reported_metric := sample_metric 100,
            entries := [{ adv_router := 1, reported_distance := 100, distance := 100,
                          reported_metric := sample_metric 100,
                          total_metric := sample_metric 100,
                          flags := EIGRP_NEIGHBOR_ENTRY_SUCCESSOR_FLAG }],
            rij := [], req_action := 0 } },
    nbr_count := 1, sent := [] }

/-! ## A third topology layer: the candidate rewritten in place -/

/-- An `update_distance` that rewrites the candidate where it stands on the
list, as the pointer `msg->entry` does in C: the first entry of the advertising
neighbor (the entry of the message itself when the neighbor has none) takes the
incoming metric over a link of cost 50 and keeps its flag word, and is moved to
its place in the list ordered by distance.  No entry leaves the list. -/
def inplace_update_distance (msg : eigrp_fsm_action_message) : UpdateResult :=
  match msg.entry with
  | none => ⟨msg.pfx.entries, eigrp_neighbor_entry_new, msg.pfx.distance, 0⟩
  | some e =>
    if eigrp_metrics_is_same msg.incoming_metric e.reported_metric = true then
      ⟨msg.pfx.entries, e, msg.pfx.distance, 0⟩
    else
      let rd := msg.incoming_metric.delay
      let old := (msg.pfx.entries.find? (fun x => x.adv_router == e.adv_router)).getD e
      let e1 : eigrp_neighbor_entry :=
        { old with reported_metric := msg.incoming_metric, reported_distance := rd,
                   total_metric := { msg.incoming_metric with delay := rd + 50 },
                   distance := rd + 50 }
      let rest := msg.pfx.entries.erase old
      ⟨insert_by_distance e1 rest, e1, msg.pfx.distance,
       if e.reported_distance < rd then 1 else if e.reported_distance > rd then 2 else 3⟩

/-- The in-place topology layer, with the node flags of the sample one. -/
def inplace_topology : Topology :=
  { update_distance := inplace_update_distance,
    node_flags := sample_topology.node_flags }

/-! ## The router identifier (eigrpd.c) -/

/-- The function `eigrp_router_id_update`.  `router_id_zebra` is the identifier
recommended by zebra (`router_id_zebra.s_addr`) and `iflist` the interfaces of
`eigrp_om->iflist`.  The result is the instance as the call leaves it and the
interfaces `eigrp_if_update` is called for, in order. -/
def eigrp_router_id_update (router_id_zebra : Nat) (iflist : List Nat) (e : eigrp) :
    eigrp × List Nat :=
  let router_id_old := e.router_id
  let router_id :=
    if e.router_id_static ≠ 0 then e.router_id_static
    else if e.router_id ≠ 0 then e.router_id
    else router_id_zebra
  let e := { e with router_id := router_id }
  if router_id_old ≠ router_id then (e, iflist) else (e, [])

/-! ## The instance list (eigrpd.c) -/

/-- Modelled from the spec: `list_new` (list library, not among the sources)
returns an empty list. -/
def list_new : List Nat := []

/-- Modelled from the spec: `listcount` (list library, not among the sources)
is the number of nodes of a list. -/
def listcount (l : List Nat) : Nat := l.length

/-- The record `struct eigrp_master`, restricted to the list `eigrp` of
pointers to the EIGRP instances. -/
structure eigrp_master where
  eigrp : List Nat
  deriving DecidableEq, Repr

/-- The process state the instance functions work on: the instance records
allocated so far (a pointer to an instance is the index of its record in
`heap`) and the master record `eigrp_om` points to. -/
structure Daemon where
  heap : List eigrp
  eigrp_om : eigrp_master
  deriving DecidableEq, Repr

/-- The function `eigrp_master_init`: the master record is zeroed and given a
new, empty instance list. -/
def eigrp_master_init (d : Daemon) : Daemon :=
  { d with eigrp_om := { eigrp := list_new } }

/-- The function `eigrp_new`: allocates an instance for the AS number read
from the string `AS` with libc's `atoi`, and returns the pointer to it.
`eigrp_socket` is the value returned by `eigrp_sock_init()` and `ibuf` tells
whether `stream_new` returned a buffer; the process exits with status 1 when
either fails. -/
def eigrp_new (atoi : String → Int) (AS : String) (eigrp_socket : Int) (ibuf : Bool)
    (d : Daemon) : Except Nat (Nat × Daemon) :=
  let new : eigrp :=
    { router_id := 0, router_id_static := 0, AS := atoi AS,
      topology_changes_externalIPV4 := [], topology_changes_internalIPV4 := [] }
  if eigrp_socket < 0 then .error 1
  else if ibuf = false then .error 1
  else .ok (d.heap.length, { d with heap := d.heap ++ [new] })

/-- The function `eigrp_add`: `listnode_add(eigrp_om->eigrp, eigrp)`. -/
def eigrp_add (eigrp : Nat) (d : Daemon) : Daemon :=
  { d with eigrp_om := { d.eigrp_om with eigrp := listnode_add d.eigrp_om.eigrp eigrp } }

/-- The function `eigrp_lookup`: NULL (`none`) when the instance list has no
node, and the data of its head otherwise. -/
def eigrp_lookup (d : Daemon) : Option Nat :=
  if listcount d.eigrp_om.eigrp = 0 then none
  else d.eigrp_om.eigrp.head?

/-- The function `eigrp_get`: the instance `eigrp_lookup` finds, or a new one
added to the list when it finds none. -/
def eigrp_get (atoi : String → Int) (AS : String) (eigrp_socket : Int) (ibuf : Bool)
    (d : Daemon) : Except Nat (Nat × Daemon) :=
  match eigrp_lookup d with
  | some eigrp => .ok (eigrp, d)
  | none =>
    match eigrp_new atoi AS eigrp_socket ibuf d with
    | .error status => .error status
    | .ok (eigrp, d) => .ok (eigrp, eigrp_add eigrp d)

/-- One call of `eigrp_get`: its argument, and what `eigrp_sock_init` and
`stream_new` would answer if the call reached them. -/
structure GetCall where
  AS : String
  eigrp_socket : Int
  ibuf : Bool
  deriving DecidableEq, Repr

/-- A sequence of `eigrp_get` calls; the result is the list of the pointers
returned, in order, and the process state after the last call. -/
def eigrp_get_calls (atoi : String → Int) : Daemon → List GetCall →
    Except Nat (List Nat × Daemon)
  | d, [] => .ok ([], d)
  | d, c :: cs =>
    match eigrp_get atoi c.AS c.eigrp_socket c.ibuf d with
    | .error status => .error status
    | .ok (eigrp, d1) =>
      match eigrp_get_calls atoi d1 cs with
      | .error status => .error status
      | .ok (ps, d2) => .ok (eigrp :: ps, d2)

/-! ## The action table agrees with the specification -/

/-- C1: for every state (row 0..4) and every event (column 0..7) the function
stored in `NSM[state][event]` is the action the transition table of the
specification names for that cell. -/
theorem NSM_agrees_with_spec_table :
    ∀ (s : Fin 5) (e : Fin 8),
      NSM_func s.val e.val = some (spec_transition_table s.val e.val) := by
  decide

/-! ## Auxiliary facts -/

theorem msg_entry_frame {msg msg1 : eigrp_fsm_action_message} (h : msg_entry msg = .ok msg1) :
    msg1.pfx = msg.pfx ∧ msg1.packet_type = msg.packet_type ∧ msg1.eigrp = msg.eigrp := by
  unfold msg_entry at h
  split at h
  · cases h; exact ⟨rfl, rfl, rfl⟩
  · split at h
    · cases h
    · cases h; exact ⟨rfl, rfl, rfl⟩

theorem list_head_of_head_eq {α : Type} {l : List α} {a : α} (h : l.head? = some a) :
    list_head l = .ok a := by
  cases l with
  | nil => cases h
  | cons b t => cases h; rfl

theorem msg_entry_in_state (msg : eigrp_fsm_action_message) (s : Nat) :
    msg_entry (in_state msg s) = (msg_entry msg).map (fun m => in_state m s) := by
  unfold msg_entry in_state
  cases he : msg.entry with
  | some e => simp [he, Except.map]
  | none =>
    cases ha : msg.adv_router with
    | none => simp [he, ha, Except.map]
    | some r => simp [he, ha, Except.map]

/-! ## The classifier, state by state -/

/-- C2: in PASSIVE the classifier, after `update_distance`, returns KEEP_STATE
when the reported distance of the head entry is strictly below the feasible
distance of the prefix, and otherwise Q_FCN for a QUERY and NQ_FCN for every
other packet type; a head whose reported distance equals the feasible
distance is not feasible, so KEEP_STATE is not returned for it. -/
theorem get_fsm_event_passive (T : Topology) (msg msg1 : eigrp_fsm_action_message)
    (head : eigrp_neighbor_entry)
    (hstate : msg.pfx.state = EIGRP_FSM_STATE_PASSIVE)
    (hentry : msg_entry msg = .ok msg1)
    (hhead : (T.update_distance msg1).entries.head? = some head) :
    eigrp_get_fsm_event T msg =
      .ok (if head.reported_distance < msg.pfx.fdistance then EIGRP_FSM_KEEP_STATE
           else if msg.packet_type = EIGRP_OPC_QUERY then EIGRP_FSM_EVENT_Q_FCN
           else EIGRP_FSM_EVENT_NQ_FCN,
           (eigrp_topology_update_distance T msg1).1)
    ∧ (head.reported_distance = msg.pfx.fdistance →
        ∀ m, eigrp_get_fsm_event T msg ≠ .ok (EIGRP_FSM_KEEP_STATE, m)) := by
  obtain ⟨hp, ht, -⟩ := msg_entry_frame hentry
  have h2 := list_head_of_head_eq hhead
  have main : eigrp_get_fsm_event T msg =
      .ok (if head.reported_distance < msg.pfx.fdistance then EIGRP_FSM_KEEP_STATE
           else if msg.packet_type = EIGRP_OPC_QUERY then EIGRP_FSM_EVENT_Q_FCN
           else EIGRP_FSM_EVENT_NQ_FCN,
           (eigrp_topology_update_distance T msg1).1) := by
    unfold eigrp_get_fsm_event
    simp only [hentry, hstate, eigrp_topology_update_distance, if_true, h2, hp, ht]
    split <;> [rfl; (split <;> rfl)]
  refine ⟨main, ?_⟩
  intro heq m hm
  rw [main, if_neg (by omega)] at hm
  split at hm <;> cases hm

/-- Witness of C2: an UPDATE from N1 raising its reported distance to 120 on the
PASSIVE sample prefix (feasible distance 100) is classified NQ_FCN. -/
theorem get_fsm_event_passive_witness :
    eigrp_get_fsm_event sample_topology (sample_msg 0 [] 1 120) =
      .ok (EIGRP_FSM_EVENT_NQ_FCN,
           (eigrp_topology_update_distance sample_topology (sample_msg 0 [] 1 120)).1) :=
  (get_fsm_event_passive sample_topology (sample_msg 0 [] 1 120) (sample_msg 0 [] 1 120)
    (sample_entry 1 120 1) rfl rfl rfl).1

/-- C3: in ACTIVE_0 the classifier returns, for a REPLY and after removing the
sender from `rij`, KEEP_STATE while `rij` is non-empty and otherwise LR_FCS when
the head entry is feasible and LR_FCN when it is not; QACT for a QUERY whose
entry carries the SUCCESSOR flag; KEEP_STATE for every other message. -/
theorem get_fsm_event_active_0 (T : Topology) (msg msg1 : eigrp_fsm_action_message)
    (head : eigrp_neighbor_entry)
    (hstate : msg.pfx.state = EIGRP_FSM_STATE_ACTIVE_0)
    (hentry : msg_entry msg = .ok msg1)
    (hhead : msg.packet_type = EIGRP_OPC_REPLY →
      listnode_delete msg.pfx.rij (T.update_distance msg1).entry.adv_router = [] →
      (T.update_distance msg1).entries.head? = some head) :
    eigrp_get_fsm_event T msg =
      .ok (if msg.packet_type = EIGRP_OPC_REPLY then
             (if listnode_delete msg.pfx.rij (T.update_distance msg1).entry.adv_router ≠ [] then
                EIGRP_FSM_KEEP_STATE
              else if head.reported_distance < msg.pfx.fdistance then EIGRP_FSM_EVENT_LR_FCS
              else EIGRP_FSM_EVENT_LR_FCN,
              rij_delete (eigrp_topology_update_distance T msg1).1 (T.update_distance msg1).entry)
           else if msg.packet_type = EIGRP_OPC_QUERY
               ∧ is_successor (T.update_distance msg1).entry = true then
             (EIGRP_FSM_EVENT_QACT, (eigrp_topology_update_distance T msg1).1)
           else (EIGRP_FSM_KEEP_STATE, (eigrp_topology_update_distance T msg1).1)) := by
  obtain ⟨hp, ht, -⟩ := msg_entry_frame hentry
  unfold eigrp_get_fsm_event
  simp only [hentry, hstate, eigrp_topology_update_distance, rij_delete, hp, ht]
  by_cases hr : msg.packet_type = EIGRP_OPC_REPLY
  · by_cases hl : listnode_delete msg.pfx.rij (T.update_distance msg1).entry.adv_router = []
    · have h2 := list_head_of_head_eq (hhead hr hl)
      simp [hr, hl, h2, EIGRP_FSM_STATE_PASSIVE, EIGRP_FSM_STATE_ACTIVE_0]
      split <;> rfl
    · simp [hr, hl, EIGRP_FSM_STATE_PASSIVE, EIGRP_FSM_STATE_ACTIVE_0]
  · simp [hr, EIGRP_FSM_STATE_PASSIVE, EIGRP_FSM_STATE_ACTIVE_0]
    split <;> rfl

/-- Witness of C3: the last awaited REPLY (from N1, reported distance 90) on the
ACTIVE_0 sample prefix is classified LR_FCS and empties `rij`. -/
theorem get_fsm_event_active_0_witness :
    eigrp_get_fsm_event sample_topology (sample_msg 1 [1] 4 90) =
      .ok (EIGRP_FSM_EVENT_LR_FCS,
           rij_delete (eigrp_topology_update_distance sample_topology (sample_msg 1 [1] 4 90)).1
             (sample_topology.update_distance (sample_msg 1 [1] 4 90)).entry) :=
  get_fsm_event_active_0 sample_topology (sample_msg 1 [1] 4 90) (sample_msg 1 [1] 4 90)
    (sample_entry 1 90 1) rfl rfl (fun _ _ => rfl)

/-- C4: in ACTIVE_1, with `change` the result of `update_distance`, the
classifier returns QACT for a QUERY from a SUCCESSOR-flagged entry; for a REPLY,
after removing the sender from `rij`, DINC when `change = 1` and the sender is a
successor, else KEEP_STATE while `rij` is non-empty, else LR; DINC for an UPDATE
with `change = 1` from a successor; KEEP_STATE for every other message. -/
theorem get_fsm_event_active_1 (T : Topology) (msg msg1 : eigrp_fsm_action_message)
    (hstate : msg.pfx.state = EIGRP_FSM_STATE_ACTIVE_1)
    (hentry : msg_entry msg = .ok msg1) :
    eigrp_get_fsm_event T msg =
      .ok (if msg.packet_type = EIGRP_OPC_QUERY
               ∧ is_successor (T.update_distance msg1).entry = true then
             (EIGRP_FSM_EVENT_QACT, (eigrp_topology_update_distance T msg1).1)
           else if msg.packet_type = EIGRP_OPC_REPLY then
             (if (T.update_distance msg1).change = 1
                  ∧ is_successor (T.update_distance msg1).entry = true then
                EIGRP_FSM_EVENT_DINC
              else if listnode_delete msg.pfx.rij (T.update_distance msg1).entry.adv_router ≠ []
                then EIGRP_FSM_KEEP_STATE
              else EIGRP_FSM_EVENT_LR,
              rij_delete (eigrp_topology_update_distance T msg1).1 (T.update_distance msg1).entry)
           else if msg.packet_type = EIGRP_OPC_UPDATE ∧ (T.update_distance msg1).change = 1
               ∧ is_successor (T.update_distance msg1).entry = true then
             (EIGRP_FSM_EVENT_DINC, (eigrp_topology_update_distance T msg1).1)
           else (EIGRP_FSM_KEEP_STATE, (eigrp_topology_update_distance T msg1).1)) := by
  obtain ⟨hp, ht, -⟩ := msg_entry_frame hentry
  unfold eigrp_get_fsm_event
  simp only [hentry, hstate, eigrp_topology_update_distance, rij_delete, hp, ht]
  simp only [EIGRP_FSM_STATE_PASSIVE, EIGRP_FSM_STATE_ACTIVE_0, EIGRP_FSM_STATE_ACTIVE_1]
  simp only [show ¬ ((2:Nat) = 0) by decide, show ¬ ((2:Nat) = 1) by decide, if_false, if_true]
  by_cases hq : msg.packet_type = EIGRP_OPC_QUERY
      ∧ is_successor (T.update_distance msg1).entry = true
  · rw [if_pos hq, if_pos hq]
  · rw [if_neg hq, if_neg hq]
    by_cases hr : msg.packet_type = EIGRP_OPC_REPLY
    · rw [if_pos hr, if_pos hr]
      split
      · rfl
      · simp only [List.length_eq_zero, ne_eq]
        split <;> rfl
    · rw [if_neg hr, if_neg hr]
      split <;> rfl

/-- Witness of C4: on the ACTIVE_1 sample prefix awaiting N2 only, a REPLY from
N2 that keeps its reported distance is the last reply and is classified LR. -/
theorem get_fsm_event_active_1_witness :
    eigrp_get_fsm_event sample_topology
        { sample_msg 2 [2] 4 150 with adv_router := some 2, entry := some (sample_entry 2 150 0) } =
      .ok (EIGRP_FSM_EVENT_LR,
           rij_delete
             (eigrp_topology_update_distance sample_topology
               { sample_msg 2 [2] 4 150 with
                   adv_router := some 2, entry := some (sample_entry 2 150 0) }).1
             (sample_entry 2 150 0)) :=
  get_fsm_event_active_1 sample_topology
    { sample_msg 2 [2] 4 150 with adv_router := some 2, entry := some (sample_entry 2 150 0) }
    { sample_msg 2 [2] 4 150 with adv_router := some 2, entry := some (sample_entry 2 150 0) }
    rfl rfl

/-- C5: the ACTIVE_2 branch of the classifier is the ACTIVE_0 branch without the
QUERY-from-successor case.  For the same prefix contents and message,
classifying in ACTIVE_2 never returns QACT, returns KEEP_STATE where ACTIVE_0
returns QACT, and otherwise returns the same event (or the same fault) and
leaves the same message, in particular the same `rij`.  The topology layer is
required not to look at the FSM state. -/
theorem active_2_like_active_0 (T : Topology) (msg : eigrp_fsm_action_message)
    (hT : ∀ m s, T.update_distance (in_state m s) = T.update_distance m) :
    (∀ m, eigrp_get_fsm_event T (in_state msg EIGRP_FSM_STATE_ACTIVE_2)
            ≠ .ok (EIGRP_FSM_EVENT_QACT, m))
    ∧ (∀ m0, eigrp_get_fsm_event T (in_state msg EIGRP_FSM_STATE_ACTIVE_0)
              = .ok (EIGRP_FSM_EVENT_QACT, m0) →
        eigrp_get_fsm_event T (in_state msg EIGRP_FSM_STATE_ACTIVE_2)
          = .ok (EIGRP_FSM_KEEP_STATE, in_state m0 EIGRP_FSM_STATE_ACTIVE_2))
    ∧ (∀ ev m0, ev ≠ EIGRP_FSM_EVENT_QACT →
        eigrp_get_fsm_event T (in_state msg EIGRP_FSM_STATE_ACTIVE_0) = .ok (ev, m0) →
        eigrp_get_fsm_event T (in_state msg EIGRP_FSM_STATE_ACTIVE_2)
          = .ok (ev, in_state m0 EIGRP_FSM_STATE_ACTIVE_2)
        ∧ (in_state m0 EIGRP_FSM_STATE_ACTIVE_2).pfx.rij = m0.pfx.rij)
    ∧ (∀ f, eigrp_get_fsm_event T (in_state msg EIGRP_FSM_STATE_ACTIVE_0) = .error f →
        eigrp_get_fsm_event T (in_state msg EIGRP_FSM_STATE_ACTIVE_2) = .error f) := by
  unfold eigrp_get_fsm_event
  simp only [msg_entry_in_state]
  cases hm : msg_entry msg with
  | error f => simp [Except.map]
  | ok msg1 =>
    have h0 := hT msg1 EIGRP_FSM_STATE_ACTIVE_0
    have h2 := hT msg1 EIGRP_FSM_STATE_ACTIVE_2
    simp only [Except.map, eigrp_topology_update_distance, h0, h2, rij_delete]
    simp only [in_state, EIGRP_FSM_STATE_PASSIVE, EIGRP_FSM_STATE_ACTIVE_0,
      EIGRP_FSM_STATE_ACTIVE_1, EIGRP_FSM_STATE_ACTIVE_2]
    simp only [show ¬ ((3:Nat) = 0) by decide, show ¬ ((3:Nat) = 1) by decide,
      show ¬ ((3:Nat) = 2) by decide, show ¬ ((1:Nat) = 0) by decide, if_false, if_true]
    by_cases hr : msg1.packet_type = EIGRP_OPC_REPLY
    · simp only [hr, if_true]
      by_cases hl :
          (listnode_delete msg1.pfx.rij (T.update_distance msg1).entry.adv_router).length ≠ 0
      · simp [hl, EIGRP_FSM_KEEP_STATE, EIGRP_FSM_EVENT_QACT]
      · simp only [hl, if_false]
        cases hh : list_head (T.update_distance msg1).entries with
        | error f => simp
        | ok head =>
          by_cases hf : head.reported_distance < msg1.pfx.fdistance
          · simp [hf, EIGRP_FSM_EVENT_LR_FCS, EIGRP_FSM_EVENT_QACT]
          · simp [hf, EIGRP_FSM_EVENT_LR_FCN, EIGRP_FSM_EVENT_QACT]
    · simp only [hr, if_false]
      by_cases hq : msg1.packet_type = EIGRP_OPC_QUERY
          ∧ is_successor (T.update_distance msg1).entry = true
      · simp [hq, EIGRP_FSM_KEEP_STATE, EIGRP_FSM_EVENT_QACT]
        intro ev hne h
        exact absurd h.symm hne
      · simp [hq, EIGRP_FSM_KEEP_STATE, EIGRP_FSM_EVENT_QACT]

/-- Witness of C5: a QUERY from the successor N1 is QACT in ACTIVE_0 and
KEEP_STATE in ACTIVE_2; the sample topology layer ignores the FSM state. -/
theorem active_2_like_active_0_witness :
    eigrp_get_fsm_event sample_topology (in_state (sample_msg 1 [1, 2] 3 50) 3) =
      .ok (EIGRP_FSM_KEEP_STATE, in_state (sample_msg 1 [1, 2] 3 50) 3) :=
  (active_2_like_active_0 sample_topology (sample_msg 1 [1, 2] 3 50) (fun _ _ => rfl)).2.1
    (sample_msg 1 [1, 2] 3 50) rfl

/-- C6: the ACTIVE_3 branch of the classifier is the ACTIVE_1 branch without the
QUERY-from-successor case.  For the same prefix contents and message,
classifying in ACTIVE_3 never returns QACT, returns KEEP_STATE where ACTIVE_1
returns QACT, and otherwise returns the same event and leaves the same
message, in particular the same `rij`.  The topology layer is required not to
look at the FSM state. -/
theorem active_3_like_active_1 (T : Topology) (msg : eigrp_fsm_action_message)
    (hT : ∀ m s, T.update_distance (in_state m s) = T.update_distance m) :
    (∀ m, eigrp_get_fsm_event T (in_state msg EIGRP_FSM_STATE_ACTIVE_3)
            ≠ .ok (EIGRP_FSM_EVENT_QACT, m))
    ∧ (∀ m0, eigrp_get_fsm_event T (in_state msg EIGRP_FSM_STATE_ACTIVE_1)
              = .ok (EIGRP_FSM_EVENT_QACT, m0) →
        eigrp_get_fsm_event T (in_state msg EIGRP_FSM_STATE_ACTIVE_3)
          = .ok (EIGRP_FSM_KEEP_STATE, in_state m0 EIGRP_FSM_STATE_ACTIVE_3))
    ∧ (∀ ev m0, ev ≠ EIGRP_FSM_EVENT_QACT →
        eigrp_get_fsm_event T (in_state msg EIGRP_FSM_STATE_ACTIVE_1) = .ok (ev, m0) →
        eigrp_get_fsm_event T (in_state msg EIGRP_FSM_STATE_ACTIVE_3)
          = .ok (ev, in_state m0 EIGRP_FSM_STATE_ACTIVE_3)
        ∧ (in_state m0 EIGRP_FSM_STATE_ACTIVE_3).pfx.rij = m0.pfx.rij)
    ∧ (∀ f, eigrp_get_fsm_event T (in_state msg EIGRP_FSM_STATE_ACTIVE_1) = .error f →
        eigrp_get_fsm_event T (in_state msg EIGRP_FSM_STATE_ACTIVE_3) = .error f) := by
  unfold eigrp_get_fsm_event
  simp only [msg_entry_in_state]
  cases hm : msg_entry msg with
  | error f => simp [Except.map]
  | ok msg1 =>
    have h1 := hT msg1 EIGRP_FSM_STATE_ACTIVE_1
    have h3 := hT msg1 EIGRP_FSM_STATE_ACTIVE_3
    simp only [Except.map, eigrp_topology_update_distance, h1, h3, rij_delete]
    simp only [in_state, EIGRP_FSM_STATE_PASSIVE, EIGRP_FSM_STATE_ACTIVE_0,
      EIGRP_FSM_STATE_ACTIVE_1, EIGRP_FSM_STATE_ACTIVE_2, EIGRP_FSM_STATE_ACTIVE_3]
    simp only [show ¬ ((4:Nat) = 0) by decide, show ¬ ((4:Nat) = 1) by decide,
      show ¬ ((4:Nat) = 2) by decide, show ¬ ((4:Nat) = 3) by decide,
      show ¬ ((2:Nat) = 0) by decide, show ¬ ((2:Nat) = 1) by decide, if_false, if_true]
    by_cases hq : msg1.packet_type = EIGRP_OPC_QUERY
        ∧ is_successor (T.update_distance msg1).entry = true
    · obtain ⟨hq1, hq2⟩ := hq
      simp [hq1, hq2, EIGRP_OPC_QUERY, EIGRP_OPC_REPLY, EIGRP_OPC_UPDATE,
        EIGRP_FSM_KEEP_STATE, EIGRP_FSM_EVENT_QACT]
      intro ev hne h
      exact absurd h.symm hne
    · simp only [hq, if_false]
      by_cases hr : msg1.packet_type = EIGRP_OPC_REPLY
      · simp only [hr, if_true]
        by_cases hc : (T.update_distance msg1).change = 1
            ∧ is_successor (T.update_distance msg1).entry = true
        · simp [hc, EIGRP_FSM_EVENT_DINC, EIGRP_FSM_EVENT_QACT]
        · simp only [hc, if_false]
          by_cases hl :
              (listnode_delete msg1.pfx.rij (T.update_distance msg1).entry.adv_router).length ≠ 0
          · simp [hl, EIGRP_FSM_KEEP_STATE, EIGRP_FSM_EVENT_QACT]
          · simp [hl, EIGRP_FSM_EVENT_LR, EIGRP_FSM_EVENT_QACT]
      · simp only [hr, if_false]
        by_cases hu : msg1.packet_type = EIGRP_OPC_UPDATE ∧ (T.update_distance msg1).change = 1
            ∧ is_successor (T.update_distance msg1).entry = true
        · simp [hu, EIGRP_FSM_EVENT_DINC, EIGRP_FSM_EVENT_QACT]
        · simp [hu, EIGRP_FSM_KEEP_STATE, EIGRP_FSM_EVENT_QACT]

/-- Witness of C6: a QUERY from the successor N1 is QACT in ACTIVE_1 and
KEEP_STATE in ACTIVE_3; the sample topology layer ignores the FSM state. -/
theorem active_3_like_active_1_witness :
    eigrp_get_fsm_event sample_topology (in_state (sample_msg 2 [1, 2] 3 50) 4) =
      .ok (EIGRP_FSM_KEEP_STATE, in_state (sample_msg 2 [1, 2] 3 50) 4) :=
  (active_3_like_active_1 sample_topology (sample_msg 2 [1, 2] 3 50) (fun _ _ => rfl)).2.1
    (sample_msg 2 [1, 2] 3 50) rfl

/-- C7: in each state the classifier produces only KEEP_STATE or an event with
a non-keep action in the row of that state: an event in {0,2,7} in PASSIVE,
{3,5,6,7} in ACTIVE_0, {1,4,5,7} in ACTIVE_1, {3,6,7} in ACTIVE_2 and {1,4,7}
in ACTIVE_3.  LR is emitted only from ACTIVE_1 and ACTIVE_3, and the event is
always a valid column of `NSM`. -/
theorem classifier_events_per_state (T : Topology) (msg msg' : eigrp_fsm_action_message) (ev : Nat)
    (h : eigrp_get_fsm_event T msg = .ok (ev, msg')) :
    (msg.pfx.state = EIGRP_FSM_STATE_PASSIVE →
        ev = EIGRP_FSM_EVENT_NQ_FCN ∨ ev = EIGRP_FSM_EVENT_Q_FCN ∨ ev = EIGRP_FSM_KEEP_STATE)
    ∧ (msg.pfx.state = EIGRP_FSM_STATE_ACTIVE_0 →
        ev = EIGRP_FSM_EVENT_LR_FCS ∨ ev = EIGRP_FSM_EVENT_QACT ∨ ev = EIGRP_FSM_EVENT_LR_FCN
          ∨ ev = EIGRP_FSM_KEEP_STATE)
    ∧ (msg.pfx.state = EIGRP_FSM_STATE_ACTIVE_1 →
        ev = EIGRP_FSM_EVENT_LR ∨ ev = EIGRP_FSM_EVENT_DINC ∨ ev = EIGRP_FSM_EVENT_QACT
          ∨ ev = EIGRP_FSM_KEEP_STATE)
    ∧ (msg.pfx.state = EIGRP_FSM_STATE_ACTIVE_2 →
        ev = EIGRP_FSM_EVENT_LR_FCS ∨ ev = EIGRP_FSM_EVENT_LR_FCN ∨ ev = EIGRP_FSM_KEEP_STATE)
    ∧ (msg.pfx.state = EIGRP_FSM_STATE_ACTIVE_3 →
        ev = EIGRP_FSM_EVENT_LR ∨ ev = EIGRP_FSM_EVENT_DINC ∨ ev = EIGRP_FSM_KEEP_STATE)
    ∧ (ev = EIGRP_FSM_EVENT_LR →
        msg.pfx.state = EIGRP_FSM_STATE_ACTIVE_1 ∨ msg.pfx.state = EIGRP_FSM_STATE_ACTIVE_3)
    ∧ ev < EIGRP_FSM_EVENT_MAX
    ∧ (ev ≠ EIGRP_FSM_KEEP_STATE →
        ∃ func, NSM_func msg.pfx.state ev = some func
          ∧ func ≠ Handler.eigrp_fsm_event_keep_state) := by
  unfold eigrp_get_fsm_event at h
  simp only [eigrp_topology_update_distance, rij_delete] at h
  split at h
  · cases h
  · simp only [EIGRP_FSM_STATE_PASSIVE, EIGRP_FSM_STATE_ACTIVE_0, EIGRP_FSM_STATE_ACTIVE_1,
      EIGRP_FSM_STATE_ACTIVE_2, EIGRP_FSM_STATE_ACTIVE_3] at h ⊢
    by_cases hs0 : msg.pfx.state = 0
    · simp only [hs0, if_true] at h
      split at h
      · cases h
      · split_ifs at h <;> cases h <;> simp +decide [hs0, NSM_func, NSM]
    · simp only [hs0, if_false] at h
      by_cases hs1 : msg.pfx.state = 1
      · simp only [hs1, if_true] at h
        split_ifs at h
        · cases h; simp +decide [hs1, NSM_func, NSM]
        · split at h
          · cases h
          · split_ifs at h <;> cases h <;> simp +decide [hs1, NSM_func, NSM]
        · cases h; simp +decide [hs1, NSM_func, NSM]
        · cases h; simp +decide [hs1, NSM_func, NSM]
      · simp only [hs1, if_false] at h
        by_cases hs2 : msg.pfx.state = 2
        · simp only [hs2, if_true] at h
          split_ifs at h <;> cases h <;> simp +decide [hs2, NSM_func, NSM]
        · simp only [hs2, if_false] at h
          by_cases hs3 : msg.pfx.state = 3
          · simp only [hs3, if_true] at h
            split_ifs at h
            · cases h; simp +decide [hs3, NSM_func, NSM]
            · split at h
              · cases h
              · split_ifs at h <;> cases h <;> simp +decide [hs3, NSM_func, NSM]
            · cases h; simp +decide [hs3, NSM_func, NSM]
          · simp only [hs3, if_false] at h
            by_cases hs4 : msg.pfx.state = 4
            · simp only [hs4, if_true] at h
              split_ifs at h <;> cases h <;> simp +decide [hs4, NSM_func, NSM]
            · simp only [hs4, if_false] at h
              cases h
              simp +decide [hs0, hs1, hs2, hs3, hs4]

/-- Witness of C7: the REPLY of the successor N1 raising its reported distance
to 90 while the ACTIVE_1 sample prefix awaits N1 and N2 is classified DINC. -/
theorem classifier_events_per_state_witness :
    EIGRP_FSM_EVENT_DINC < EIGRP_FSM_EVENT_MAX
    ∧ ∃ func, NSM_func (sample_msg 2 [1, 2] 4 90).pfx.state EIGRP_FSM_EVENT_DINC = some func
        ∧ func ≠ Handler.eigrp_fsm_event_keep_state :=
  have h := classifier_events_per_state sample_topology (sample_msg 2 [1, 2] 4 90)
    (rij_delete (eigrp_topology_update_distance sample_topology (sample_msg 2 [1, 2] 4 90)).1
      (sample_entry 1 90 1))
    EIGRP_FSM_EVENT_DINC rfl
  ⟨h.2.2.2.2.2.2.1, h.2.2.2.2.2.2.2 (by decide)⟩

/-! ## What the actions and the classifier leave untouched -/

theorem listnode_delete_nil (v : Nat) : listnode_delete [] v = [] := rfl

theorem lr_state_rij {T : Topology} {w w' : World} (h : eigrp_fsm_event_lr T w = .ok w') :
    w'.msg.pfx.state = EIGRP_FSM_STATE_PASSIVE ∧ w'.msg.pfx.rij = w.msg.pfx.rij := by
  unfold eigrp_fsm_event_lr at h
  simp only [World.set_pfx, World.add_change, World.emit, eigrp_topology_update_node_flags] at h
  split at h
  · cases h
  · split at h
    · cases h
    · rename_i hr
      split at hr
      · split at hr
        · cases hr
        · cases hr; cases h; exact ⟨rfl, rfl⟩
      · cases hr; cases h; exact ⟨rfl, rfl⟩

theorem lr_fcs_state_rij {T : Topology} {w w' : World}
    (h : eigrp_fsm_event_lr_fcs T w = .ok w') :
    w'.msg.pfx.state = EIGRP_FSM_STATE_PASSIVE ∧ w'.msg.pfx.rij = w.msg.pfx.rij := by
  unfold eigrp_fsm_event_lr_fcs at h
  simp only [World.set_pfx, World.add_change, World.emit, eigrp_topology_update_node_flags] at h
  split at h
  · cases h
  · split at h
    · cases h
    · rename_i hr
      split at hr
      · split at hr
        · cases hr
        · cases hr; cases h; exact ⟨rfl, rfl⟩
      · cases hr; cases h; exact ⟨rfl, rfl⟩

theorem nq_fcn_rij {T : Topology} {w w' : World} (h : eigrp_fsm_event_nq_fcn T w = .ok w') :
    w'.msg.pfx.rij = w.msg.pfx.rij := by
  unfold eigrp_fsm_event_nq_fcn at h
  cases hs : list_head (eigrp_topology_get_successor w.msg.pfx) with
  | error f => simp [hs] at h
  | ok head =>
    simp only [hs] at h
    split at h
    · cases h; rfl
    · exact (lr_state_rij h).2

theorem q_fcn_rij {T : Topology} {w w' : World} (h : eigrp_fsm_event_q_fcn T w = .ok w') :
    w'.msg.pfx.rij = w.msg.pfx.rij := by
  unfold eigrp_fsm_event_q_fcn at h
  cases hs : list_head (eigrp_topology_get_successor w.msg.pfx) with
  | error f => simp [hs] at h
  | ok head =>
    simp only [hs] at h
    split at h
    · cases h; rfl
    · exact (lr_state_rij h).2

theorem lr_fcn_rij {T : Topology} {w w' : World} (h : eigrp_fsm_event_lr_fcn T w = .ok w') :
    w'.msg.pfx.rij = w.msg.pfx.rij := by
  unfold eigrp_fsm_event_lr_fcn at h
  cases hs : list_head (eigrp_topology_get_successor { w.msg.pfx with state :=
        if w.msg.pfx.state = EIGRP_FSM_STATE_ACTIVE_0 then EIGRP_FSM_STATE_ACTIVE_1
        else EIGRP_FSM_STATE_ACTIVE_3 }) with
  | error f => simp [hs] at h
  | ok head =>
    simp only [hs] at h
    split at h
    · cases h; rfl
    · exact (lr_state_rij h).2

theorem keep_state_state_rij {T : Topology} {w w' : World}
    (h : eigrp_fsm_event_keep_state T w = .ok w') :
    w'.msg.pfx.state = w.msg.pfx.state ∧ w'.msg.pfx.rij = w.msg.pfx.rij := by
  unfold eigrp_fsm_event_keep_state at h
  simp only [World.set_pfx, World.add_change, World.emit, eigrp_topology_update_node_flags] at h
  split at h
  · cases h
  · rename_i w1 hp
    have h1 : w1.msg.pfx.state = w.msg.pfx.state ∧ w1.msg.pfx.rij = w.msg.pfx.rij := by
      split at hp
      · split at hp
        · cases hp
        · cases hp
          split
          · split <;> exact ⟨rfl, rfl⟩
          · exact ⟨rfl, rfl⟩
      · cases hp; exact ⟨rfl, rfl⟩
    split at h <;> cases h <;> exact h1

theorem qact_state_rij {w w' : World} (h : eigrp_fsm_event_qact w = .ok w') :
    w'.msg.pfx.state = EIGRP_FSM_STATE_ACTIVE_2 ∧ w'.msg.pfx.rij = w.msg.pfx.rij := by
  unfold eigrp_fsm_event_qact at h
  simp only [World.set_pfx] at h
  split at h
  · cases h
  · cases h; exact ⟨rfl, rfl⟩

theorem get_fsm_event_state_rij {T : Topology} {msg msg' : eigrp_fsm_action_message} {ev : Nat}
    (h : eigrp_get_fsm_event T msg = .ok (ev, msg')) :
    msg'.pfx.state = msg.pfx.state
    ∧ (msg.pfx.state = EIGRP_FSM_STATE_PASSIVE → msg'.pfx.rij = msg.pfx.rij)
    ∧ (msg.pfx.rij = [] → msg'.pfx.rij = [])
    ∧ (ev = EIGRP_FSM_EVENT_LR ∨ ev = EIGRP_FSM_EVENT_LR_FCS ∨ ev = EIGRP_FSM_EVENT_LR_FCN →
        msg'.pfx.rij = []) := by
  unfold eigrp_get_fsm_event at h
  simp only [eigrp_topology_update_distance, rij_delete] at h
  split at h
  · cases h
  · rename_i msg1 hm
    obtain ⟨hp, -, -⟩ := msg_entry_frame hm
    simp only [EIGRP_FSM_STATE_PASSIVE, EIGRP_FSM_STATE_ACTIVE_0, EIGRP_FSM_STATE_ACTIVE_1,
      EIGRP_FSM_STATE_ACTIVE_2, EIGRP_FSM_STATE_ACTIVE_3, EIGRP_FSM_EVENT_LR,
      EIGRP_FSM_EVENT_LR_FCS, EIGRP_FSM_EVENT_LR_FCN] at h ⊢
    by_cases hs0 : msg.pfx.state = 0
    · simp only [hs0, if_true] at h
      split at h
      · cases h
      · split_ifs at h <;> cases h <;> simp +decide [hs0, hp, EIGRP_FSM_KEEP_STATE,
          EIGRP_FSM_EVENT_Q_FCN, EIGRP_FSM_EVENT_NQ_FCN]
    · simp only [hs0, if_false] at h
      by_cases hs1 : msg.pfx.state = 1
      · simp only [hs1, if_true] at h
        split_ifs at h
        · cases h
          simp_all +decide [EIGRP_FSM_KEEP_STATE, listnode_delete_nil]
        · split at h
          · cases h
          · split_ifs at h <;> cases h <;> simp_all +decide [listnode_delete_nil]
        · cases h; simp +decide [hp, EIGRP_FSM_EVENT_QACT]
        · cases h; simp +decide [hp, EIGRP_FSM_KEEP_STATE]
      · simp only [hs1, if_false] at h
        by_cases hs2 : msg.pfx.state = 2
        · simp only [hs2, if_true] at h
          split_ifs at h <;> cases h <;>
            simp_all +decide [EIGRP_FSM_KEEP_STATE, EIGRP_FSM_EVENT_QACT, EIGRP_FSM_EVENT_DINC,
              listnode_delete_nil]
        · simp only [hs2, if_false] at h
          by_cases hs3 : msg.pfx.state = 3
          · simp only [hs3, if_true] at h
            split_ifs at h
            · cases h
              simp_all +decide [EIGRP_FSM_KEEP_STATE, listnode_delete_nil]
            · split at h
              · cases h
              · split_ifs at h <;> cases h <;> simp_all +decide [listnode_delete_nil]
            · cases h; simp +decide [hp, EIGRP_FSM_KEEP_STATE]
          · simp only [hs3, if_false] at h
            by_cases hs4 : msg.pfx.state = 4
            · simp only [hs4, if_true] at h
              split_ifs at h <;> cases h <;>
                simp_all +decide [EIGRP_FSM_KEEP_STATE, EIGRP_FSM_EVENT_QACT,
                  EIGRP_FSM_EVENT_DINC, listnode_delete_nil]
            · simp only [hs4, if_false] at h
              cases h
              simp +decide [hp, EIGRP_FSM_KEEP_STATE]

theorem NSM_func_cases {s ev : Nat} {func : Handler} (h : NSM_func s ev = some func) :
    (func = .eigrp_fsm_event_lr → ev = EIGRP_FSM_EVENT_LR)
    ∧ (func = .eigrp_fsm_event_lr_fcs → ev = EIGRP_FSM_EVENT_LR_FCS)
    ∧ (func = .eigrp_fsm_event_lr_fcn → ev = EIGRP_FSM_EVENT_LR_FCN)
    ∧ (func = .eigrp_fsm_event_nq_fcn ∨ func = .eigrp_fsm_event_q_fcn →
        s = EIGRP_FSM_STATE_PASSIVE)
    ∧ (s = EIGRP_FSM_STATE_ACTIVE_0 ∨ s = EIGRP_FSM_STATE_ACTIVE_2 →
        func ≠ .eigrp_fsm_event_dinc) := by
  rcases s with _ | _ | _ | _ | _ | s <;>
    rcases ev with _ | _ | _ | _ | _ | _ | _ | _ | ev <;>
    simp [NSM_func, NSM] at h <;> subst h <;> decide

theorem list_head_error {α : Type} {l : List α} {f : Fault} (h : list_head l = .error f) :
    f = .empty_list_head := by
  cases l with
  | nil => cases h; rfl
  | cons a t => cases h

theorem dinc_inv {T : Topology} {call : Handler → World → Except Fault World} {w w' : World}
    (h : eigrp_fsm_event_dinc T call w = .ok w') :
    ∃ w1 : World, w1.msg.pfx.rij = w.msg.pfx.rij
      ∧ (w1.msg.pfx.state = EIGRP_FSM_STATE_ACTIVE_0
          ∨ w1.msg.pfx.state = EIGRP_FSM_STATE_ACTIVE_2)
      ∧ ((w.msg.pfx.rij ≠ [] ∧ w' = w1)
         ∨ (w.msg.pfx.rij = [] ∧ ∃ ev msg func,
              eigrp_get_fsm_event T w1.msg = .ok (ev, msg)
              ∧ NSM_func msg.pfx.state ev = some func
              ∧ call func { w1 with msg := msg } = .ok w')) := by
  unfold eigrp_fsm_event_dinc at h
  simp only [World.set_pfx] at h
  split at h
  · cases h
  · rename_i succ hs
    refine ⟨w.set_pfx { w.msg.pfx with
        state := if w.msg.pfx.state = EIGRP_FSM_STATE_ACTIVE_1 then EIGRP_FSM_STATE_ACTIVE_0
                 else EIGRP_FSM_STATE_ACTIVE_2,
        distance := succ.distance }, rfl, ?_, ?_⟩
    · simp only [World.set_pfx]
      split
      · left; rfl
      · right; rfl
    · split at h
      · rename_i hl
        right
        refine ⟨List.length_eq_zero.mp hl, ?_⟩
        split at h
        · cases h
        · rename_i ev msg hc
          split at h
          · cases h
          · rename_i func hf
            exact ⟨ev, msg, func, hc, hf, h⟩
      · rename_i hl
        left
        refine ⟨fun hn => hl (by simp [hn]), ?_⟩
        cases h
        rfl

theorem NSM_call_rij_nil (T : Topology) :
    ∀ (fuel : Nat) (func : Handler) (w w' : World),
      w.msg.pfx.rij = [] → NSM_call T fuel func w = .ok w' → w'.msg.pfx.rij = [] := by
  intro fuel
  induction fuel with
  | zero => intro func w w' _ h; cases h
  | succ n ih =>
    intro func w w' hw h
    cases func <;> simp only [NSM_call] at h
    · rw [(keep_state_state_rij h).2, hw]
    · rw [nq_fcn_rij h, hw]
    · rw [q_fcn_rij h, hw]
    · rw [(lr_state_rij h).2, hw]
    · obtain ⟨w1, hr, -, hcase⟩ := dinc_inv h
      rcases hcase with ⟨hne, -⟩ | ⟨-, ev, msg, func, hc, -, hcall⟩
      · exact absurd hw hne
      · exact ih func _ w' ((get_fsm_event_state_rij hc).2.2.1 (hr.trans hw)) hcall
    · rw [(lr_fcs_state_rij h).2, hw]
    · rw [lr_fcn_rij h, hw]
    · rw [(qact_state_rij h).2, hw]

theorem NSM_call_passive (T : Topology) (fuel : Nat) (func : Handler) (w w' : World)
    (h : NSM_call T fuel func w = .ok w')
    (hp : w'.msg.pfx.state = EIGRP_FSM_STATE_PASSIVE) :
    w'.msg.pfx.rij = []
    ∨ (func = .eigrp_fsm_event_keep_state ∧ w.msg.pfx.state = EIGRP_FSM_STATE_PASSIVE
        ∧ w'.msg.pfx.rij = w.msg.pfx.rij)
    ∨ ((func = .eigrp_fsm_event_lr ∨ func = .eigrp_fsm_event_lr_fcs
          ∨ func = .eigrp_fsm_event_lr_fcn ∨ func = .eigrp_fsm_event_nq_fcn
          ∨ func = .eigrp_fsm_event_q_fcn) ∧ w'.msg.pfx.rij = w.msg.pfx.rij) := by
  cases fuel with
  | zero => cases h
  | succ n =>
    cases func <;> simp only [NSM_call] at h
    · right; left
      exact ⟨rfl, (keep_state_state_rij h).1 ▸ hp, (keep_state_state_rij h).2⟩
    · right; right; exact ⟨by simp, nq_fcn_rij h⟩
    · right; right; exact ⟨by simp, q_fcn_rij h⟩
    · right; right; exact ⟨by simp, (lr_state_rij h).2⟩
    · left
      obtain ⟨w1, hr, hst, hcase⟩ := dinc_inv h
      rcases hcase with ⟨-, hw'⟩ | ⟨hnil, ev, msg, func, hc, -, hcall⟩
      · subst hw'
        rw [hp] at hst
        exact absurd hst (by decide)
      · exact NSM_call_rij_nil T n func _ w'
          ((get_fsm_event_state_rij hc).2.2.1 (hr.trans hnil)) hcall
    · right; right; exact ⟨by simp, (lr_fcs_state_rij h).2⟩
    · right; right; exact ⟨by simp, lr_fcn_rij h⟩
    · have hq := (qact_state_rij h).1
      rw [hp] at hq
      exact absurd hq (by decide)

theorem get_fsm_event_fault {T : Topology} {msg : eigrp_fsm_action_message} {f : Fault}
    (h : eigrp_get_fsm_event T msg = .error f) : f ≠ .out_of_fuel := by
  unfold eigrp_get_fsm_event at h
  simp only [eigrp_topology_update_distance, rij_delete] at h
  split at h
  · rename_i f1 hm
    cases h
    unfold msg_entry at hm
    split at hm
    · cases hm
    · split at hm
      · cases hm; decide
      · cases hm
  · by_cases hs0 : msg.pfx.state = EIGRP_FSM_STATE_PASSIVE
    · simp only [hs0, if_true] at h
      split at h
      · cases h; rename_i hl; rw [list_head_error hl]; decide
      · split_ifs at h
    · simp only [hs0, if_false] at h
      by_cases hs1 : msg.pfx.state = EIGRP_FSM_STATE_ACTIVE_0
      · simp only [hs1, if_true] at h
        split_ifs at h
        all_goals first
          | cases h
          | (split at h
             · cases h; rename_i hl; rw [list_head_error hl]; decide
             · split_ifs at h)
      · simp only [hs1, if_false] at h
        by_cases hs2 : msg.pfx.state = EIGRP_FSM_STATE_ACTIVE_1
        · simp only [hs2, if_true] at h
          split_ifs at h
        · simp only [hs2, if_false] at h
          by_cases hs3 : msg.pfx.state = EIGRP_FSM_STATE_ACTIVE_2
          · simp only [hs3, if_true] at h
            split_ifs at h
            all_goals first
              | cases h
              | (split at h
                 · cases h; rename_i hl; rw [list_head_error hl]; decide
                 · split_ifs at h)
          · simp only [hs3, if_false] at h
            by_cases hs4 : msg.pfx.state = EIGRP_FSM_STATE_ACTIVE_3
            · simp only [hs4, if_true] at h
              split_ifs at h
            · simp only [hs4, if_false] at h
              cases h

theorem lr_fault {T : Topology} {w : World} {f : Fault}
    (h : eigrp_fsm_event_lr T w = .error f) : f = .empty_list_head := by
  unfold eigrp_fsm_event_lr at h
  simp only [World.set_pfx, World.add_change, World.emit, eigrp_topology_update_node_flags] at h
  split at h
  · cases h; rename_i hl; exact list_head_error hl
  · split at h
    · rename_i hr
      cases h
      split at hr
      · split at hr
        · cases hr; rename_i hl; exact list_head_error hl
        · cases hr
      · cases hr
    · cases h

theorem lr_fcs_fault {T : Topology} {w : World} {f : Fault}
    (h : eigrp_fsm_event_lr_fcs T w = .error f) : f = .empty_list_head := by
  unfold eigrp_fsm_event_lr_fcs at h
  simp only [World.set_pfx, World.add_change, World.emit, eigrp_topology_update_node_flags] at h
  split at h
  · cases h; rename_i hl; exact list_head_error hl
  · split at h
    · rename_i hr
      cases h
      split at hr
      · split at hr
        · cases hr; rename_i hl; exact list_head_error hl
        · cases hr
      · cases hr
    · cases h

theorem nq_fcn_fault {T : Topology} {w : World} {f : Fault}
    (h : eigrp_fsm_event_nq_fcn T w = .error f) : f = .empty_list_head := by
  unfold eigrp_fsm_event_nq_fcn at h
  cases hs : list_head (eigrp_topology_get_successor w.msg.pfx) with
  | error f1 =>
    simp only [hs] at h
    cases h
    exact list_head_error hs
  | ok head =>
    simp only [hs] at h
    split at h
    · cases h
    · exact lr_fault h

theorem q_fcn_fault {T : Topology} {w : World} {f : Fault}
    (h : eigrp_fsm_event_q_fcn T w = .error f) : f = .empty_list_head := by
  unfold eigrp_fsm_event_q_fcn at h
  cases hs : list_head (eigrp_topology_get_successor w.msg.pfx) with
  | error f1 =>
    simp only [hs] at h
    cases h
    exact list_head_error hs
  | ok head =>
    simp only [hs] at h
    split at h
    · cases h
    · exact lr_fault h

theorem lr_fcn_fault {T : Topology} {w : World} {f : Fault}
    (h : eigrp_fsm_event_lr_fcn T w = .error f) : f = .empty_list_head := by
  unfold eigrp_fsm_event_lr_fcn at h
  cases hs : list_head (eigrp_topology_get_successor { w.msg.pfx with state :=
        if w.msg.pfx.state = EIGRP_FSM_STATE_ACTIVE_0 then EIGRP_FSM_STATE_ACTIVE_1
        else EIGRP_FSM_STATE_ACTIVE_3 }) with
  | error f1 =>
    simp only [hs] at h
    cases h
    exact list_head_error hs
  | ok head =>
    simp only [hs] at h
    split at h
    · cases h
    · exact lr_fault h

theorem keep_state_fault {T : Topology} {w : World} {f : Fault}
    (h : eigrp_fsm_event_keep_state T w = .error f) : f = .empty_list_head := by
  unfold eigrp_fsm_event_keep_state at h
  simp only [World.set_pfx, World.add_change, World.emit, eigrp_topology_update_node_flags] at h
  split at h
  · rename_i hp
    cases h
    split at hp
    · split at hp
      · cases hp; rename_i hl; exact list_head_error hl
      · cases hp
    · cases hp
  · split at h <;> cases h

theorem qact_fault {w : World} {f : Fault}
    (h : eigrp_fsm_event_qact w = .error f) : f = .empty_list_head := by
  unfold eigrp_fsm_event_qact at h
  simp only [World.set_pfx] at h
  split at h
  · cases h; rename_i hl; exact list_head_error hl
  · cases h

theorem dinc_fault {T : Topology} {call : Handler → World → Except Fault World} {w : World}
    (hcall : ∀ s ev func w1, (s = EIGRP_FSM_STATE_ACTIVE_0 ∨ s = EIGRP_FSM_STATE_ACTIVE_2) →
      NSM_func s ev = some func → call func w1 ≠ .error .out_of_fuel) :
    eigrp_fsm_event_dinc T call w ≠ .error .out_of_fuel := by
  intro h
  unfold eigrp_fsm_event_dinc at h
  simp only [World.set_pfx] at h
  split at h
  · cases h; rename_i hl; exact absurd (list_head_error hl) (by decide)
  · split at h
    · split at h
      · rename_i hc
        cases h
        exact get_fsm_event_fault hc rfl
      · rename_i ev msg hc
        split at h
        · cases h
        · rename_i func hf
          have hst := (get_fsm_event_state_rij hc).1
          refine hcall msg.pfx.state ev func _ ?_ hf h
          rw [hst]
          simp only []
          split
          · left; rfl
          · right; rfl
    · cases h

theorem NSM_call_fuel_of_ne_dinc (T : Topology) (fuel : Nat) (func : Handler) (w : World)
    (hne : func ≠ .eigrp_fsm_event_dinc) :
    NSM_call T (fuel + 1) func w ≠ .error .out_of_fuel := by
  intro h
  cases func <;> simp only [NSM_call] at h
  · exact absurd (keep_state_fault h) (by decide)
  · exact absurd (nq_fcn_fault h) (by decide)
  · exact absurd (q_fcn_fault h) (by decide)
  · exact absurd (lr_fault h) (by decide)
  · exact hne rfl
  · exact absurd (lr_fcs_fault h) (by decide)
  · exact absurd (lr_fcn_fault h) (by decide)
  · exact absurd (qact_fault h) (by decide)

theorem NSM_call_fuel (T : Topology) (fuel : Nat) (func : Handler) (w : World) :
    NSM_call T (fuel + 2) func w ≠ .error .out_of_fuel := by
  by_cases hd : func = .eigrp_fsm_event_dinc
  · subst hd
    simp only [NSM_call]
    apply dinc_fault
    intro s ev func w1 hs hf
    exact NSM_call_fuel_of_ne_dinc T fuel func w1 ((NSM_func_cases hf).2.2.2.2 hs)
  · exact NSM_call_fuel_of_ne_dinc T (fuel + 1) func w hd


/-! ## Invariants of one FSM step -/

/-- C8: `state == PASSIVE` implies `rij` empty is an invariant of the FSM step.
For a prefix that satisfies it and any message, classifying with
`eigrp_get_fsm_event` and dispatching the returned event with `eigrp_fsm_event`
(nested calls of `lr` and the re-dispatch of `dinc` included) never exhausts a
recursion budget of two or more, and whenever the step ends in PASSIVE the
`rij` list is empty. -/
theorem fsm_step_passive_rij (T : Topology) (fuel : Nat) (w : World)
    (hinv : w.msg.pfx.state = EIGRP_FSM_STATE_PASSIVE → w.msg.pfx.rij = []) :
    fsm_step T (fuel + 2) w ≠ .error .out_of_fuel
    ∧ ∀ w', fsm_step T (fuel + 2) w = .ok w' →
        w'.msg.pfx.state = EIGRP_FSM_STATE_PASSIVE → w'.msg.pfx.rij = [] := by
  unfold fsm_step eigrp_fsm_event
  cases hc : eigrp_get_fsm_event T w.msg with
  | error f =>
    refine ⟨?_, ?_⟩
    · intro h; cases h; exact get_fsm_event_fault hc rfl
    · intro w' h; cases h
  | ok r =>
    obtain ⟨ev, msg⟩ := r
    obtain ⟨hst, hpas, -, hlast⟩ := get_fsm_event_state_rij hc
    simp only []
    cases hf : NSM_func msg.pfx.state ev with
    | none =>
      refine ⟨?_, ?_⟩
      · intro h; cases h
      · intro w' h; cases h
    | some func =>
      simp only []
      refine ⟨NSM_call_fuel T fuel func _, ?_⟩
      intro w' h hp
      obtain ⟨h1, h2, h3, h4, -⟩ := NSM_func_cases hf
      rcases NSM_call_passive T _ func _ w' h hp with hnil | ⟨-, hs, hr⟩ | ⟨hfun, hr⟩
      · exact hnil
      · rw [hr]
        have hs0 : w.msg.pfx.state = EIGRP_FSM_STATE_PASSIVE := hst ▸ hs
        exact (hpas hs0).trans (hinv hs0)
      · rw [hr]
        rcases hfun with hfun | hfun | hfun | hfun | hfun
        · exact hlast (Or.inl (h1 hfun))
        · exact hlast (Or.inr (Or.inl (h2 hfun)))
        · exact hlast (Or.inr (Or.inr (h3 hfun)))
        · have hs0 : w.msg.pfx.state = EIGRP_FSM_STATE_PASSIVE := hst ▸ h4 (Or.inl hfun)
          exact (hpas hs0).trans (hinv hs0)
        · have hs0 : w.msg.pfx.state = EIGRP_FSM_STATE_PASSIVE := hst ▸ h4 (Or.inr hfun)
          exact (hpas hs0).trans (hinv hs0)

/-- Witness of C8: the last awaited REPLY on the ACTIVE_1 sample prefix, sent by
the successor with a larger reported distance, runs `dinc`, is re-classified
in ACTIVE_0 and ends in PASSIVE with an empty `rij`. -/
theorem fsm_step_passive_rij_witness :
    ∃ w', fsm_step sample_topology 2 (sample_world 2 [1] 4 90 2) = .ok w'
      ∧ w'.msg.pfx.state = EIGRP_FSM_STATE_PASSIVE ∧ w'.msg.pfx.rij = [] :=
  ⟨_, rfl, rfl,
    (fsm_step_passive_rij sample_topology 0 (sample_world 2 [1] 4 90 2) (by decide)).2 _ rfl rfl⟩

/-- C9, as the code has it: on a prefix with a head entry, `lr` ends in PASSIVE
with `distance = fdistance = head.distance`; `lr_fcs` ends in PASSIVE with
`distance = head.distance` and `fdistance = min(old fdistance, head.distance)`,
so that `fdistance <= distance`, and `distance <= fdistance` holds exactly when
`head.distance <= old fdistance`; `keep_state` on a PASSIVE prefix stays PASSIVE
and either re-baselines `distance = fdistance = head.distance` (metric changed)
or leaves both unchanged, so it preserves `distance <= fdistance`. -/
theorem passive_distance_after_action (T : Topology) (w : World) (head : eigrp_neighbor_entry)
    (hhead : w.msg.pfx.entries.head? = some head) :
    ((w.msg.pfx.state = EIGRP_FSM_STATE_ACTIVE_3 → eigrp_topology_get_successor w.msg.pfx ≠ []) →
      ∃ w', eigrp_fsm_event_lr T w = .ok w'
        ∧ w'.msg.pfx.state = EIGRP_FSM_STATE_PASSIVE
        ∧ w'.msg.pfx.distance = head.distance ∧ w'.msg.pfx.fdistance = head.distance)
    ∧ (∃ w', eigrp_fsm_event_lr_fcs T w = .ok w'
        ∧ w'.msg.pfx.state = EIGRP_FSM_STATE_PASSIVE
        ∧ w'.msg.pfx.distance = head.distance
        ∧ w'.msg.pfx.fdistance = min w.msg.pfx.fdistance head.distance
        ∧ w'.msg.pfx.fdistance ≤ w'.msg.pfx.distance
        ∧ (w'.msg.pfx.distance ≤ w'.msg.pfx.fdistance ↔ head.distance ≤ w.msg.pfx.fdistance))
    ∧ (w.msg.pfx.state = EIGRP_FSM_STATE_PASSIVE →
      ∃ w', eigrp_fsm_event_keep_state T w = .ok w'
        ∧ w'.msg.pfx.state = EIGRP_FSM_STATE_PASSIVE
        ∧ (eigrp_metrics_is_same w.msg.pfx.reported_metric head.total_metric = false →
            w'.msg.pfx.distance = head.distance ∧ w'.msg.pfx.fdistance = head.distance)
        ∧ (eigrp_metrics_is_same w.msg.pfx.reported_metric head.total_metric = true →
            w'.msg.pfx.distance = w.msg.pfx.distance
              ∧ w'.msg.pfx.fdistance = w.msg.pfx.fdistance)
        ∧ (w.msg.pfx.distance ≤ w.msg.pfx.fdistance →
            w'.msg.pfx.distance ≤ w'.msg.pfx.fdistance)) := by
  have hh := list_head_of_head_eq hhead
  refine ⟨?_, ?_, ?_⟩
  · intro hsucc
    unfold eigrp_fsm_event_lr
    simp only [hh, World.set_pfx, World.add_change, World.emit,
      eigrp_topology_update_node_flags, eigrp_topology_get_successor] at hsucc ⊢
    by_cases hs : w.msg.pfx.state = EIGRP_FSM_STATE_ACTIVE_3
    · cases hl : w.msg.pfx.entries.filter
          (fun e => e.flags &&& EIGRP_NEIGHBOR_ENTRY_SUCCESSOR_FLAG != 0) with
      | nil => exact absurd hl (hsucc hs)
      | cons s t =>
        simp only [hs, if_true, list_head]
        exact ⟨_, rfl, rfl, rfl, rfl⟩
    · simp only [hs, if_false]
      exact ⟨_, rfl, rfl, rfl, rfl⟩
  · unfold eigrp_fsm_event_lr_fcs
    simp only [hh, World.set_pfx, World.add_change, World.emit,
      eigrp_topology_update_node_flags]
    simp only [show ¬ (EIGRP_FSM_STATE_PASSIVE = EIGRP_FSM_STATE_ACTIVE_2) by decide, if_false]
    refine ⟨_, rfl, rfl, rfl, ?_, ?_, ?_⟩
    · simp only []
      split <;> omega
    · simp only []
      split <;> omega
    · simp only []
      split <;> omega
  · intro hs
    unfold eigrp_fsm_event_keep_state
    simp only [hs, hh, if_true, World.set_pfx, World.add_change, World.emit,
      eigrp_topology_update_node_flags]
    by_cases hq : w.msg.packet_type = EIGRP_OPC_QUERY <;>
      cases hm : eigrp_metrics_is_same w.msg.pfx.reported_metric head.total_metric <;>
      simp [hq, hm, hs]


/-- Witness of C9 (amended): `lr_fcs` on the ACTIVE_0 sample prefix, whose head
N1 has distance 100 and whose feasible distance is 100. -/
theorem passive_distance_after_action_witness :
    ∃ w', eigrp_fsm_event_lr_fcs sample_topology (sample_world 1 [] 4 50 2) = .ok w'
      ∧ w'.msg.pfx.state = EIGRP_FSM_STATE_PASSIVE
      ∧ w'.msg.pfx.distance = (sample_entry 1 50 1).distance
      ∧ w'.msg.pfx.fdistance
          = min (sample_world 1 [] 4 50 2).msg.pfx.fdistance (sample_entry 1 50 1).distance
      ∧ w'.msg.pfx.fdistance ≤ w'.msg.pfx.distance
      ∧ (w'.msg.pfx.distance ≤ w'.msg.pfx.fdistance
          ↔ (sample_entry 1 50 1).distance ≤ (sample_world 1 [] 4 50 2).msg.pfx.fdistance) :=
  (passive_distance_after_action sample_topology (sample_world 1 [] 4 50 2)
    (sample_entry 1 50 1) rfl).2.1

/-- Counterexample to C9 as stated: the ACTIVE_0 sample prefix (feasible
distance 100) awaits N1 only; the REPLY of N1 with reported distance 90 and
distance 140 is classified LR_FCS, and `lr_fcs` leaves the prefix PASSIVE with
distance 140 above the feasible distance 100. -/
theorem lr_fcs_breaks_distance_le_fdistance :
    eigrp_get_fsm_event sample_topology (sample_msg 1 [1] 4 90)
        = .ok (EIGRP_FSM_EVENT_LR_FCS,
               rij_delete (eigrp_topology_update_distance sample_topology
                             (sample_msg 1 [1] 4 90)).1 (sample_entry 1 90 1))
    ∧ ∃ w', eigrp_fsm_event_lr_fcs sample_topology
              { msg := rij_delete (eigrp_topology_update_distance sample_topology
                                     (sample_msg 1 [1] 4 90)).1 (sample_entry 1 90 1),
                nbr_count := 2, sent := [] } = .ok w'
        ∧ w'.msg.pfx.state = EIGRP_FSM_STATE_PASSIVE
        ∧ w'.msg.pfx.distance = 140 ∧ w'.msg.pfx.fdistance = 100
        ∧ ¬ (w'.msg.pfx.distance ≤ w'.msg.pfx.fdistance) :=
  ⟨rfl, _, rfl, rfl, rfl, rfl, by decide⟩

/-! ## The action `nq_fcn` -/

theorem lor_land_self (a b : Nat) : (a ||| b) &&& b = b := by
  apply Nat.eq_of_testBit_eq
  intro i
  simp only [Nat.testBit_and, Nat.testBit_or]
  cases a.testBit i <;> cases b.testBit i <;> rfl

/-- C10, as the code has it: when `eigrp_fsm_event_nq_fcn` runs and at least one
neighbor exists, the prefix ends in ACTIVE_1 with `rdistance = distance =
fdistance` equal to the distance of the head of the successor list (the first
entry carrying the SUCCESSOR flag) and `reported_metric` equal to that entry's
total metric, NEED_QUERY is set in `req_action`, and the prefix is appended to
`topology_changes_internalIPV4`.  That successor is the head of the entries
whenever the head of the entries carries the SUCCESSOR flag. -/
theorem nq_fcn_with_neighbors (T : Topology) (w : World) (succ : eigrp_neighbor_entry)
    (hn : w.nbr_count ≠ 0)
    (hs : (eigrp_topology_get_successor w.msg.pfx).head? = some succ) :
    (∃ w', eigrp_fsm_event_nq_fcn T w = .ok w'
      ∧ w'.msg.pfx.state = EIGRP_FSM_STATE_ACTIVE_1
      ∧ w'.msg.pfx.rdistance = succ.distance
      ∧ w'.msg.pfx.distance = succ.distance
      ∧ w'.msg.pfx.fdistance = succ.distance
      ∧ w'.msg.pfx.reported_metric = succ.total_metric
      ∧ w'.msg.pfx.req_action = w.msg.pfx.req_action ||| EIGRP_FSM_NEED_QUERY
      ∧ w'.msg.pfx.req_action &&& EIGRP_FSM_NEED_QUERY = EIGRP_FSM_NEED_QUERY
      ∧ w'.msg.eigrp.topology_changes_internalIPV4
          = w.msg.eigrp.topology_changes_internalIPV4 ++ [w.msg.pfx.destination])
    ∧ (∀ head, w.msg.pfx.entries.head? = some head → is_successor head = true →
        succ = head) := by
  refine ⟨?_, ?_⟩
  · unfold eigrp_fsm_event_nq_fcn
    simp only [list_head_of_head_eq hs, hn, ne_eq, not_false_eq_true, if_true,
      World.set_pfx, World.add_change, listnode_add]
    exact ⟨_, rfl, rfl, rfl, rfl, rfl, rfl, rfl, lor_land_self _ _, rfl⟩
  · intro head hh hsucc
    cases he : w.msg.pfx.entries with
    | nil => rw [he] at hh; cases hh
    | cons a t =>
      rw [he] at hh
      cases hh
      unfold eigrp_topology_get_successor at hs
      unfold is_successor at hsucc
      rw [he] at hs
      simp only [List.filter_cons, hsucc, if_true, List.head?_cons] at hs
      cases hs
      rfl

/-- Witness of C10 (amended): `nq_fcn` on the PASSIVE sample prefix with two
neighbors; the head of the successor list is N1. -/
theorem nq_fcn_with_neighbors_witness :
    ∃ w', eigrp_fsm_event_nq_fcn sample_topology (sample_world 0 [] 1 50 2) = .ok w'
      ∧ w'.msg.pfx.state = EIGRP_FSM_STATE_ACTIVE_1
      ∧ w'.msg.pfx.rdistance = (sample_entry 1 50 1).distance
      ∧ w'.msg.pfx.distance = (sample_entry 1 50 1).distance
      ∧ w'.msg.pfx.fdistance = (sample_entry 1 50 1).distance
      ∧ w'.msg.pfx.reported_metric = (sample_entry 1 50 1).total_metric
      ∧ w'.msg.pfx.req_action
          = (sample_world 0 [] 1 50 2).msg.pfx.req_action ||| EIGRP_FSM_NEED_QUERY
      ∧ w'.msg.pfx.req_action &&& EIGRP_FSM_NEED_QUERY = EIGRP_FSM_NEED_QUERY
      ∧ w'.msg.eigrp.topology_changes_internalIPV4
          = (sample_world 0 [] 1 50 2).msg.eigrp.topology_changes_internalIPV4
              ++ [(sample_world 0 [] 1 50 2).msg.pfx.destination] :=
  (nq_fcn_with_neighbors sample_topology (sample_world 0 [] 1 50 2) (sample_entry 1 50 1)
    (by decide) rfl).1

/-- Counterexample to C10 as stated: on the PASSIVE sample prefix the successor
N1 raises its reported distance to 250 (distance 300).  After `update_distance`
the head of the entries is N2 (distance 200, not a successor), the event is
NQ_FCN, and `nq_fcn` snapshots distance 300 from the successor list, not the
distance 200 of the head of the entries. -/
theorem nq_fcn_snapshot_is_not_entries_head :
    eigrp_get_fsm_event sample_topology (sample_msg 0 [] 1 250)
        = .ok (EIGRP_FSM_EVENT_NQ_FCN,
               (eigrp_topology_update_distance sample_topology (sample_msg 0 [] 1 250)).1)
    ∧ (eigrp_topology_update_distance sample_topology (sample_msg 0 [] 1 250)).1.pfx.entries.head?
        = some (sample_entry 2 150 0)
    ∧ ∃ w', eigrp_fsm_event_nq_fcn sample_topology
              { msg := (eigrp_topology_update_distance sample_topology
                          (sample_msg 0 [] 1 250)).1,
                nbr_count := 2, sent := [] } = .ok w'
        ∧ w'.msg.pfx.state = EIGRP_FSM_STATE_ACTIVE_1
        ∧ w'.msg.pfx.distance = 300 ∧ w'.msg.pfx.fdistance = 300
        ∧ w'.msg.pfx.distance ≠ (sample_entry 2 150 0).distance :=
  ⟨rfl, rfl, _, rfl, rfl, rfl, rfl, by decide⟩

/-! ## The actions `nq_fcn` and `q_fcn` compared -/

/-- C11, as the code has it: `nq_fcn` and `q_fcn`, run with at least one
neighbor, move the prefix to ACTIVE_1 and ACTIVE_3, set NEED_QUERY and append
the prefix to the change list, and leave `rij` exactly as it was; the FSM never
adds a neighbor to `rij`. -/
theorem nq_fcn_q_fcn_keep_rij (T : Topology) (w : World) (succ : eigrp_neighbor_entry)
    (hn : w.nbr_count ≠ 0)
    (hs : (eigrp_topology_get_successor w.msg.pfx).head? = some succ) :
    (∃ w', eigrp_fsm_event_nq_fcn T w = .ok w'
      ∧ w'.msg.pfx.state = EIGRP_FSM_STATE_ACTIVE_1
      ∧ w'.msg.pfx.rij = w.msg.pfx.rij
      ∧ w'.msg.pfx.req_action &&& EIGRP_FSM_NEED_QUERY = EIGRP_FSM_NEED_QUERY
      ∧ w'.msg.eigrp.topology_changes_internalIPV4
          = w.msg.eigrp.topology_changes_internalIPV4 ++ [w.msg.pfx.destination])
    ∧ (∃ w', eigrp_fsm_event_q_fcn T w = .ok w'
      ∧ w'.msg.pfx.state = EIGRP_FSM_STATE_ACTIVE_3
      ∧ w'.msg.pfx.rij = w.msg.pfx.rij
      ∧ w'.msg.pfx.req_action &&& EIGRP_FSM_NEED_QUERY = EIGRP_FSM_NEED_QUERY
      ∧ w'.msg.eigrp.topology_changes_internalIPV4
          = w.msg.eigrp.topology_changes_internalIPV4 ++ [w.msg.pfx.destination]) := by
  refine ⟨?_, ?_⟩
  · unfold eigrp_fsm_event_nq_fcn
    simp only [list_head_of_head_eq hs, hn, ne_eq, not_false_eq_true, if_true,
      World.set_pfx, World.add_change, listnode_add]
    exact ⟨_, rfl, rfl, rfl, lor_land_self _ _, rfl⟩
  · unfold eigrp_fsm_event_q_fcn
    simp only [list_head_of_head_eq hs, hn, ne_eq, not_false_eq_true, if_true,
      World.set_pfx, World.add_change, listnode_add]
    exact ⟨_, rfl, rfl, rfl, lor_land_self _ _, rfl⟩

/-- Witness of C11 (amended): `nq_fcn` on the PASSIVE sample prefix with two
neighbors leaves the (empty) `rij` as it was. -/
theorem nq_fcn_q_fcn_keep_rij_witness :
    ∃ w', eigrp_fsm_event_nq_fcn sample_topology (sample_world 0 [] 1 50 2) = .ok w'
      ∧ w'.msg.pfx.state = EIGRP_FSM_STATE_ACTIVE_1
      ∧ w'.msg.pfx.rij = (sample_world 0 [] 1 50 2).msg.pfx.rij
      ∧ w'.msg.pfx.req_action &&& EIGRP_FSM_NEED_QUERY = EIGRP_FSM_NEED_QUERY
      ∧ w'.msg.eigrp.topology_changes_internalIPV4
          = (sample_world 0 [] 1 50 2).msg.eigrp.topology_changes_internalIPV4
              ++ [(sample_world 0 [] 1 50 2).msg.pfx.destination] :=
  (nq_fcn_q_fcn_keep_rij sample_topology (sample_world 0 [] 1 50 2) (sample_entry 1 50 1)
    (by decide) rfl).1

/-- Counterexample to C11 as stated (scenario S2): on the PASSIVE sample prefix
with the two neighbors N1 and N2, the UPDATE of N1 with reported distance 120
is classified NQ_FCN (and the same QUERY is classified Q_FCN); after `nq_fcn`
the prefix is ACTIVE_1, after `q_fcn` it is ACTIVE_3, and in both cases `rij` is
empty, not the set of N1 and N2. -/
theorem rij_empty_after_going_active :
    eigrp_get_fsm_event sample_topology (sample_msg 0 [] 1 120)
        = .ok (EIGRP_FSM_EVENT_NQ_FCN,
               (eigrp_topology_update_distance sample_topology (sample_msg 0 [] 1 120)).1)
    ∧ (∃ w', eigrp_fsm_event_nq_fcn sample_topology
              { msg := (eigrp_topology_update_distance sample_topology
                          (sample_msg 0 [] 1 120)).1,
                nbr_count := 2, sent := [] } = .ok w'
        ∧ w'.msg.pfx.state = EIGRP_FSM_STATE_ACTIVE_1 ∧ w'.msg.pfx.rij = [])
    ∧ eigrp_get_fsm_event sample_topology (sample_msg 0 [] 3 120)
        = .ok (EIGRP_FSM_EVENT_Q_FCN,
               (eigrp_topology_update_distance sample_topology (sample_msg 0 [] 3 120)).1)
    ∧ (∃ w', eigrp_fsm_event_q_fcn sample_topology
              { msg := (eigrp_topology_update_distance sample_topology
                          (sample_msg 0 [] 3 120)).1,
                nbr_count := 2, sent := [] } = .ok w'
        ∧ w'.msg.pfx.state = EIGRP_FSM_STATE_ACTIVE_3 ∧ w'.msg.pfx.rij = []) :=
  ⟨rfl, ⟨_, rfl, rfl, rfl⟩, rfl, ⟨_, rfl, rfl, rfl⟩⟩

/-- C12: `q_fcn` is `nq_fcn` with another target state.  On the same world both
fail together, and when they return they leave the same `rdistance`,
`distance`, `fdistance`, `reported_metric`, `req_action`, `rij`, entries and
change list; with at least one neighbor the state is ACTIVE_3 after `q_fcn`
and ACTIVE_1 after `nq_fcn`, and with no neighbor both end in PASSIVE through
`lr`.  With a successor on the list and a head entry both return. -/
theorem q_fcn_like_nq_fcn (T : Topology) (w : World) :
    (∀ f, eigrp_fsm_event_nq_fcn T w = .error f ↔ eigrp_fsm_event_q_fcn T w = .error f)
    ∧ (∀ w1, eigrp_fsm_event_nq_fcn T w = .ok w1 →
        ∃ w2, eigrp_fsm_event_q_fcn T w = .ok w2
          ∧ w2.msg.pfx.rdistance = w1.msg.pfx.rdistance
          ∧ w2.msg.pfx.distance = w1.msg.pfx.distance
          ∧ w2.msg.pfx.fdistance = w1.msg.pfx.fdistance
          ∧ w2.msg.pfx.reported_metric = w1.msg.pfx.reported_metric
          ∧ w2.msg.pfx.req_action = w1.msg.pfx.req_action
          ∧ w2.msg.pfx.rij = w1.msg.pfx.rij
          ∧ w2.msg.pfx.entries = w1.msg.pfx.entries
          ∧ w2.msg.eigrp = w1.msg.eigrp
          ∧ (w.nbr_count ≠ 0 → w1.msg.pfx.state = EIGRP_FSM_STATE_ACTIVE_1
                ∧ w2.msg.pfx.state = EIGRP_FSM_STATE_ACTIVE_3)
          ∧ (w.nbr_count = 0 → w1.msg.pfx.state = EIGRP_FSM_STATE_PASSIVE
                ∧ w2.msg.pfx.state = EIGRP_FSM_STATE_PASSIVE))
    ∧ ((∃ s, (eigrp_topology_get_successor w.msg.pfx).head? = some s) →
        ∃ w1, eigrp_fsm_event_nq_fcn T w = .ok w1) := by
  simp only [eigrp_fsm_event_nq_fcn, eigrp_fsm_event_q_fcn, eigrp_fsm_event_lr,
    eigrp_topology_get_successor, World.set_pfx, World.add_change, World.emit,
    eigrp_topology_update_node_flags]
  cases hs : w.msg.pfx.entries.filter
      (fun e => e.flags &&& EIGRP_NEIGHBOR_ENTRY_SUCCESSOR_FLAG != 0) with
  | nil => simp [list_head]
  | cons s t =>
    cases he : w.msg.pfx.entries with
    | nil => rw [he] at hs; cases hs
    | cons a l =>
      by_cases hn : w.nbr_count = 0
      · simp +decide [list_head, hn, EIGRP_FSM_STATE_ACTIVE_1, EIGRP_FSM_STATE_ACTIVE_3,
          EIGRP_FSM_STATE_PASSIVE]
      · simp +decide [list_head, hn]

/-- Witness of C12: with no neighbor left both actions end in PASSIVE through
`lr` and leave the same distances and the same change list. -/
theorem q_fcn_like_nq_fcn_witness :
    ∃ w1 w2, eigrp_fsm_event_nq_fcn sample_topology (sample_world 0 [] 3 50 0) = .ok w1
      ∧ eigrp_fsm_event_q_fcn sample_topology (sample_world 0 [] 3 50 0) = .ok w2
      ∧ w2.msg.pfx.fdistance = w1.msg.pfx.fdistance
      ∧ w2.msg.eigrp = w1.msg.eigrp
      ∧ w1.msg.pfx.state = EIGRP_FSM_STATE_PASSIVE
      ∧ w2.msg.pfx.state = EIGRP_FSM_STATE_PASSIVE := by
  obtain ⟨w2, h2, -, -, hfd, -, -, -, -, he, -, hst⟩ :=
    (q_fcn_like_nq_fcn sample_topology (sample_world 0 [] 3 50 0)).2.1 _ rfl
  exact ⟨_, w2, rfl, h2, hfd, he, (hst rfl).1, (hst rfl).2⟩

/-! ## The actions `lr` and `lr_fcs` -/

/-- C13: on a prefix with a head entry, `eigrp_fsm_event_lr` sets `fdistance =
distance = rdistance = head.distance` and `reported_metric =
head.total_metric`, ends in PASSIVE, sets NEED_UPDATE, appends the prefix to the
change list, and requests a REPLY to the current successor exactly when the
state before the action was ACTIVE_3: the trace of outbound calls grows by
that REPLY (only from ACTIVE_3) followed by the two route-installer calls. -/
theorem lr_effect (T : Topology) (w : World) (head succ : eigrp_neighbor_entry)
    (hhead : w.msg.pfx.entries.head? = some head)
    (hsucc : w.msg.pfx.state = EIGRP_FSM_STATE_ACTIVE_3 →
      (eigrp_topology_get_successor w.msg.pfx).head? = some succ) :
    ∃ w', eigrp_fsm_event_lr T w = .ok w'
      ∧ w'.msg.pfx.fdistance = head.distance
      ∧ w'.msg.pfx.distance = head.distance
      ∧ w'.msg.pfx.rdistance = head.distance
      ∧ w'.msg.pfx.reported_metric = head.total_metric
      ∧ w'.msg.pfx.state = EIGRP_FSM_STATE_PASSIVE
      ∧ w'.msg.pfx.req_action = w.msg.pfx.req_action ||| EIGRP_FSM_NEED_UPDATE
      ∧ w'.msg.pfx.req_action &&& EIGRP_FSM_NEED_UPDATE = EIGRP_FSM_NEED_UPDATE
      ∧ w'.msg.eigrp.topology_changes_internalIPV4
          = w.msg.eigrp.topology_changes_internalIPV4 ++ [w.msg.pfx.destination]
      ∧ w'.sent = w.sent
          ++ (if w.msg.pfx.state = EIGRP_FSM_STATE_ACTIVE_3 then
                [Effect.send_reply (some succ.adv_router) ReplyArg.prefix_entry]
              else [])
          ++ [Effect.update_routing_table w.msg.pfx.destination,
              Effect.update_topology_table_pfx w.msg.pfx.destination] := by
  have hh := list_head_of_head_eq hhead
  unfold eigrp_fsm_event_lr
  simp only [hh, World.set_pfx, World.add_change, World.emit,
    eigrp_topology_update_node_flags, eigrp_topology_get_successor, listnode_add] at hsucc ⊢
  by_cases hs : w.msg.pfx.state = EIGRP_FSM_STATE_ACTIVE_3
  · have hl := list_head_of_head_eq (hsucc hs)
    simp only [hs, if_true, hl]
    exact ⟨_, rfl, rfl, rfl, rfl, rfl, rfl, rfl, lor_land_self _ _, rfl, by simp⟩
  · simp only [hs, if_false]
    exact ⟨_, rfl, rfl, rfl, rfl, rfl, rfl, rfl, lor_land_self _ _, rfl, by simp⟩

/-- Witness of C13: `lr` on the ACTIVE_3 sample prefix answers the successor N1. -/
theorem lr_effect_witness :
    ∃ w', eigrp_fsm_event_lr sample_topology (sample_world 4 [] 4 50 2) = .ok w'
      ∧ w'.msg.pfx.state = EIGRP_FSM_STATE_PASSIVE
      ∧ w'.sent = [Effect.send_reply (some 1) ReplyArg.prefix_entry,
                   Effect.update_routing_table 10, Effect.update_topology_table_pfx 10] := by
  obtain ⟨w', h, -, -, -, -, hst, -, -, -, hsent⟩ :=
    lr_effect sample_topology (sample_world 4 [] 4 50 2) (sample_entry 1 50 1)
      (sample_entry 1 50 1) rfl (fun _ => rfl)
  exact ⟨w', h, hst, hsent⟩

/-- C14: on a prefix with a head entry, `eigrp_fsm_event_lr_fcs` ends in PASSIVE
with `distance = rdistance = head.distance`, `reported_metric =
head.total_metric`, `fdistance = min(old fdistance, head.distance)`, so the
feasible distance never increases, and NEED_UPDATE set. -/
theorem lr_fcs_effect (T : Topology) (w : World) (head : eigrp_neighbor_entry)
    (hhead : w.msg.pfx.entries.head? = some head) :
    ∃ w', eigrp_fsm_event_lr_fcs T w = .ok w'
      ∧ w'.msg.pfx.state = EIGRP_FSM_STATE_PASSIVE
      ∧ w'.msg.pfx.distance = head.distance
      ∧ w'.msg.pfx.rdistance = head.distance
      ∧ w'.msg.pfx.reported_metric = head.total_metric
      ∧ w'.msg.pfx.fdistance = min w.msg.pfx.fdistance head.distance
      ∧ w'.msg.pfx.fdistance ≤ w.msg.pfx.fdistance
      ∧ w'.msg.pfx.req_action = w.msg.pfx.req_action ||| EIGRP_FSM_NEED_UPDATE
      ∧ w'.msg.pfx.req_action &&& EIGRP_FSM_NEED_UPDATE = EIGRP_FSM_NEED_UPDATE := by
  have hh := list_head_of_head_eq hhead
  unfold eigrp_fsm_event_lr_fcs
  simp only [hh, World.set_pfx, World.add_change, World.emit,
    eigrp_topology_update_node_flags]
  simp only [show ¬ (EIGRP_FSM_STATE_PASSIVE = EIGRP_FSM_STATE_ACTIVE_2) by decide, if_false]
  refine ⟨_, rfl, rfl, rfl, rfl, rfl, ?_, ?_, rfl, lor_land_self _ _⟩
  · simp only []
    split <;> omega
  · simp only []
    split <;> omega

/-- Witness of C14: `lr_fcs` on the ACTIVE_0 sample prefix after the reply of N1
with distance 140 keeps the feasible distance 100. -/
theorem lr_fcs_effect_witness :
    ∃ w', eigrp_fsm_event_lr_fcs sample_topology
            { msg := rij_delete (eigrp_topology_update_distance sample_topology
                                   (sample_msg 1 [1] 4 90)).1 (sample_entry 1 90 1),
              nbr_count := 2, sent := [] } = .ok w'
      ∧ w'.msg.pfx.state = EIGRP_FSM_STATE_PASSIVE
      ∧ w'.msg.pfx.distance = 140
      ∧ w'.msg.pfx.fdistance = 100 := by
  obtain ⟨w', h, hst, hd, -, -, hfd, -⟩ :=
    lr_fcs_effect sample_topology
      { msg := rij_delete (eigrp_topology_update_distance sample_topology
                             (sample_msg 1 [1] 4 90)).1 (sample_entry 1 90 1),
        nbr_count := 2, sent := [] } (sample_entry 1 90 1) rfl
  exact ⟨w', h, hst, hd, hfd⟩

theorem lr_fcs_sent (T : Topology) (w w' : World) (h : eigrp_fsm_event_lr_fcs T w = .ok w') :
    w'.sent = w.sent ++ [Effect.update_routing_table w.msg.pfx.destination,
                         Effect.update_topology_table_pfx w.msg.pfx.destination] := by
  unfold eigrp_fsm_event_lr_fcs at h
  simp only [World.set_pfx, World.add_change, World.emit, eigrp_topology_update_node_flags] at h
  simp only [show ¬ (EIGRP_FSM_STATE_PASSIVE = EIGRP_FSM_STATE_ACTIVE_2) by decide,
    if_false] at h
  split at h
  · cases h
  · cases h
    simp

/-- C15, evaluated on the code: the ACTIVE_2 sample prefix awaits N1 only and
has the successor N1; the REPLY of N1 with reported distance 90 is classified
LR_FCS, and `lr_fcs` ends in PASSIVE having requested the two route-installer
calls and no REPLY, because the state is compared with ACTIVE_2 after it has
been overwritten with PASSIVE.  The sibling `lr`, run from ACTIVE_3 on the same
entries, does request the REPLY to N1. -/
theorem lr_fcs_from_active_2_sends_no_reply :
    eigrp_get_fsm_event sample_topology (sample_msg 3 [1] 4 90)
        = .ok (EIGRP_FSM_EVENT_LR_FCS,
               rij_delete (eigrp_topology_update_distance sample_topology
                             (sample_msg 3 [1] 4 90)).1 (sample_entry 1 90 1))
    ∧ (eigrp_topology_get_successor
          (rij_delete (eigrp_topology_update_distance sample_topology
                         (sample_msg 3 [1] 4 90)).1 (sample_entry 1 90 1)).pfx).head?
        = some (sample_entry 1 90 1)
    ∧ (∃ w', eigrp_fsm_event_lr_fcs sample_topology
              { msg := rij_delete (eigrp_topology_update_distance sample_topology
                                     (sample_msg 3 [1] 4 90)).1 (sample_entry 1 90 1),
                nbr_count := 2, sent := [] } = .ok w'
        ∧ w'.msg.pfx.state = EIGRP_FSM_STATE_PASSIVE
        ∧ w'.sent = [Effect.update_routing_table 10, Effect.update_topology_table_pfx 10])
    ∧ (∃ w', eigrp_fsm_event_lr sample_topology
              { msg := rij_delete (eigrp_topology_update_distance sample_topology
                                     (sample_msg 4 [1] 4 90)).1 (sample_entry 1 90 1),
                nbr_count := 2, sent := [] } = .ok w'
        ∧ w'.msg.pfx.state = EIGRP_FSM_STATE_PASSIVE
        ∧ w'.sent = [Effect.send_reply (some 1) ReplyArg.prefix_entry,
                     Effect.update_routing_table 10, Effect.update_topology_table_pfx 10]) :=
  ⟨rfl, rfl, ⟨_, rfl, rfl, rfl⟩, ⟨_, rfl, rfl, rfl⟩⟩

/-! ## The actions `lr_fcn`, `qact` and `dinc` -/

theorem successor_head_of_entries_head {p : eigrp_prefix_entry}
    {head succ : eigrp_neighbor_entry}
    (hs : (eigrp_topology_get_successor p).head? = some succ)
    (hh : p.entries.head? = some head) (hflag : is_successor head = true) : succ = head := by
  cases he : p.entries with
  | nil => rw [he] at hh; cases hh
  | cons a t =>
    rw [he] at hh
    cases hh
    unfold eigrp_topology_get_successor at hs
    unfold is_successor at hflag
    rw [he] at hs
    simp only [List.filter_cons, hflag, if_true, List.head?_cons] at hs
    cases hs
    rfl

/-- C16, as the code has it: when `eigrp_fsm_event_lr_fcn` runs and at least one
neighbor exists, the state goes ACTIVE_0 -> ACTIVE_1 or ACTIVE_2 -> ACTIVE_3,
`rdistance` and `distance` become the distance of the head of the successor
list (the first entry carrying the SUCCESSOR flag), `reported_metric` becomes
that entry's total metric, `fdistance` is unchanged, NEED_QUERY is set and the
prefix is appended to the change list; when no neighbor exists the action
invokes `lr` and the prefix ends PASSIVE with the distances of the head entry.
The successor is the head entry whenever the head entry carries the flag. -/
theorem lr_fcn_effect (T : Topology) (w : World) (head succ : eigrp_neighbor_entry)
    (hhead : w.msg.pfx.entries.head? = some head)
    (hs : (eigrp_topology_get_successor w.msg.pfx).head? = some succ) :
    (w.nbr_count ≠ 0 →
      ∃ w', eigrp_fsm_event_lr_fcn T w = .ok w'
        ∧ (w.msg.pfx.state = EIGRP_FSM_STATE_ACTIVE_0 →
            w'.msg.pfx.state = EIGRP_FSM_STATE_ACTIVE_1)
        ∧ (w.msg.pfx.state = EIGRP_FSM_STATE_ACTIVE_2 →
            w'.msg.pfx.state = EIGRP_FSM_STATE_ACTIVE_3)
        ∧ w'.msg.pfx.rdistance = succ.distance
        ∧ w'.msg.pfx.distance = succ.distance
        ∧ w'.msg.pfx.reported_metric = succ.total_metric
        ∧ w'.msg.pfx.fdistance = w.msg.pfx.fdistance
        ∧ w'.msg.pfx.req_action = w.msg.pfx.req_action ||| EIGRP_FSM_NEED_QUERY
        ∧ w'.msg.pfx.req_action &&& EIGRP_FSM_NEED_QUERY = EIGRP_FSM_NEED_QUERY
        ∧ w'.msg.eigrp.topology_changes_internalIPV4
            = w.msg.eigrp.topology_changes_internalIPV4 ++ [w.msg.pfx.destination])
    ∧ (w.nbr_count = 0 →
      ∃ w', eigrp_fsm_event_lr_fcn T w = .ok w'
        ∧ w'.msg.pfx.state = EIGRP_FSM_STATE_PASSIVE
        ∧ w'.msg.pfx.fdistance = head.distance
        ∧ w'.msg.pfx.distance = head.distance
        ∧ w'.msg.pfx.rdistance = head.distance)
    ∧ (is_successor head = true → succ = head) := by
  have hh := list_head_of_head_eq hhead
  have hl := list_head_of_head_eq hs
  refine ⟨?_, ?_, successor_head_of_entries_head hs hhead⟩
  · intro hn
    simp only [eigrp_fsm_event_lr_fcn, eigrp_topology_get_successor, World.set_pfx,
      World.add_change, listnode_add] at hl ⊢
    simp only [hl, hn, ne_eq, not_false_eq_true, if_true]
    refine ⟨_, rfl, ?_, ?_, rfl, rfl, rfl, rfl, rfl, lor_land_self _ _, rfl⟩
    · intro h0; simp only [h0, if_true]
    · intro h2; simp +decide only [h2, if_false]
  · intro hn
    simp only [eigrp_fsm_event_lr_fcn, eigrp_fsm_event_lr, eigrp_topology_get_successor,
      World.set_pfx, World.add_change, World.emit, eigrp_topology_update_node_flags,
      listnode_add] at hl ⊢
    simp only [hl, hh, hn, ne_eq, not_true_eq_false, if_false]
    by_cases h0 : w.msg.pfx.state = EIGRP_FSM_STATE_ACTIVE_0
    · simp +decide only [h0, if_true, if_false]
      exact ⟨_, rfl, rfl, rfl, rfl, rfl⟩
    · simp only [h0, if_true, if_false]
      exact ⟨_, rfl, rfl, rfl, rfl, rfl⟩

/-- Witness of C16 (amended): the last REPLY on the ACTIVE_0 sample prefix, from
N1 with reported distance 120, leaves N1 (distance 170) both head entry and
successor; `lr_fcn` with two neighbors moves the prefix to ACTIVE_1. -/
theorem lr_fcn_effect_witness :
    ∃ w', eigrp_fsm_event_lr_fcn sample_topology
            { msg := rij_delete (eigrp_topology_update_distance sample_topology
                                   (sample_msg 1 [1] 4 120)).1 (sample_entry 1 120 1),
              nbr_count := 2, sent := [] } = .ok w'
      ∧ w'.msg.pfx.state = EIGRP_FSM_STATE_ACTIVE_1
      ∧ w'.msg.pfx.distance = 170
      ∧ w'.msg.pfx.fdistance = 100 := by
  obtain ⟨w', h, hst, -, -, hd, -, hfd, -⟩ :=
    (lr_fcn_effect sample_topology
      { msg := rij_delete (eigrp_topology_update_distance sample_topology
                             (sample_msg 1 [1] 4 120)).1 (sample_entry 1 120 1),
        nbr_count := 2, sent := [] } (sample_entry 1 120 1) (sample_entry 1 120 1)
      rfl rfl).1 (by decide)
  exact ⟨w', h, hst rfl, hd, hfd⟩

/-- Counterexample to C16 as stated: the ACTIVE_0 sample prefix awaits N1 only;
the REPLY of the successor N1 with reported distance 250 (distance 300) leaves
N2 (distance 200, not a successor) at the head of the entries and is
classified LR_FCN; `lr_fcn` sets `distance` and `rdistance` to 300, the
distance of the successor N1, not to the 200 of the head entry. -/
theorem lr_fcn_snapshot_is_not_entries_head :
    eigrp_get_fsm_event sample_topology (sample_msg 1 [1] 4 250)
        = .ok (EIGRP_FSM_EVENT_LR_FCN,
               rij_delete (eigrp_topology_update_distance sample_topology
                             (sample_msg 1 [1] 4 250)).1 (sample_entry 1 250 1))
    ∧ (rij_delete (eigrp_topology_update_distance sample_topology
                     (sample_msg 1 [1] 4 250)).1 (sample_entry 1 250 1)).pfx.entries.head?
        = some (sample_entry 2 150 0)
    ∧ ∃ w', eigrp_fsm_event_lr_fcn sample_topology
              { msg := rij_delete (eigrp_topology_update_distance sample_topology
                                     (sample_msg 1 [1] 4 250)).1 (sample_entry 1 250 1),
                nbr_count := 2, sent := [] } = .ok w'
        ∧ w'.msg.pfx.state = EIGRP_FSM_STATE_ACTIVE_1
        ∧ w'.msg.pfx.distance = 300 ∧ w'.msg.pfx.rdistance = 300
        ∧ w'.msg.pfx.distance ≠ (sample_entry 2 150 0).distance :=
  ⟨rfl, rfl, _, rfl, rfl, rfl, rfl, by decide⟩

/-- C17, as the code has it: `eigrp_fsm_event_qact` changes only `state` and
`distance`.  Afterwards the state is ACTIVE_2 and `distance` is the distance of
the head of the successor list (the first entry carrying the SUCCESSOR flag,
which is the head entry whenever the head entry carries the flag), while
`fdistance`, `rdistance`, `reported_metric`, `rij`, `req_action`, the entries,
the change lists and the trace of outbound calls are unchanged. -/
theorem qact_effect (w : World) (succ : eigrp_neighbor_entry)
    (hs : (eigrp_topology_get_successor w.msg.pfx).head? = some succ) :
    (∃ w', eigrp_fsm_event_qact w = .ok w'
      ∧ w'.msg.pfx.state = EIGRP_FSM_STATE_ACTIVE_2
      ∧ w'.msg.pfx.distance = succ.distance
      ∧ w'.msg.pfx.fdistance = w.msg.pfx.fdistance
      ∧ w'.msg.pfx.rdistance = w.msg.pfx.rdistance
      ∧ w'.msg.pfx.reported_metric = w.msg.pfx.reported_metric
      ∧ w'.msg.pfx.rij = w.msg.pfx.rij
      ∧ w'.msg.pfx.req_action = w.msg.pfx.req_action
      ∧ w'.msg.pfx.entries = w.msg.pfx.entries
      ∧ w'.msg.pfx.destination = w.msg.pfx.destination
      ∧ w'.msg.eigrp = w.msg.eigrp
      ∧ w'.msg.entry = w.msg.entry
      ∧ w'.sent = w.sent)
    ∧ (∀ head, w.msg.pfx.entries.head? = some head → is_successor head = true →
        succ = head) := by
  have hl := list_head_of_head_eq hs
  refine ⟨?_, fun head hh hf => successor_head_of_entries_head hs hh hf⟩
  simp only [eigrp_fsm_event_qact, eigrp_topology_get_successor, World.set_pfx] at hl ⊢
  simp only [hl]
  exact ⟨_, rfl, rfl, rfl, rfl, rfl, rfl, rfl, rfl, rfl, rfl, rfl, rfl, rfl⟩

/-- Witness of C17 (amended): `qact` on the ACTIVE_1 sample prefix, whose
successor and head entry is N1 at distance 100. -/
theorem qact_effect_witness :
    ∃ w', eigrp_fsm_event_qact (sample_world 2 [1, 2] 3 50 2) = .ok w'
      ∧ w'.msg.pfx.state = EIGRP_FSM_STATE_ACTIVE_2
      ∧ w'.msg.pfx.distance = 100
      ∧ w'.msg.pfx.rij = [1, 2]
      ∧ w'.sent = [] := by
  obtain ⟨w', h, hst, hd, -, -, -, hrij, -, -, -, -, -, hsent⟩ :=
    (qact_effect (sample_world 2 [1, 2] 3 50 2) (sample_entry 1 50 1) rfl).1
  exact ⟨w', h, hst, hd, hrij, hsent⟩

/-- Counterexample to C17 as stated: on the ACTIVE_1 sample prefix the QUERY of
the successor N1 with reported distance 250 (distance 300) leaves N2 (distance
200) at the head of the entries and is classified QACT; `qact` sets `distance`
to 300, the distance of the successor N1, not to the 200 of the head entry. -/
theorem qact_distance_is_not_entries_head :
    eigrp_get_fsm_event sample_topology (sample_msg 2 [1, 2] 3 250)
        = .ok (EIGRP_FSM_EVENT_QACT,
               (eigrp_topology_update_distance sample_topology
                  (sample_msg 2 [1, 2] 3 250)).1)
    ∧ (eigrp_topology_update_distance sample_topology
          (sample_msg 2 [1, 2] 3 250)).1.pfx.entries.head?
        = some (sample_entry 2 150 0)
    ∧ ∃ w', eigrp_fsm_event_qact
              { msg := (eigrp_topology_update_distance sample_topology
                          (sample_msg 2 [1, 2] 3 250)).1,
                nbr_count := 2, sent := [] } = .ok w'
        ∧ w'.msg.pfx.state = EIGRP_FSM_STATE_ACTIVE_2
        ∧ w'.msg.pfx.distance = 300
        ∧ w'.msg.pfx.distance ≠ (sample_entry 2 150 0).distance :=
  ⟨rfl, rfl, _, rfl, rfl, rfl, by decide⟩

/-- C18, as the code has it: `eigrp_fsm_event_dinc` moves ACTIVE_1 to ACTIVE_0
and ACTIVE_3 to ACTIVE_2, sets `distance` to the distance of the head of the
successor list (the first entry carrying the SUCCESSOR flag, which is the head
entry whenever the head entry carries the flag) and leaves `fdistance`
unchanged.  If `rij` is non-empty nothing else happens; if `rij` is empty the
message is re-classified in the new state and the function of the cell of the
new state and the new event is called once, its result being the result of
`dinc`. -/
theorem dinc_effect (T : Topology) (call : Handler → World → Except Fault World)
    (w w1 : World) (succ : eigrp_neighbor_entry)
    (hs : (eigrp_topology_get_successor w.msg.pfx).head? = some succ)
    (hw1 : w1 = w.set_pfx { w.msg.pfx with
              state := if w.msg.pfx.state = EIGRP_FSM_STATE_ACTIVE_1
                         then EIGRP_FSM_STATE_ACTIVE_0 else EIGRP_FSM_STATE_ACTIVE_2,
              distance := succ.distance }) :
    (w.msg.pfx.state = EIGRP_FSM_STATE_ACTIVE_1 → w1.msg.pfx.state = EIGRP_FSM_STATE_ACTIVE_0)
    ∧ (w.msg.pfx.state = EIGRP_FSM_STATE_ACTIVE_3 →
        w1.msg.pfx.state = EIGRP_FSM_STATE_ACTIVE_2)
    ∧ w1.msg.pfx.distance = succ.distance
    ∧ w1.msg.pfx.fdistance = w.msg.pfx.fdistance
    ∧ (w.msg.pfx.rij ≠ [] → eigrp_fsm_event_dinc T call w = .ok w1)
    ∧ (w.msg.pfx.rij = [] →
        eigrp_fsm_event_dinc T call w =
          match eigrp_get_fsm_event T w1.msg with
          | .error f => .error f
          | .ok (event, msg) =>
            match NSM_func msg.pfx.state event with
            | none => .error .nsm_index_out_of_bounds
            | some func => call func { w1 with msg := msg })
    ∧ (∀ head, w.msg.pfx.entries.head? = some head → is_successor head = true →
        succ = head) := by
  have hl := list_head_of_head_eq hs
  subst hw1
  refine ⟨?_, ?_, rfl, rfl, ?_, ?_, fun head hh hf => successor_head_of_entries_head hs hh hf⟩
  · intro h1
    simp only [World.set_pfx, h1, if_true]
  · intro h3
    simp +decide only [World.set_pfx, h3, if_false]
  · intro hr
    have hlen : ¬ w.msg.pfx.rij.length = 0 := fun h => hr (List.length_eq_zero.mp h)
    simp only [eigrp_fsm_event_dinc, eigrp_topology_get_successor, World.set_pfx] at hl ⊢
    simp only [hl, hlen, if_false]
  · intro hr
    simp only [eigrp_fsm_event_dinc, eigrp_topology_get_successor, World.set_pfx] at hl ⊢
    simp only [hl, hr, List.length_nil, if_true]

/-- Witness of C18 (amended): on the ACTIVE_1 sample prefix awaiting N1 and N2,
`dinc` moves to ACTIVE_0 and returns at once. -/
theorem dinc_effect_witness :
    eigrp_fsm_event_dinc sample_topology (NSM_call sample_topology 1)
        (sample_world 2 [1, 2] 1 50 2)
      = .ok ((sample_world 2 [1, 2] 1 50 2).set_pfx
              { (sample_world 2 [1, 2] 1 50 2).msg.pfx with
                  state := EIGRP_FSM_STATE_ACTIVE_0, distance := 100 }) :=
  (dinc_effect sample_topology (NSM_call sample_topology 1) (sample_world 2 [1, 2] 1 50 2)
    _ (sample_entry 1 50 1) rfl rfl).2.2.2.2.1 (by decide)

/-- Counterexample to C18 as stated: on the ACTIVE_1 sample prefix awaiting N1
and N2, the UPDATE of the successor N1 with reported distance 250 (distance
300) leaves N2 (distance 200) at the head of the entries and is classified
DINC; `dinc` moves to ACTIVE_0 and sets `distance` to 300, the distance of the
successor N1, not to the 200 of the head entry. -/
theorem dinc_distance_is_not_entries_head :
    eigrp_get_fsm_event sample_topology (sample_msg 2 [1, 2] 1 250)
        = .ok (EIGRP_FSM_EVENT_DINC,
               (eigrp_topology_update_distance sample_topology
                  (sample_msg 2 [1, 2] 1 250)).1)
    ∧ (eigrp_topology_update_distance sample_topology
          (sample_msg 2 [1, 2] 1 250)).1.pfx.entries.head?
        = some (sample_entry 2 150 0)
    ∧ ∃ w', eigrp_fsm_event_dinc sample_topology (NSM_call sample_topology 1)
              { msg := (eigrp_topology_update_distance sample_topology
                          (sample_msg 2 [1, 2] 1 250)).1,
                nbr_count := 2, sent := [] } = .ok w'
        ∧ w'.msg.pfx.state = EIGRP_FSM_STATE_ACTIVE_0
        ∧ w'.msg.pfx.distance = 300
        ∧ w'.msg.pfx.distance ≠ (sample_entry 2 150 0).distance :=
  ⟨rfl, rfl, _, rfl, rfl, rfl, by decide⟩

/-! ## The action `keep_state` -/

/-- C19: on a PASSIVE prefix with a head entry, `eigrp_fsm_event_keep_state`
re-baselines exactly when the reported metric of the prefix differs from the
total metric of the head entry.  In that case `rdistance = fdistance =
distance = head.distance`, `reported_metric = head.total_metric`, NEED_UPDATE is
set and the prefix is appended to the change list; when the metrics are the
same, `rdistance`, `fdistance`, `distance`, `reported_metric`, `req_action` and
the change list are unchanged. -/
theorem keep_state_passive_effect (T : Topology) (w : World) (head : eigrp_neighbor_entry)
    (hstate : w.msg.pfx.state = EIGRP_FSM_STATE_PASSIVE)
    (hhead : w.msg.pfx.entries.head? = some head) :
    ∃ w', eigrp_fsm_event_keep_state T w = .ok w'
      ∧ w'.msg.pfx.state = EIGRP_FSM_STATE_PASSIVE
      ∧ (w.msg.pfx.reported_metric ≠ head.total_metric →
          w'.msg.pfx.rdistance = head.distance
          ∧ w'.msg.pfx.fdistance = head.distance
          ∧ w'.msg.pfx.distance = head.distance
          ∧ w'.msg.pfx.reported_metric = head.total_metric
          ∧ w'.msg.pfx.req_action = w.msg.pfx.req_action ||| EIGRP_FSM_NEED_UPDATE
          ∧ w'.msg.pfx.req_action &&& EIGRP_FSM_NEED_UPDATE = EIGRP_FSM_NEED_UPDATE
          ∧ w'.msg.eigrp.topology_changes_internalIPV4
              = w.msg.eigrp.topology_changes_internalIPV4 ++ [w.msg.pfx.destination])
      ∧ (w.msg.pfx.reported_metric = head.total_metric →
          w'.msg.pfx.rdistance = w.msg.pfx.rdistance
          ∧ w'.msg.pfx.fdistance = w.msg.pfx.fdistance
          ∧ w'.msg.pfx.distance = w.msg.pfx.distance
          ∧ w'.msg.pfx.reported_metric = w.msg.pfx.reported_metric
          ∧ w'.msg.pfx.req_action = w.msg.pfx.req_action
          ∧ w'.msg.eigrp = w.msg.eigrp) := by
  have hh := list_head_of_head_eq hhead
  unfold eigrp_fsm_event_keep_state
  simp only [hstate, hh, if_true, World.set_pfx, World.add_change, World.emit,
    eigrp_topology_update_node_flags, eigrp_metrics_is_same, listnode_add]
  by_cases hm : w.msg.pfx.reported_metric = head.total_metric
  · by_cases hq : w.msg.packet_type = EIGRP_OPC_QUERY <;> simp [hm, hq, hstate]
  · by_cases hq : w.msg.packet_type = EIGRP_OPC_QUERY <;>
      simp [hm, hq, lor_land_self]

/-- Witness of C19: after the UPDATE of N1 with reported distance 90 the head
entry of the PASSIVE sample prefix has a new total metric (distance 140), and
`keep_state` re-baselines the prefix to 140 and queues it. -/
theorem keep_state_passive_effect_witness :
    ∃ w', eigrp_fsm_event_keep_state sample_topology
            { msg := (eigrp_topology_update_distance sample_topology
                        (sample_msg 0 [] 1 90)).1,
              nbr_count := 2, sent := [] } = .ok w'
      ∧ w'.msg.pfx.state = EIGRP_FSM_STATE_PASSIVE
      ∧ w'.msg.pfx.fdistance = 140
      ∧ w'.msg.pfx.distance = 140
      ∧ w'.msg.pfx.req_action = 1
      ∧ w'.msg.eigrp.topology_changes_internalIPV4 = [10] := by
  obtain ⟨w', h, hst, hdiff, -⟩ :=
    keep_state_passive_effect sample_topology
      { msg := (eigrp_topology_update_distance sample_topology (sample_msg 0 [] 1 90)).1,
        nbr_count := 2, sent := [] } (sample_entry 1 90 1) rfl rfl
  obtain ⟨-, hfd, hd, -, hreq, -, hch⟩ := hdiff (by decide)
  exact ⟨w', h, hst, hfd, hd, hreq, hch⟩

/-- C20, as the code has it: every cell of `NSM` that holds `keep_state` in a
row of an ACTIVE state, the cells the classifier cannot reach included (for
example ACTIVE_0 with LR), is a no-op on the prefix: `eigrp_fsm_event` with
that event returns, leaves every field of the message, of its prefix and of
the change lists unchanged, and only requests a REPLY to the sender when the
packet is a QUERY. -/
theorem keep_cell_in_active_state (T : Topology) (fuel : Nat) (w : World) (event : Nat)
    (hactive : w.msg.pfx.state ≠ EIGRP_FSM_STATE_PASSIVE)
    (hcell : NSM_func w.msg.pfx.state event = some Handler.eigrp_fsm_event_keep_state) :
    ∃ w', eigrp_fsm_event T (fuel + 1) w event = .ok w'
      ∧ w'.msg.pfx = w.msg.pfx
      ∧ w'.msg.eigrp = w.msg.eigrp
      ∧ w'.msg = w.msg
      ∧ w'.sent = w.sent
          ++ (if w.msg.packet_type = EIGRP_OPC_QUERY then
                [Effect.send_reply w.msg.adv_router ReplyArg.prefix_entry]
              else []) := by
  simp only [eigrp_fsm_event, hcell, NSM_call, eigrp_fsm_event_keep_state, hactive, if_false,
    World.emit]
  by_cases hq : w.msg.packet_type = EIGRP_OPC_QUERY
  · simp only [hq, if_true]
    exact ⟨_, rfl, rfl, rfl, rfl, rfl⟩
  · simp only [hq, if_false]
    exact ⟨_, rfl, rfl, rfl, rfl, by simp⟩

/-- Witness of C20 (amended): event LR on the ACTIVE_0 sample prefix, a cell the
classifier cannot reach, changes nothing. -/
theorem keep_cell_in_active_state_witness :
    ∃ w', eigrp_fsm_event sample_topology 1 (sample_world 1 [1] 4 90 2) EIGRP_FSM_EVENT_LR
        = .ok w'
      ∧ w'.msg.pfx = (sample_world 1 [1] 4 90 2).msg.pfx
      ∧ w'.msg.eigrp = (sample_world 1 [1] 4 90 2).msg.eigrp
      ∧ w'.sent = [] := by
  obtain ⟨w', h, hp, he, -, hsent⟩ :=
    keep_cell_in_active_state sample_topology 0 (sample_world 1 [1] 4 90 2)
      EIGRP_FSM_EVENT_LR (by decide) rfl
  exact ⟨w', h, hp, he, hsent⟩

/-- Counterexample to C20 as stated: the cell PASSIVE with LR holds
`keep_state` and the classifier cannot produce LR in PASSIVE, yet
`eigrp_fsm_event` with LR on the PASSIVE sample prefix, whose head entry N1 has
just moved to distance 140, re-baselines the feasible distance from 100 to
140, sets NEED_UPDATE and puts the prefix on the change list. -/
theorem keep_cell_in_passive_mutates :
    NSM_func EIGRP_FSM_STATE_PASSIVE EIGRP_FSM_EVENT_LR
        = some Handler.eigrp_fsm_event_keep_state
    ∧ (eigrp_topology_update_distance sample_topology (sample_msg 0 [] 1 90)).1.pfx.fdistance
        = 100
    ∧ ∃ w', eigrp_fsm_event sample_topology 1
              { msg := (eigrp_topology_update_distance sample_topology
                          (sample_msg 0 [] 1 90)).1,
                nbr_count := 2, sent := [] } EIGRP_FSM_EVENT_LR = .ok w'
        ∧ w'.msg.pfx.state = EIGRP_FSM_STATE_PASSIVE
        ∧ w'.msg.pfx.fdistance = 140
        ∧ w'.msg.pfx.req_action = EIGRP_FSM_NEED_UPDATE
        ∧ w'.msg.eigrp.topology_changes_internalIPV4 = [10]
        ∧ w'.msg.pfx ≠ (eigrp_topology_update_distance sample_topology
                          (sample_msg 0 [] 1 90)).1.pfx :=
  ⟨rfl, rfl, _, rfl, rfl, rfl, rfl, rfl, by decide⟩

/-! ## The dispatcher and out-of-range indices -/

theorem NSM_func_out_of_range (s ev : Nat)
    (h : EIGRP_FSM_STATE_MAX ≤ s ∨ EIGRP_FSM_EVENT_MAX ≤ ev) : NSM_func s ev = none := by
  rcases s with _ | _ | _ | _ | _ | s <;>
    rcases ev with _ | _ | _ | _ | _ | _ | _ | _ | ev <;>
    simp +decide [NSM_func, NSM, EIGRP_FSM_STATE_MAX, EIGRP_FSM_EVENT_MAX] at h ⊢

theorem NSM_func_in_range (s ev : Nat)
    (hs : s < EIGRP_FSM_STATE_MAX) (he : ev < EIGRP_FSM_EVENT_MAX) :
    ∃ func, NSM_func s ev = some func := by
  rcases s with _ | _ | _ | _ | _ | s <;>
    rcases ev with _ | _ | _ | _ | _ | _ | _ | _ | ev <;>
    first
      | (simp +decide [NSM_func, NSM]; done)
      | (simp only [EIGRP_FSM_STATE_MAX, EIGRP_FSM_EVENT_MAX] at hs he; omega)

theorem NSM_memory_get :
    ∀ o : Nat, o < 40 → NSM_memory.get? o = NSM_func (o / 8) (o % 8) := by
  decide

theorem NSM_memory_length : NSM_memory.length = 40 := by decide

theorem NSM_access_inside (state : Nat) (event : Int) (offset : Nat)
    (ho : (EIGRP_FSM_EVENT_MAX : Int) * (state : Int) + event = (offset : Int))
    (hlt : offset < EIGRP_FSM_STATE_MAX * EIGRP_FSM_EVENT_MAX) :
    NSM_access state event
      = NSM_func (offset / EIGRP_FSM_EVENT_MAX) (offset % EIGRP_FSM_EVENT_MAX) := by
  have hn : ¬ ((offset : Int) < 0) := by omega
  simp only [NSM_access, ho, hn, if_false, Int.toNat_ofNat]
  exact NSM_memory_get offset hlt

theorem NSM_access_outside (state : Nat) (event : Int)
    (h : (EIGRP_FSM_EVENT_MAX : Int) * (state : Int) + event < 0
        ∨ ((EIGRP_FSM_STATE_MAX * EIGRP_FSM_EVENT_MAX : Nat) : Int)
            ≤ (EIGRP_FSM_EVENT_MAX : Int) * (state : Int) + event) :
    NSM_access state event = none := by
  unfold NSM_access
  simp only
  split_ifs with hneg
  · rfl
  · rcases h with h | h
    · exact absurd h hneg
    · rw [List.get?_eq_none]
      rw [NSM_memory_length]
      have : (40 : Int) ≤ (EIGRP_FSM_EVENT_MAX : Int) * (state : Int) + event := by
        simpa [EIGRP_FSM_STATE_MAX, EIGRP_FSM_EVENT_MAX] using h
      omega

/-- C21, as the code has it: `eigrp_fsm_event` makes no range check and rejects
nothing.  It calls the word the access `NSM[state][event]` reads, the cell at
offset `8 * state + event` of the contiguous table.  For a state in 0..4 and an
event in 0..7 this is the function held by `NSM[state][event]`.  For every
other pair of indices whose offset stays inside the table, it is the function
held by the cell `NSM[offset / 8][offset % 8]` of another row, which is run on
the message like any other; and when the offset is before or past the table
the call goes through a word that is no cell of `NSM` (undefined behaviour in
C, a fault of the embedding).  In no case does the function return early. -/
theorem fsm_event_index (T : Topology) (fuel : Nat) (w : World) (event : Int) :
    (w.msg.pfx.state < EIGRP_FSM_STATE_MAX → 0 ≤ event → event < EIGRP_FSM_EVENT_MAX →
      ∃ func, NSM_func w.msg.pfx.state event.toNat = some func
        ∧ eigrp_fsm_event_unchecked T fuel w event = NSM_call T fuel func w
        ∧ eigrp_fsm_event_unchecked T fuel w event = eigrp_fsm_event T fuel w event.toNat)
    ∧ (∀ offset : Nat,
        (EIGRP_FSM_EVENT_MAX : Int) * (w.msg.pfx.state : Int) + event = (offset : Int) →
        offset < EIGRP_FSM_STATE_MAX * EIGRP_FSM_EVENT_MAX →
        ∃ func, NSM_func (offset / EIGRP_FSM_EVENT_MAX) (offset % EIGRP_FSM_EVENT_MAX)
            = some func
          ∧ eigrp_fsm_event_unchecked T fuel w event = NSM_call T fuel func w)
    ∧ ((EIGRP_FSM_EVENT_MAX : Int) * (w.msg.pfx.state : Int) + event < 0
        ∨ ((EIGRP_FSM_STATE_MAX * EIGRP_FSM_EVENT_MAX : Nat) : Int)
            ≤ (EIGRP_FSM_EVENT_MAX : Int) * (w.msg.pfx.state : Int) + event →
        eigrp_fsm_event_unchecked T fuel w event = .error .nsm_index_out_of_bounds) := by
  have hinside : ∀ offset : Nat,
      (EIGRP_FSM_EVENT_MAX : Int) * (w.msg.pfx.state : Int) + event = (offset : Int) →
      offset < EIGRP_FSM_STATE_MAX * EIGRP_FSM_EVENT_MAX →
      ∃ func, NSM_func (offset / EIGRP_FSM_EVENT_MAX) (offset % EIGRP_FSM_EVENT_MAX)
          = some func
        ∧ eigrp_fsm_event_unchecked T fuel w event = NSM_call T fuel func w := by
    intro offset ho hlt
    have ha := NSM_access_inside _ _ offset ho hlt
    obtain ⟨func, hf⟩ := NSM_func_in_range (offset / EIGRP_FSM_EVENT_MAX)
      (offset % EIGRP_FSM_EVENT_MAX)
      (by simp only [EIGRP_FSM_STATE_MAX, EIGRP_FSM_EVENT_MAX] at hlt ⊢; omega)
      (by simp only [EIGRP_FSM_EVENT_MAX]; omega)
    refine ⟨func, hf, ?_⟩
    simp only [eigrp_fsm_event_unchecked, ha, hf]
  refine ⟨?_, hinside, ?_⟩
  · intro hs h0 he
    simp only [EIGRP_FSM_STATE_MAX, EIGRP_FSM_EVENT_MAX, Nat.cast_ofNat] at hs he
    obtain ⟨func, hf, hc⟩ := hinside (8 * w.msg.pfx.state + event.toNat)
      (by simp only [EIGRP_FSM_EVENT_MAX]; push_cast; omega)
      (by simp only [EIGRP_FSM_STATE_MAX, EIGRP_FSM_EVENT_MAX]; omega)
    have hd : (8 * w.msg.pfx.state + event.toNat) / EIGRP_FSM_EVENT_MAX = w.msg.pfx.state := by
      simp only [EIGRP_FSM_EVENT_MAX]; omega
    have hm : (8 * w.msg.pfx.state + event.toNat) % EIGRP_FSM_EVENT_MAX = event.toNat := by
      simp only [EIGRP_FSM_EVENT_MAX]; omega
    rw [hd, hm] at hf
    exact ⟨func, hf, hc, by rw [hc]; simp only [eigrp_fsm_event, hf]⟩
  · intro h
    simp only [eigrp_fsm_event_unchecked, NSM_access_outside _ _ h]

/-- Witness of C21 (amended): event 7 on the ACTIVE_0 sample prefix is inside the
table and runs `keep_state`. -/
theorem fsm_event_index_witness :
    ∃ func, NSM_func (sample_world 1 [1] 4 90 2).msg.pfx.state (7 : Int).toNat = some func
      ∧ eigrp_fsm_event_unchecked sample_topology 1 (sample_world 1 [1] 4 90 2) 7
          = NSM_call sample_topology 1 func (sample_world 1 [1] 4 90 2)
      ∧ eigrp_fsm_event_unchecked sample_topology 1 (sample_world 1 [1] 4 90 2) 7
          = eigrp_fsm_event sample_topology 1 (sample_world 1 [1] 4 90 2) (7 : Int).toNat :=
  (fsm_event_index sample_topology 1 (sample_world 1 [1] 4 90 2) 7).1
    (by decide) (by decide) (by decide)

/-- Counterexample to C21 as stated.  On the ACTIVE_3 sample prefix, event
number 8 addresses `NSM[4][8]`, past the end of the table, and on a prefix whose
state number is 5, event 0 addresses `NSM[5][0]`: the call goes through a word
outside the table.  On the ACTIVE_0 sample prefix, event number 9 addresses
`NSM[1][9]`, which is the cell `NSM[2][1]` holding `eigrp_fsm_event_lr`: the
function runs, the prefix ends PASSIVE and is appended to the change list.  On
the same prefix event number -8 addresses the cell `NSM[0][0]` holding
`eigrp_fsm_event_nq_fcn`, which leaves the prefix ACTIVE_1.  No event is
rejected and the prefix is not left unchanged. -/
theorem fsm_event_out_of_range_is_not_rejected :
    eigrp_fsm_event sample_topology 2 (sample_world 4 [1] 4 90 2) 8
        = .error .nsm_index_out_of_bounds
    ∧ eigrp_fsm_event sample_topology 2 (sample_world 5 [1] 4 90 2) 0
        = .error .nsm_index_out_of_bounds
    ∧ eigrp_fsm_event_unchecked sample_topology 2 (sample_world 4 [1] 4 90 2) 8
        = .error .nsm_index_out_of_bounds
    ∧ eigrp_fsm_event_unchecked sample_topology 2 (sample_world 5 [1] 4 90 2) 0
        = .error .nsm_index_out_of_bounds
    ∧ (sample_world 1 [1] 4 90 2).msg.pfx.state = EIGRP_FSM_STATE_ACTIVE_0
    ∧ (∃ w', eigrp_fsm_event_unchecked sample_topology 2 (sample_world 1 [1] 4 90 2) 9
          = .ok w'
        ∧ eigrp_fsm_event_unchecked sample_topology 2 (sample_world 1 [1] 4 90 2) 9
          = eigrp_fsm_event_lr sample_topology (sample_world 1 [1] 4 90 2)
        ∧ w'.msg.pfx.state = EIGRP_FSM_STATE_PASSIVE
        ∧ w'.msg.pfx.req_action = EIGRP_FSM_NEED_UPDATE
        ∧ w'.msg.eigrp.topology_changes_internalIPV4 = [10])
    ∧ (∃ w', eigrp_fsm_event_unchecked sample_topology 2 (sample_world 1 [1] 4 90 2) (-8)
          = .ok w'
        ∧ w'.msg.pfx.state = EIGRP_FSM_STATE_ACTIVE_1
        ∧ w'.msg.eigrp.topology_changes_internalIPV4 = [10]) :=
  ⟨rfl, rfl, rfl, rfl, rfl, ⟨_, rfl, rfl, rfl, rfl, rfl⟩, ⟨_, rfl, rfl, rfl⟩⟩

/-! ## Request flags and the change list along a step -/

theorem lr_frame {T : Topology} {w w' : World} (h : eigrp_fsm_event_lr T w = .ok w') :
    w'.msg.pfx.destination = w.msg.pfx.destination
    ∧ (∃ m, w'.msg.pfx.req_action = w.msg.pfx.req_action ||| m)
    ∧ (w'.msg.eigrp.topology_changes_internalIPV4 = w.msg.eigrp.topology_changes_internalIPV4
        ∨ w'.msg.eigrp.topology_changes_internalIPV4
            = w.msg.eigrp.topology_changes_internalIPV4 ++ [w.msg.pfx.destination])
    ∧ w'.msg.eigrp.topology_changes_externalIPV4
        = w.msg.eigrp.topology_changes_externalIPV4 := by
  unfold eigrp_fsm_event_lr at h
  simp only [World.set_pfx, World.add_change, World.emit, eigrp_topology_update_node_flags,
    listnode_add] at h
  split at h
  · cases h
  · split at h
    · cases h
    · rename_i hr
      split at hr
      · split at hr
        · cases hr
        · cases hr; cases h; exact ⟨rfl, ⟨_, rfl⟩, Or.inr rfl, rfl⟩
      · cases hr; cases h; exact ⟨rfl, ⟨_, rfl⟩, Or.inr rfl, rfl⟩

theorem lr_fcs_frame {T : Topology} {w w' : World}
    (h : eigrp_fsm_event_lr_fcs T w = .ok w') :
    w'.msg.pfx.destination = w.msg.pfx.destination
    ∧ (∃ m, w'.msg.pfx.req_action = w.msg.pfx.req_action ||| m)
    ∧ (w'.msg.eigrp.topology_changes_internalIPV4 = w.msg.eigrp.topology_changes_internalIPV4
        ∨ w'.msg.eigrp.topology_changes_internalIPV4
            = w.msg.eigrp.topology_changes_internalIPV4 ++ [w.msg.pfx.destination])
    ∧ w'.msg.eigrp.topology_changes_externalIPV4
        = w.msg.eigrp.topology_changes_externalIPV4 := by
  unfold eigrp_fsm_event_lr_fcs at h
  simp only [World.set_pfx, World.add_change, World.emit, eigrp_topology_update_node_flags,
    listnode_add] at h
  split at h
  · cases h
  · split at h
    · cases h
    · rename_i hr
      split at hr
      · split at hr
        · cases hr
        · cases hr; cases h; exact ⟨rfl, ⟨_, rfl⟩, Or.inr rfl, rfl⟩
      · cases hr; cases h; exact ⟨rfl, ⟨_, rfl⟩, Or.inr rfl, rfl⟩

theorem nq_fcn_frame {T : Topology} {w w' : World} (h : eigrp_fsm_event_nq_fcn T w = .ok w') :
    w'.msg.pfx.destination = w.msg.pfx.destination
    ∧ (∃ m, w'.msg.pfx.req_action = w.msg.pfx.req_action ||| m)
    ∧ (w'.msg.eigrp.topology_changes_internalIPV4 = w.msg.eigrp.topology_changes_internalIPV4
        ∨ w'.msg.eigrp.topology_changes_internalIPV4
            = w.msg.eigrp.topology_changes_internalIPV4 ++ [w.msg.pfx.destination])
    ∧ w'.msg.eigrp.topology_changes_externalIPV4
        = w.msg.eigrp.topology_changes_externalIPV4 := by
  unfold eigrp_fsm_event_nq_fcn at h
  cases hs : list_head (eigrp_topology_get_successor w.msg.pfx) with
  | error f => simp [hs] at h
  | ok head =>
    simp only [hs] at h
    split at h
    · cases h; exact ⟨rfl, ⟨_, rfl⟩, Or.inr rfl, rfl⟩
    · have hl := lr_frame h
      exact hl

theorem q_fcn_frame {T : Topology} {w w' : World} (h : eigrp_fsm_event_q_fcn T w = .ok w') :
    w'.msg.pfx.destination = w.msg.pfx.destination
    ∧ (∃ m, w'.msg.pfx.req_action = w.msg.pfx.req_action ||| m)
    ∧ (w'.msg.eigrp.topology_changes_internalIPV4 = w.msg.eigrp.topology_changes_internalIPV4
        ∨ w'.msg.eigrp.topology_changes_internalIPV4
            = w.msg.eigrp.topology_changes_internalIPV4 ++ [w.msg.pfx.destination])
    ∧ w'.msg.eigrp.topology_changes_externalIPV4
        = w.msg.eigrp.topology_changes_externalIPV4 := by
  unfold eigrp_fsm_event_q_fcn at h
  cases hs : list_head (eigrp_topology_get_successor w.msg.pfx) with
  | error f => simp [hs] at h
  | ok head =>
    simp only [hs] at h
    split at h
    · cases h; exact ⟨rfl, ⟨_, rfl⟩, Or.inr rfl, rfl⟩
    · have hl := lr_frame h
      exact hl

theorem lr_fcn_frame {T : Topology} {w w' : World} (h : eigrp_fsm_event_lr_fcn T w = .ok w') :
    w'.msg.pfx.destination = w.msg.pfx.destination
    ∧ (∃ m, w'.msg.pfx.req_action = w.msg.pfx.req_action ||| m)
    ∧ (w'.msg.eigrp.topology_changes_internalIPV4 = w.msg.eigrp.topology_changes_internalIPV4
        ∨ w'.msg.eigrp.topology_changes_internalIPV4
            = w.msg.eigrp.topology_changes_internalIPV4 ++ [w.msg.pfx.destination])
    ∧ w'.msg.eigrp.topology_changes_externalIPV4
        = w.msg.eigrp.topology_changes_externalIPV4 := by
  unfold eigrp_fsm_event_lr_fcn at h
  cases hs : list_head (eigrp_topology_get_successor { w.msg.pfx with state :=
        if w.msg.pfx.state = EIGRP_FSM_STATE_ACTIVE_0 then EIGRP_FSM_STATE_ACTIVE_1
        else EIGRP_FSM_STATE_ACTIVE_3 }) with
  | error f => simp [hs] at h
  | ok head =>
    simp only [hs] at h
    split at h
    · cases h; exact ⟨rfl, ⟨_, rfl⟩, Or.inr rfl, rfl⟩
    · have hl := lr_frame h
      exact hl

theorem keep_state_frame {T : Topology} {w w' : World}
    (h : eigrp_fsm_event_keep_state T w = .ok w') :
    w'.msg.pfx.destination = w.msg.pfx.destination
    ∧ (∃ m, w'.msg.pfx.req_action = w.msg.pfx.req_action ||| m)
    ∧ (w'.msg.eigrp.topology_changes_internalIPV4 = w.msg.eigrp.topology_changes_internalIPV4
        ∨ w'.msg.eigrp.topology_changes_internalIPV4
            = w.msg.eigrp.topology_changes_internalIPV4 ++ [w.msg.pfx.destination])
    ∧ w'.msg.eigrp.topology_changes_externalIPV4
        = w.msg.eigrp.topology_changes_externalIPV4 := by
  unfold eigrp_fsm_event_keep_state at h
  simp only [World.set_pfx, World.add_change, World.emit, eigrp_topology_update_node_flags,
    listnode_add] at h
  split at h
  · cases h
  · rename_i w1 hp
    have h1 : w1.msg.pfx.destination = w.msg.pfx.destination
        ∧ (∃ m, w1.msg.pfx.req_action = w.msg.pfx.req_action ||| m)
        ∧ (w1.msg.eigrp.topology_changes_internalIPV4
              = w.msg.eigrp.topology_changes_internalIPV4
            ∨ w1.msg.eigrp.topology_changes_internalIPV4
              = w.msg.eigrp.topology_changes_internalIPV4 ++ [w.msg.pfx.destination])
        ∧ w1.msg.eigrp.topology_changes_externalIPV4
            = w.msg.eigrp.topology_changes_externalIPV4 := by
      split at hp
      · split at hp
        · cases hp
        · cases hp
          split
          · split <;> exact ⟨rfl, ⟨_, rfl⟩, Or.inr rfl, rfl⟩
          · exact ⟨rfl, ⟨0, (Nat.or_zero _).symm⟩, Or.inl rfl, rfl⟩
      · cases hp; exact ⟨rfl, ⟨0, (Nat.or_zero _).symm⟩, Or.inl rfl, rfl⟩
    split at h <;> cases h <;> exact h1

theorem qact_frame {w w' : World} (h : eigrp_fsm_event_qact w = .ok w') :
    w'.msg.pfx.destination = w.msg.pfx.destination
    ∧ (∃ m, w'.msg.pfx.req_action = w.msg.pfx.req_action ||| m)
    ∧ (w'.msg.eigrp.topology_changes_internalIPV4 = w.msg.eigrp.topology_changes_internalIPV4
        ∨ w'.msg.eigrp.topology_changes_internalIPV4
            = w.msg.eigrp.topology_changes_internalIPV4 ++ [w.msg.pfx.destination])
    ∧ w'.msg.eigrp.topology_changes_externalIPV4
        = w.msg.eigrp.topology_changes_externalIPV4 := by
  unfold eigrp_fsm_event_qact at h
  simp only [World.set_pfx] at h
  split at h
  · cases h
  · cases h; exact ⟨rfl, ⟨0, (Nat.or_zero _).symm⟩, Or.inl rfl, rfl⟩

theorem get_fsm_event_frame {T : Topology} {msg msg' : eigrp_fsm_action_message} {ev : Nat}
    (h : eigrp_get_fsm_event T msg = .ok (ev, msg')) :
    msg'.pfx.destination = msg.pfx.destination
    ∧ msg'.pfx.req_action = msg.pfx.req_action
    ∧ msg'.eigrp = msg.eigrp
    ∧ msg'.packet_type = msg.packet_type
    ∧ msg'.incoming_metric = msg.incoming_metric := by
  unfold eigrp_get_fsm_event at h
  simp only [eigrp_topology_update_distance, rij_delete] at h
  split at h
  · cases h
  · rename_i msg1 hm
    obtain ⟨hp, ht, he⟩ := msg_entry_frame hm
    have hi : msg1.incoming_metric = msg.incoming_metric := by
      unfold msg_entry at hm
      split at hm
      · cases hm; rfl
      · split at hm
        · cases hm
        · cases hm; rfl
    by_cases hs0 : msg.pfx.state = EIGRP_FSM_STATE_PASSIVE
    · simp only [hs0, if_true] at h
      split at h
      · cases h
      · split_ifs at h <;> cases h <;> simp [hp, ht, he, hi]
    · simp only [hs0, if_false] at h
      by_cases hs1 : msg.pfx.state = EIGRP_FSM_STATE_ACTIVE_0
      · simp only [hs1, if_true] at h
        split_ifs at h
        all_goals first
          | (cases h; simp [hp, ht, he, hi])
          | (split at h
             · cases h
             · split_ifs at h <;> cases h <;> simp [hp, ht, he, hi])
      · simp only [hs1, if_false] at h
        by_cases hs2 : msg.pfx.state = EIGRP_FSM_STATE_ACTIVE_1
        · simp only [hs2, if_true] at h
          split_ifs at h <;> cases h <;> simp [hp, ht, he, hi]
        · simp only [hs2, if_false] at h
          by_cases hs3 : msg.pfx.state = EIGRP_FSM_STATE_ACTIVE_2
          · simp only [hs3, if_true] at h
            split_ifs at h
            all_goals first
              | (cases h; simp [hp, ht, he, hi])
              | (split at h
                 · cases h
                 · split_ifs at h <;> cases h <;> simp [hp, ht, he, hi])
          · simp only [hs3, if_false] at h
            by_cases hs4 : msg.pfx.state = EIGRP_FSM_STATE_ACTIVE_3
            · simp only [hs4, if_true] at h
              split_ifs at h <;> cases h <;> simp [hp, ht, he, hi]
            · simp only [hs4, if_false] at h
              cases h
              simp [hp, ht, he, hi]

theorem NSM_call_frame (T : Topology) :
    ∀ (fuel : Nat) (func : Handler) (w w' : World), NSM_call T fuel func w = .ok w' →
      w'.msg.pfx.destination = w.msg.pfx.destination
      ∧ (∃ m, w'.msg.pfx.req_action = w.msg.pfx.req_action ||| m)
      ∧ (w'.msg.eigrp.topology_changes_internalIPV4
            = w.msg.eigrp.topology_changes_internalIPV4
          ∨ w'.msg.eigrp.topology_changes_internalIPV4
            = w.msg.eigrp.topology_changes_internalIPV4 ++ [w.msg.pfx.destination])
      ∧ w'.msg.eigrp.topology_changes_externalIPV4
          = w.msg.eigrp.topology_changes_externalIPV4 := by
  intro fuel
  induction fuel with
  | zero => intro func w w' h; cases h
  | succ n ih =>
    intro func w w' h
    cases func <;> simp only [NSM_call] at h
    · exact keep_state_frame h
    · exact nq_fcn_frame h
    · exact q_fcn_frame h
    · exact lr_frame h
    · unfold eigrp_fsm_event_dinc at h
      simp only [World.set_pfx] at h
      split at h
      · cases h
      · split at h
        · split at h
          · cases h
          · rename_i ev msg hc
            obtain ⟨hd, hr, he, -, -⟩ := get_fsm_event_frame hc
            split at h
            · cases h
            · have hi := ih _ _ _ h
              simp only [hd, hr, he] at hi
              exact hi
        · cases h
          exact ⟨rfl, ⟨0, (Nat.or_zero _).symm⟩, Or.inl rfl, rfl⟩
    · exact lr_fcs_frame h
    · exact lr_fcn_frame h
    · exact qact_frame h

theorem lor_land_self_left (a m : Nat) : (a ||| m) &&& a = a := by
  apply Nat.eq_of_testBit_eq
  intro i
  simp only [Nat.testBit_and, Nat.testBit_or]
  cases a.testBit i <;> cases m.testBit i <;> rfl

theorem testBit_lor_of_testBit (a m i : Nat) (h : Nat.testBit a i = true) :
    Nat.testBit (a ||| m) i = true := by
  rw [Nat.testBit_or, h, Bool.true_or]

/-- C22: no FSM operation clears a request flag.  For every state, event and
message, every bit of `req_action` (NEED_UPDATE and NEED_QUERY among them) that
is set before `eigrp_get_fsm_event`, `eigrp_fsm_event` or the whole step runs
is still set afterwards; the classifier does not write `req_action` at all. -/
theorem req_action_bits_kept (T : Topology) (fuel : Nat) (w : World) (event : Nat) :
    (∀ ev msg, eigrp_get_fsm_event T w.msg = .ok (ev, msg) →
        msg.pfx.req_action = w.msg.pfx.req_action)
    ∧ (∀ w', eigrp_fsm_event T fuel w event = .ok w' →
        (∀ i, Nat.testBit w.msg.pfx.req_action i = true →
          Nat.testBit w'.msg.pfx.req_action i = true)
        ∧ w'.msg.pfx.req_action &&& w.msg.pfx.req_action = w.msg.pfx.req_action)
    ∧ (∀ w', fsm_step T fuel w = .ok w' →
        (∀ i, Nat.testBit w.msg.pfx.req_action i = true →
          Nat.testBit w'.msg.pfx.req_action i = true)
        ∧ w'.msg.pfx.req_action &&& w.msg.pfx.req_action = w.msg.pfx.req_action) := by
  refine ⟨?_, ?_, ?_⟩
  · intro ev msg h
    exact (get_fsm_event_frame h).2.1
  · intro w' h
    unfold eigrp_fsm_event at h
    split at h
    · cases h
    · obtain ⟨-, ⟨m, hm⟩, -, -⟩ := NSM_call_frame T _ _ _ _ h
      rw [hm]
      exact ⟨fun i hi => testBit_lor_of_testBit _ _ _ hi, lor_land_self_left _ _⟩
  · intro w' h
    unfold fsm_step eigrp_fsm_event at h
    split at h
    · cases h
    · rename_i ev msg hc
      have hr := (get_fsm_event_frame hc).2.1
      split at h
      · cases h
      · obtain ⟨-, ⟨m, hm⟩, -, -⟩ := NSM_call_frame T _ _ _ _ h
        simp only [hr] at hm
        rw [hm]
        exact ⟨fun i hi => testBit_lor_of_testBit _ _ _ hi, lor_land_self_left _ _⟩

/-- Witness of C22: on an ACTIVE_1 prefix with NEED_QUERY (2) pending, the last
REPLY runs `lr`, which adds NEED_UPDATE; NEED_QUERY is still set afterwards. -/
theorem req_action_bits_kept_witness :
    ∃ w', fsm_step sample_topology 2
              { sample_world 2 [1] 4 50 2 with
                msg := { sample_msg 2 [1] 4 50 with
                         pfx := { sample_pfx 2 [1] with req_action := 2 } } } = .ok w'
      ∧ w'.msg.pfx.req_action = 3
      ∧ w'.msg.pfx.req_action &&& 2 = 2 :=
  ⟨_, rfl, rfl,
    ((req_action_bits_kept sample_topology 2
        { sample_world 2 [1] 4 50 2 with
          msg := { sample_msg 2 [1] 4 50 with
                   pfx := { sample_pfx 2 [1] with req_action := 2 } } } 0).2.2 _ rfl).2⟩

/-! ## Scenario S6 and the frame of `keep_state` -/

theorem lor_land_disjoint (a : Nat) :
    (a ||| EIGRP_FSM_NEED_UPDATE) &&& EIGRP_FSM_NEED_QUERY = a &&& EIGRP_FSM_NEED_QUERY := by
  rw [Nat.and_distrib_right]
  have h : EIGRP_FSM_NEED_UPDATE &&& EIGRP_FSM_NEED_QUERY = 0 := by decide
  rw [h, Nat.or_zero]

/-- C27 (scenario S6): when `eigrp_fsm_event_nq_fcn` or `eigrp_fsm_event_q_fcn`
runs with a successor on the list and no neighbor remains, it invokes `lr`, so
the prefix ends in PASSIVE with `fdistance = distance = rdistance` equal to
the distance of the head of its entries, `reported_metric` equal to the total
metric of that head, NEED_UPDATE set, and NEED_QUERY as it was before. -/
theorem nq_fcn_q_fcn_without_neighbors (T : Topology) (w : World)
    (head succ : eigrp_neighbor_entry)
    (hn : w.nbr_count = 0)
    (hhead : w.msg.pfx.entries.head? = some head)
    (hs : (eigrp_topology_get_successor w.msg.pfx).head? = some succ) :
    (∃ w', eigrp_fsm_event_nq_fcn T w = .ok w'
      ∧ w'.msg.pfx.state = EIGRP_FSM_STATE_PASSIVE
      ∧ w'.msg.pfx.fdistance = head.distance
      ∧ w'.msg.pfx.distance = head.distance
      ∧ w'.msg.pfx.rdistance = head.distance
      ∧ w'.msg.pfx.reported_metric = head.total_metric
      ∧ w'.msg.pfx.req_action &&& EIGRP_FSM_NEED_UPDATE = EIGRP_FSM_NEED_UPDATE
      ∧ w'.msg.pfx.req_action &&& EIGRP_FSM_NEED_QUERY
          = w.msg.pfx.req_action &&& EIGRP_FSM_NEED_QUERY)
    ∧ (∃ w', eigrp_fsm_event_q_fcn T w = .ok w'
      ∧ w'.msg.pfx.state = EIGRP_FSM_STATE_PASSIVE
      ∧ w'.msg.pfx.fdistance = head.distance
      ∧ w'.msg.pfx.distance = head.distance
      ∧ w'.msg.pfx.rdistance = head.distance
      ∧ w'.msg.pfx.reported_metric = head.total_metric
      ∧ w'.msg.pfx.req_action &&& EIGRP_FSM_NEED_UPDATE = EIGRP_FSM_NEED_UPDATE
      ∧ w'.msg.pfx.req_action &&& EIGRP_FSM_NEED_QUERY
          = w.msg.pfx.req_action &&& EIGRP_FSM_NEED_QUERY) := by
  have hh := list_head_of_head_eq hhead
  have hl := list_head_of_head_eq hs
  refine ⟨?_, ?_⟩
  · simp only [eigrp_fsm_event_nq_fcn, eigrp_fsm_event_lr, eigrp_topology_get_successor,
      World.set_pfx, World.add_change, World.emit, eigrp_topology_update_node_flags,
      listnode_add] at hl ⊢
    simp +decide only [hl, hh, hn, ne_eq, not_true_eq_false, if_false]
    exact ⟨_, rfl, rfl, rfl, rfl, rfl, rfl, lor_land_self _ _, lor_land_disjoint _⟩
  · simp only [eigrp_fsm_event_q_fcn, eigrp_fsm_event_lr, eigrp_topology_get_successor,
      World.set_pfx, World.add_change, World.emit, eigrp_topology_update_node_flags,
      listnode_add] at hl ⊢
    simp +decide only [hl, hh, hn, ne_eq, not_true_eq_false, if_false, if_true]
    exact ⟨_, rfl, rfl, rfl, rfl, rfl, rfl, lor_land_self _ _, lor_land_disjoint _⟩

/-- Witness of C27: the PASSIVE sample prefix after the UPDATE of N1 with
reported distance 120, no neighbor remaining; `nq_fcn` ends in PASSIVE with the
distance 170 of the head N1. -/
theorem nq_fcn_q_fcn_without_neighbors_witness :
    ∃ w', eigrp_fsm_event_nq_fcn sample_topology
            { msg := (eigrp_topology_update_distance sample_topology
                        (sample_msg 0 [] 1 120)).1,
              nbr_count := 0, sent := [] } = .ok w'
      ∧ w'.msg.pfx.state = EIGRP_FSM_STATE_PASSIVE
      ∧ w'.msg.pfx.fdistance = 170
      ∧ w'.msg.pfx.req_action = 1 := by
  obtain ⟨w', h, hst, hfd, -, -, -, hu, hq⟩ :=
    (nq_fcn_q_fcn_without_neighbors sample_topology
      { msg := (eigrp_topology_update_distance sample_topology (sample_msg 0 [] 1 120)).1,
        nbr_count := 0, sent := [] } (sample_entry 1 120 1) (sample_entry 1 120 1)
      rfl rfl rfl).1
  refine ⟨w', h, hst, hfd, ?_⟩
  cases h
  rfl

/-- C30: in every ACTIVE state `eigrp_fsm_event_keep_state` returns and leaves
the message, its prefix (state, distances, reported metric, `rij`,
`req_action`, the entries and their flags) and the change lists unchanged; its
only effect is one REPLY to the sender when, and only when, the triggering
packet is a QUERY. -/
theorem keep_state_active_effect (T : Topology) (w : World)
    (hactive : w.msg.pfx.state ≠ EIGRP_FSM_STATE_PASSIVE) :
    ∃ w', eigrp_fsm_event_keep_state T w = .ok w'
      ∧ w'.msg = w.msg
      ∧ w'.msg.pfx = w.msg.pfx
      ∧ w'.msg.eigrp = w.msg.eigrp
      ∧ w'.nbr_count = w.nbr_count
      ∧ (w.msg.packet_type = EIGRP_OPC_QUERY →
          w'.sent = w.sent ++ [Effect.send_reply w.msg.adv_router ReplyArg.prefix_entry])
      ∧ (w.msg.packet_type ≠ EIGRP_OPC_QUERY → w'.sent = w.sent) := by
  simp only [eigrp_fsm_event_keep_state, hactive, if_false, World.emit]
  split
  · rename_i hq
    exact ⟨_, rfl, rfl, rfl, rfl, rfl, fun _ => rfl, fun h => absurd hq h⟩
  · rename_i hq
    exact ⟨_, rfl, rfl, rfl, rfl, rfl, fun h => absurd h hq, fun _ => rfl⟩

/-- Witness of C30: a QUERY of N1 on the ACTIVE_2 sample prefix is answered and
nothing else changes. -/
theorem keep_state_active_effect_witness :
    ∃ w', eigrp_fsm_event_keep_state sample_topology (sample_world 3 [1, 2] 3 50 2) = .ok w'
      ∧ w'.msg = (sample_world 3 [1, 2] 3 50 2).msg
      ∧ w'.sent = [Effect.send_reply (some 1) ReplyArg.prefix_entry] := by
  obtain ⟨w', h, hm, -, -, -, hq, -⟩ :=
    keep_state_active_effect sample_topology (sample_world 3 [1, 2] 3 50 2) (by decide)
  exact ⟨w', h, hm, hq rfl⟩

/-! ## The router identifier -/

/-- C28: `eigrp_router_id_update` selects the router identifier by priority:
the static identifier when it is non-zero, else the previous identifier when
that is non-zero, else the identifier recommended by zebra.  Nothing else of
the instance changes, and `eigrp_if_update` is called for the interfaces of the
interface list exactly when the resulting identifier differs from the previous
one. -/
theorem router_id_update_priority (router_id_zebra : Nat) (iflist : List Nat) (e : eigrp) :
    (e.router_id_static ≠ 0 →
      (eigrp_router_id_update router_id_zebra iflist e).1.router_id = e.router_id_static)
    ∧ (e.router_id_static = 0 → e.router_id ≠ 0 →
      (eigrp_router_id_update router_id_zebra iflist e).1.router_id = e.router_id)
    ∧ (e.router_id_static = 0 → e.router_id = 0 →
      (eigrp_router_id_update router_id_zebra iflist e).1.router_id = router_id_zebra)
    ∧ (eigrp_router_id_update router_id_zebra iflist e).1
        = { e with router_id := (eigrp_router_id_update router_id_zebra iflist e).1.router_id }
    ∧ ((eigrp_router_id_update router_id_zebra iflist e).1.router_id ≠ e.router_id →
        (eigrp_router_id_update router_id_zebra iflist e).2 = iflist)
    ∧ ((eigrp_router_id_update router_id_zebra iflist e).1.router_id = e.router_id →
        (eigrp_router_id_update router_id_zebra iflist e).2 = []) := by
  simp only [eigrp_router_id_update]
  by_cases hs : e.router_id_static = 0
  · by_cases hr : e.router_id = 0
    · by_cases hz : router_id_zebra = 0
      · simp [hs, hr, hz]
      · have hz2 : ¬ (0 = router_id_zebra) := fun h => hz h.symm
        simp [hs, hr, hz, hz2]
    · simp [hs, hr]
  · by_cases hd : e.router_id = e.router_id_static
    · simp [hs, hd]
    · have hd2 : ¬ (e.router_id_static = e.router_id) := fun h => hd h.symm
      simp [hs, hd, hd2]

/-! ## The re-dispatch of `dinc` is bounded -/

theorem NSM_func_active_0_2 {s ev : Nat} {func : Handler}
    (hs : s = EIGRP_FSM_STATE_ACTIVE_0 ∨ s = EIGRP_FSM_STATE_ACTIVE_2)
    (h : NSM_func s ev = some func) :
    func = .eigrp_fsm_event_keep_state ∨ func = .eigrp_fsm_event_lr_fcs
      ∨ func = .eigrp_fsm_event_lr_fcn ∨ func = .eigrp_fsm_event_qact := by
  rcases hs with hs | hs <;> subst hs <;>
    rcases ev with _ | _ | _ | _ | _ | _ | _ | _ | ev <;>
    simp +decide [NSM_func, NSM, EIGRP_FSM_STATE_ACTIVE_0, EIGRP_FSM_STATE_ACTIVE_2] at h <;>
    subst h <;> simp

theorem dinc_call_congr (T : Topology) (call call' : Handler → World → Except Fault World)
    (w : World)
    (hcall : ∀ func w1, (func = .eigrp_fsm_event_keep_state ∨ func = .eigrp_fsm_event_lr_fcs
        ∨ func = .eigrp_fsm_event_lr_fcn ∨ func = .eigrp_fsm_event_qact) →
        call func w1 = call' func w1) :
    eigrp_fsm_event_dinc T call w = eigrp_fsm_event_dinc T call' w := by
  unfold eigrp_fsm_event_dinc
  simp only [World.set_pfx]
  split
  · rfl
  · split
    · split
      · rfl
      · rename_i ev msg hc
        have hst := (get_fsm_event_state_rij hc).1
        split
        · rfl
        · rename_i func hf
          apply hcall
          apply NSM_func_active_0_2 _ hf
          rw [hst]
          simp only []
          split
          · left; rfl
          · right; rfl
    · rfl

theorem NSM_call_fuel_irrelevant (T : Topology) (fuel : Nat) (func : Handler) (w : World) :
    NSM_call T (fuel + 2) func w = NSM_call T 2 func w := by
  cases func <;> simp only [NSM_call]
  apply dinc_call_congr
  intro func w1 hf
  rcases hf with hf | hf | hf | hf <;> subst hf <;> simp only [NSM_call]

/-- C29: the re-dispatch inside `eigrp_fsm_event_dinc` is bounded.  The cell
`dinc` calls lies in the row of ACTIVE_0 or ACTIVE_2 and therefore holds
`keep_state`, `lr_fcs`, `lr_fcn` or `qact`, never `dinc`; `dinc` uses the
dispatcher for those four functions only; a budget of two nested calls
through `NSM` is never exhausted and a larger budget changes nothing, for a
single call and for the whole step. -/
theorem dinc_redispatch_bounded (T : Topology) (fuel : Nat) (w : World) :
    (∀ s ev func, (s = EIGRP_FSM_STATE_ACTIVE_0 ∨ s = EIGRP_FSM_STATE_ACTIVE_2) →
        NSM_func s ev = some func →
        func ≠ .eigrp_fsm_event_dinc
        ∧ (func = .eigrp_fsm_event_keep_state ∨ func = .eigrp_fsm_event_lr_fcs
            ∨ func = .eigrp_fsm_event_lr_fcn ∨ func = .eigrp_fsm_event_qact))
    ∧ (∀ call call' : Handler → World → Except Fault World,
        (∀ func w1, (func = .eigrp_fsm_event_keep_state ∨ func = .eigrp_fsm_event_lr_fcs
            ∨ func = .eigrp_fsm_event_lr_fcn ∨ func = .eigrp_fsm_event_qact) →
          call func w1 = call' func w1) →
        eigrp_fsm_event_dinc T call w = eigrp_fsm_event_dinc T call' w)
    ∧ (∀ func, func ≠ .eigrp_fsm_event_dinc →
        NSM_call T (fuel + 1) func w = NSM_call T 1 func w)
    ∧ (∀ func, NSM_call T (fuel + 2) func w = NSM_call T 2 func w
        ∧ NSM_call T (fuel + 2) func w ≠ .error .out_of_fuel)
    ∧ fsm_step T (fuel + 2) w = fsm_step T 2 w
    ∧ fsm_step T (fuel + 2) w ≠ .error .out_of_fuel := by
  refine ⟨?_, fun call call' h => dinc_call_congr T call call' w h, ?_, ?_, ?_, ?_⟩
  · intro s ev func hs hf
    have h4 := NSM_func_active_0_2 hs hf
    refine ⟨?_, h4⟩
    rcases h4 with h | h | h | h <;> subst h <;> decide
  · intro func hne
    cases func <;> first | rfl | exact absurd rfl hne
  · intro func
    exact ⟨NSM_call_fuel_irrelevant T fuel func w, NSM_call_fuel T fuel func w⟩
  · unfold fsm_step eigrp_fsm_event
    split
    · rfl
    · split
      · rfl
      · exact NSM_call_fuel_irrelevant T fuel _ _
  · intro h
    unfold fsm_step eigrp_fsm_event at h
    split at h
    · rename_i f hc
      cases h
      exact get_fsm_event_fault hc rfl
    · split at h
      · cases h
      · exact NSM_call_fuel T fuel _ _ h

/-! ## The change list is appended without a membership test -/

theorem fsm_step_frame {T : Topology} {fuel : Nat} {w w' : World}
    (h : fsm_step T fuel w = .ok w') :
    w'.msg.pfx.destination = w.msg.pfx.destination
    ∧ (w'.msg.eigrp.topology_changes_internalIPV4
          = w.msg.eigrp.topology_changes_internalIPV4
        ∨ w'.msg.eigrp.topology_changes_internalIPV4
          = w.msg.eigrp.topology_changes_internalIPV4 ++ [w.msg.pfx.destination])
    ∧ w'.msg.eigrp.topology_changes_externalIPV4
        = w.msg.eigrp.topology_changes_externalIPV4 := by
  unfold fsm_step eigrp_fsm_event at h
  split at h
  · cases h
  · rename_i ev msg hc
    obtain ⟨hd, -, he, -, -⟩ := get_fsm_event_frame hc
    split at h
    · cases h
    · obtain ⟨h1, -, h3, h4⟩ := NSM_call_frame T _ _ _ _ h
      simp only [hd, he] at h1 h3 h4
      exact ⟨h1, h3, h4⟩

theorem fsm_run_frame (T : Topology) (fuel : Nat) :
    ∀ (ps : List Packet) (w w' : World), fsm_run T fuel w ps = .ok w' →
      w'.msg.pfx.destination = w.msg.pfx.destination
      ∧ (∃ k, k ≤ ps.length
          ∧ w'.msg.eigrp.topology_changes_internalIPV4
            = w.msg.eigrp.topology_changes_internalIPV4
                ++ List.replicate k w.msg.pfx.destination)
      ∧ w'.msg.eigrp.topology_changes_externalIPV4
          = w.msg.eigrp.topology_changes_externalIPV4 := by
  intro ps
  induction ps with
  | nil =>
    intro w w' h
    simp only [fsm_run] at h
    cases h
    exact ⟨rfl, ⟨0, Nat.le_refl _, by simp⟩, rfl⟩
  | cons p ps ih =>
    intro w w' h
    simp only [fsm_run] at h
    split at h
    · cases h
    · rename_i w1 h1
      unfold fsm_receive at h1
      have hf := fsm_step_frame h1
      simp only at hf
      obtain ⟨hd, hc, he⟩ := hf
      obtain ⟨hd2, ⟨k, hk, hc2⟩, he2⟩ := ih w1 w' h
      refine ⟨hd2.trans hd, ?_, he2.trans he⟩
      rcases hc with hc | hc
      · exact ⟨k, Nat.le_succ_of_le hk, by rw [hc2, hc, hd]⟩
      · refine ⟨k + 1, Nat.succ_le_succ hk, ?_⟩
        rw [hc2, hc, hd, List.append_assoc]
        rfl

/-- C23, as the code has it: `listnode_add` is called without a membership
test, so insertion on the change list is not idempotent.  One FSM step
(classify, then dispatch) leaves `topology_changes_internalIPV4` as it was or
appends the prefix once more; over a sequence of packets with no intervening
drain the list grows by `k` further occurrences of the prefix, with `k` at most
the number of packets, and the external list is never written. -/
theorem change_list_grows_with_every_step (T : Topology) (fuel : Nat) (w w' : World)
    (ps : List Packet) (h : fsm_run T fuel w ps = .ok w') :
    (∀ w1, fsm_step T fuel w = .ok w1 →
        w1.msg.eigrp.topology_changes_internalIPV4
            = w.msg.eigrp.topology_changes_internalIPV4
          ∨ w1.msg.eigrp.topology_changes_internalIPV4
            = w.msg.eigrp.topology_changes_internalIPV4 ++ [w.msg.pfx.destination])
    ∧ w'.msg.pfx.destination = w.msg.pfx.destination
    ∧ (∃ k, k ≤ ps.length
        ∧ w'.msg.eigrp.topology_changes_internalIPV4
            = w.msg.eigrp.topology_changes_internalIPV4
                ++ List.replicate k w.msg.pfx.destination
        ∧ List.count w.msg.pfx.destination w'.msg.eigrp.topology_changes_internalIPV4
            = List.count w.msg.pfx.destination w.msg.eigrp.topology_changes_internalIPV4 + k)
    ∧ w'.msg.eigrp.topology_changes_externalIPV4
        = w.msg.eigrp.topology_changes_externalIPV4 := by
  obtain ⟨hd, ⟨k, hk, hc⟩, he⟩ := fsm_run_frame T fuel ps w w' h
  refine ⟨fun w1 h1 => (fsm_step_frame h1).2.1, hd, ⟨k, hk, hc, ?_⟩, he⟩
  rw [hc, List.count_append, List.count_replicate_self]

/-- Witness of C23 (amended): two UPDATEs of N1 on the PASSIVE sample prefix. -/
theorem change_list_grows_with_every_step_witness :
    ∃ w', fsm_run sample_topology 2 (sample_world 0 [] 1 50 2)
              [⟨EIGRP_OPC_UPDATE, 1, sample_metric 90⟩, ⟨EIGRP_OPC_UPDATE, 1, sample_metric 80⟩]
            = .ok w'
      ∧ ∃ k, k ≤ 2
          ∧ w'.msg.eigrp.topology_changes_internalIPV4 = [] ++ List.replicate k 10
          ∧ List.count 10 w'.msg.eigrp.topology_changes_internalIPV4 = 0 + k :=
  ⟨_, rfl,
    (change_list_grows_with_every_step sample_topology 2 (sample_world 0 [] 1 50 2) _
      [⟨EIGRP_OPC_UPDATE, 1, sample_metric 90⟩, ⟨EIGRP_OPC_UPDATE, 1, sample_metric 80⟩]
      rfl).2.2.1⟩

/-- Counterexample to C23 as stated: the PASSIVE sample prefix (destination 10)
starts with an empty change list; N1 sends an UPDATE with reported distance 90
and then one with reported distance 80.  Both classify as KEEP_STATE, both
re-baseline the prefix and both append it, so the prefix is on
`topology_changes_internalIPV4` twice. -/
theorem change_list_holds_prefix_twice :
    List.count 10 (sample_world 0 [] 1 50 2).msg.eigrp.topology_changes_internalIPV4 ≤ 1
    ∧ ∃ w', fsm_run sample_topology 2 (sample_world 0 [] 1 50 2)
              [⟨EIGRP_OPC_UPDATE, 1, sample_metric 90⟩, ⟨EIGRP_OPC_UPDATE, 1, sample_metric 80⟩]
            = .ok w'
      ∧ w'.msg.pfx.destination = 10
      ∧ w'.msg.eigrp.topology_changes_internalIPV4 = [10, 10]
      ∧ List.count 10 w'.msg.eigrp.topology_changes_internalIPV4 = 2 :=
  ⟨by decide, _, rfl, rfl, rfl, rfl⟩

/-! ## The same UPDATE twice -/

theorem msg_entry_some {msg msg1 : eigrp_fsm_action_message} (h : msg_entry msg = .ok msg1) :
    (∃ e, msg1.entry = some e) ∧ msg1.incoming_metric = msg.incoming_metric := by
  unfold msg_entry at h
  split at h
  · rename_i e he
    cases h
    exact ⟨⟨e, he⟩, rfl⟩
  · split at h
    · cases h
    · cases h; exact ⟨⟨_, rfl⟩, rfl⟩

theorem update_step_settles_passive (T : Topology) (fuel : Nat) (w w1 : World)
    (H1 : ∀ m e, m.entry = some e →
        (T.update_distance m).entry.reported_metric = m.incoming_metric)
    (hpkt : w.msg.packet_type = EIGRP_OPC_UPDATE)
    (H3 : ∀ m1 h, msg_entry w.msg = .ok m1 → (T.update_distance m1).entries.head? = some h →
        h.reported_distance < h.distance)
    (hs : w.msg.pfx.state = EIGRP_FSM_STATE_PASSIVE)
    (h1 : fsm_step T (fuel + 1) w = .ok w1) :
    w1.msg.packet_type = EIGRP_OPC_UPDATE
    ∧ (∃ e, w1.msg.entry = some e ∧ e.reported_metric = w1.msg.incoming_metric)
    ∧ w1.msg.pfx.state < EIGRP_FSM_STATE_MAX
    ∧ (w1.msg.pfx.state = EIGRP_FSM_STATE_PASSIVE →
        ∃ h, w1.msg.pfx.entries.head? = some h
          ∧ h.reported_distance < w1.msg.pfx.fdistance
          ∧ w1.msg.pfx.reported_metric = h.total_metric) := by
  unfold fsm_step eigrp_get_fsm_event at h1
  cases hme : msg_entry w.msg with
  | error f => simp only [hme] at h1; cases h1
  | ok m1 =>
    obtain ⟨hp, ht, -⟩ := msg_entry_frame hme
    obtain ⟨⟨e0, he0⟩, hi⟩ := msg_entry_some hme
    have hrm := H1 m1 e0 he0
    have h3 := fun h => H3 m1 h hme
    have hfd : m1.pfx.fdistance = w.msg.pfx.fdistance := by rw [hp]
    simp only [hme, hs, if_true, eigrp_topology_update_distance] at h1
    cases hen : (T.update_distance m1).entries with
    | nil => simp only [hen, list_head] at h1; cases h1
    | cons a tl =>
      have ha := h3 a (by rw [hen]; rfl)
      simp only [hen, list_head, ht, hpkt] at h1
      simp only [hp, hs] at h1
      by_cases hf : a.reported_distance < w.msg.pfx.fdistance
      · cases hm : eigrp_metrics_is_same w.msg.pfx.reported_metric a.total_metric
        · simp +decide [hf, hm, eigrp_fsm_event, NSM_func, NSM, EIGRP_FSM_KEEP_STATE,
            EIGRP_FSM_STATE_PASSIVE, NSM_call, eigrp_fsm_event_keep_state, list_head,
            World.set_pfx, World.emit, World.add_change, eigrp_topology_update_node_flags,
            EIGRP_OPC_UPDATE, EIGRP_OPC_QUERY] at h1
          subst h1
          simp +decide [hrm, ha, EIGRP_OPC_UPDATE, EIGRP_FSM_STATE_MAX, EIGRP_FSM_STATE_PASSIVE]
        · have hm2 : w.msg.pfx.reported_metric = a.total_metric := by
            simpa [eigrp_metrics_is_same] using hm
          simp +decide [hf, hm, eigrp_fsm_event, NSM_func, NSM, EIGRP_FSM_KEEP_STATE,
            EIGRP_FSM_STATE_PASSIVE, NSM_call, eigrp_fsm_event_keep_state, list_head,
            World.set_pfx, World.emit, World.add_change, eigrp_topology_update_node_flags,
            EIGRP_OPC_UPDATE, EIGRP_OPC_QUERY] at h1
          subst h1
          simp +decide [hrm, hf, hm2, EIGRP_OPC_UPDATE, EIGRP_FSM_STATE_MAX,
            EIGRP_FSM_STATE_PASSIVE]
      · simp +decide only [hf, if_false, EIGRP_OPC_UPDATE, EIGRP_OPC_QUERY, eigrp_fsm_event,
          NSM_func, NSM, EIGRP_FSM_EVENT_NQ_FCN, EIGRP_FSM_STATE_PASSIVE, List.get?, NSM_call,
          eigrp_fsm_event_nq_fcn, eigrp_topology_get_successor] at h1
        cases hsucc : (a :: tl).filter
            (fun e => e.flags &&& EIGRP_NEIGHBOR_ENTRY_SUCCESSOR_FLAG != 0) with
        | nil => simp only [hsucc, list_head] at h1; cases h1
        | cons s rest =>
          by_cases hn : w.nbr_count = 0
          · simp +decide [hsucc, hn, list_head, eigrp_fsm_event_lr, World.set_pfx, World.emit,
              World.add_change, eigrp_topology_update_node_flags, EIGRP_FSM_STATE_ACTIVE_1,
              EIGRP_FSM_STATE_ACTIVE_3, EIGRP_FSM_STATE_PASSIVE] at h1
            subst h1
            simp +decide [hrm, ha, EIGRP_OPC_UPDATE, EIGRP_FSM_STATE_MAX,
              EIGRP_FSM_STATE_PASSIVE]
          · simp +decide [hsucc, hn, list_head, World.set_pfx, World.emit,
              World.add_change, EIGRP_FSM_STATE_ACTIVE_1] at h1
            subst h1
            simp +decide [hrm, EIGRP_OPC_UPDATE, EIGRP_FSM_STATE_MAX,
              EIGRP_FSM_STATE_PASSIVE]

theorem get_fsm_event_update_active_0_2 (T : Topology) (msg : eigrp_fsm_action_message)
    (e : eigrp_neighbor_entry) (hpkt : msg.packet_type = EIGRP_OPC_UPDATE)
    (he : msg.entry = some e)
    (hs : msg.pfx.state = EIGRP_FSM_STATE_ACTIVE_0 ∨ msg.pfx.state = EIGRP_FSM_STATE_ACTIVE_2) :
    eigrp_get_fsm_event T msg
      = .ok (EIGRP_FSM_KEEP_STATE, (eigrp_topology_update_distance T msg).1) := by
  have hme : msg_entry msg = .ok msg := by simp only [msg_entry, he]
  rcases hs with hs | hs <;>
    simp +decide [eigrp_get_fsm_event, hme, eigrp_topology_update_distance, hs, hpkt,
      EIGRP_FSM_STATE_PASSIVE, EIGRP_FSM_STATE_ACTIVE_0, EIGRP_FSM_STATE_ACTIVE_1,
      EIGRP_FSM_STATE_ACTIVE_2, EIGRP_OPC_UPDATE, EIGRP_OPC_QUERY, EIGRP_OPC_REPLY]

theorem dinc_update_settles (T : Topology) (fuel : Nat) (v v1 : World)
    (e : eigrp_neighbor_entry)
    (H1 : ∀ m e, m.entry = some e →
        (T.update_distance m).entry.reported_metric = m.incoming_metric)
    (hpkt : v.msg.packet_type = EIGRP_OPC_UPDATE)
    (he : v.msg.entry = some e) (hem : e.reported_metric = v.msg.incoming_metric)
    (hs : v.msg.pfx.state = EIGRP_FSM_STATE_ACTIVE_1 ∨ v.msg.pfx.state = EIGRP_FSM_STATE_ACTIVE_3)
    (h : eigrp_fsm_event_dinc T (NSM_call T (fuel + 1)) v = .ok v1) :
    v1.msg.packet_type = EIGRP_OPC_UPDATE
    ∧ (∃ e, v1.msg.entry = some e ∧ e.reported_metric = v1.msg.incoming_metric)
    ∧ (v1.msg.pfx.state = EIGRP_FSM_STATE_ACTIVE_0 ∨ v1.msg.pfx.state = EIGRP_FSM_STATE_ACTIVE_2) := by
  unfold eigrp_fsm_event_dinc at h
  simp only [World.set_pfx] at h
  split at h
  · cases h
  · rename_i succ hsucc
    split at h
    · have hc := get_fsm_event_update_active_0_2 T
        { v.msg with pfx :=
            { v.msg.pfx with
                state := if v.msg.pfx.state = EIGRP_FSM_STATE_ACTIVE_1
                  then EIGRP_FSM_STATE_ACTIVE_0 else EIGRP_FSM_STATE_ACTIVE_2,
                distance := succ.distance } } e hpkt he
        (by rcases hs with hs | hs <;> simp +decide [hs, EIGRP_FSM_STATE_ACTIVE_0,
              EIGRP_FSM_STATE_ACTIVE_1, EIGRP_FSM_STATE_ACTIVE_2, EIGRP_FSM_STATE_ACTIVE_3])
      have hH1 := H1
        { v.msg with pfx :=
            { v.msg.pfx with
                state := if v.msg.pfx.state = EIGRP_FSM_STATE_ACTIVE_1
                  then EIGRP_FSM_STATE_ACTIVE_0 else EIGRP_FSM_STATE_ACTIVE_2,
                distance := succ.distance } } e he
      simp only at hc hH1
      rw [hc] at h
      rcases hs with hs | hs <;>
      · simp +decide [hs, eigrp_topology_update_distance, NSM_func, NSM, EIGRP_FSM_KEEP_STATE,
          EIGRP_FSM_STATE_PASSIVE, EIGRP_FSM_STATE_ACTIVE_0, EIGRP_FSM_STATE_ACTIVE_1,
          EIGRP_FSM_STATE_ACTIVE_2, EIGRP_FSM_STATE_ACTIVE_3, NSM_call,
          eigrp_fsm_event_keep_state, hpkt, EIGRP_OPC_UPDATE, EIGRP_OPC_QUERY] at h hH1
        subst h
        simp +decide [hH1, EIGRP_OPC_UPDATE, EIGRP_FSM_STATE_PASSIVE, EIGRP_FSM_STATE_ACTIVE_0,
          EIGRP_FSM_STATE_ACTIVE_2]
    · cases h
      refine ⟨hpkt, ⟨e, he, hem⟩, ?_⟩
      rcases hs with hs | hs <;> simp +decide [hs, EIGRP_FSM_STATE_ACTIVE_0,
              EIGRP_FSM_STATE_ACTIVE_1, EIGRP_FSM_STATE_ACTIVE_2, EIGRP_FSM_STATE_ACTIVE_3]

theorem update_step_settles_active (T : Topology) (fuel : Nat) (w w1 : World)
    (H1 : ∀ m e, m.entry = some e →
        (T.update_distance m).entry.reported_metric = m.incoming_metric)
    (hpkt : w.msg.packet_type = EIGRP_OPC_UPDATE)
    (hs : w.msg.pfx.state ≠ EIGRP_FSM_STATE_PASSIVE)
    (h1 : fsm_step T (fuel + 2) w = .ok w1) :
    w1.msg.packet_type = EIGRP_OPC_UPDATE
    ∧ (∃ e, w1.msg.entry = some e ∧ e.reported_metric = w1.msg.incoming_metric)
    ∧ w1.msg.pfx.state < EIGRP_FSM_STATE_MAX
    ∧ w1.msg.pfx.state ≠ EIGRP_FSM_STATE_PASSIVE := by
  unfold fsm_step eigrp_get_fsm_event at h1
  cases hme : msg_entry w.msg with
  | error f => simp only [hme] at h1; cases h1
  | ok m1 =>
    obtain ⟨hp, ht, -⟩ := msg_entry_frame hme
    obtain ⟨⟨e0, he0⟩, hi⟩ := msg_entry_some hme
    have hrm := H1 m1 e0 he0
    simp only [hme, eigrp_topology_update_distance, ht, hpkt, hp] at h1
    by_cases h0 : w.msg.pfx.state = EIGRP_FSM_STATE_ACTIVE_0
    · simp +decide [h0, EIGRP_FSM_STATE_PASSIVE, EIGRP_FSM_STATE_ACTIVE_0, EIGRP_OPC_UPDATE,
        EIGRP_OPC_QUERY, EIGRP_OPC_REPLY, eigrp_fsm_event, NSM_func, NSM,
        EIGRP_FSM_KEEP_STATE, NSM_call, eigrp_fsm_event_keep_state, World.emit] at h1
      subst h1
      simp +decide [hrm, EIGRP_OPC_UPDATE, EIGRP_FSM_STATE_MAX, EIGRP_FSM_STATE_PASSIVE]
    by_cases h2 : w.msg.pfx.state = EIGRP_FSM_STATE_ACTIVE_2
    · simp +decide [h2, EIGRP_FSM_STATE_PASSIVE, EIGRP_FSM_STATE_ACTIVE_0,
        EIGRP_FSM_STATE_ACTIVE_1, EIGRP_FSM_STATE_ACTIVE_2, EIGRP_OPC_UPDATE,
        EIGRP_OPC_QUERY, EIGRP_OPC_REPLY, eigrp_fsm_event, NSM_func, NSM,
        EIGRP_FSM_KEEP_STATE, NSM_call, eigrp_fsm_event_keep_state, World.emit] at h1
      subst h1
      simp +decide [hrm, EIGRP_OPC_UPDATE, EIGRP_FSM_STATE_MAX, EIGRP_FSM_STATE_PASSIVE]
    have hdinc : ∀ v, NSM_call T (fuel + 2) .eigrp_fsm_event_dinc v
        = eigrp_fsm_event_dinc T (NSM_call T (fuel + 1)) v := fun _ => rfl
    have hkeep : ∀ v, NSM_call T (fuel + 2) .eigrp_fsm_event_keep_state v
        = eigrp_fsm_event_keep_state T v := fun _ => rfl
    have hfin : ∀ v1 : World, v1.msg.packet_type = EIGRP_OPC_UPDATE
        ∧ (∃ e, v1.msg.entry = some e ∧ e.reported_metric = v1.msg.incoming_metric)
        ∧ (v1.msg.pfx.state = EIGRP_FSM_STATE_ACTIVE_0
            ∨ v1.msg.pfx.state = EIGRP_FSM_STATE_ACTIVE_2) →
        v1.msg.packet_type = EIGRP_OPC_UPDATE
        ∧ (∃ e, v1.msg.entry = some e ∧ e.reported_metric = v1.msg.incoming_metric)
        ∧ v1.msg.pfx.state < EIGRP_FSM_STATE_MAX
        ∧ v1.msg.pfx.state ≠ EIGRP_FSM_STATE_PASSIVE := by
      intro v1 hv
      obtain ⟨ha, hb, hc⟩ := hv
      refine ⟨ha, hb, ?_⟩
      rcases hc with hc | hc <;> rw [hc] <;> decide
    by_cases h1s : w.msg.pfx.state = EIGRP_FSM_STATE_ACTIVE_1
    · by_cases hd : (T.update_distance m1).change = 1
          ∧ is_successor (T.update_distance m1).entry = true
      · simp +decide only [h1s, hd, EIGRP_FSM_STATE_PASSIVE, EIGRP_FSM_STATE_ACTIVE_0,
          EIGRP_FSM_STATE_ACTIVE_1, EIGRP_FSM_STATE_ACTIVE_2, EIGRP_OPC_UPDATE,
          EIGRP_OPC_QUERY, EIGRP_OPC_REPLY, eigrp_fsm_event, NSM_func, NSM,
          EIGRP_FSM_EVENT_DINC, if_true, if_false, and_self, List.get?, hdinc] at h1
        exact hfin _ (dinc_update_settles T fuel _ _ _ H1 rfl rfl hrm (Or.inl rfl) h1)
      · simp +decide [h1s, hd, EIGRP_FSM_STATE_PASSIVE, EIGRP_FSM_STATE_ACTIVE_0,
          EIGRP_FSM_STATE_ACTIVE_1, EIGRP_FSM_STATE_ACTIVE_2, EIGRP_OPC_UPDATE,
          EIGRP_OPC_QUERY, EIGRP_OPC_REPLY, eigrp_fsm_event, NSM_func, NSM,
          EIGRP_FSM_KEEP_STATE, NSM_call, eigrp_fsm_event_keep_state, World.emit] at h1
        subst h1
        simp +decide [hrm, EIGRP_OPC_UPDATE, EIGRP_FSM_STATE_MAX, EIGRP_FSM_STATE_PASSIVE]
    by_cases h3s : w.msg.pfx.state = EIGRP_FSM_STATE_ACTIVE_3
    · by_cases hd : (T.update_distance m1).change = 1
          ∧ is_successor (T.update_distance m1).entry = true
      · simp +decide only [h3s, hd, EIGRP_FSM_STATE_PASSIVE, EIGRP_FSM_STATE_ACTIVE_0,
          EIGRP_FSM_STATE_ACTIVE_1, EIGRP_FSM_STATE_ACTIVE_2, EIGRP_FSM_STATE_ACTIVE_3,
          EIGRP_OPC_UPDATE, EIGRP_OPC_QUERY, EIGRP_OPC_REPLY, eigrp_fsm_event, NSM_func, NSM,
          EIGRP_FSM_EVENT_DINC, if_true, if_false, and_self, List.get?, hdinc] at h1
        exact hfin _ (dinc_update_settles T fuel _ _ _ H1 rfl rfl hrm (Or.inr rfl) h1)
      · simp +decide [h3s, hd, EIGRP_FSM_STATE_PASSIVE, EIGRP_FSM_STATE_ACTIVE_0,
          EIGRP_FSM_STATE_ACTIVE_1, EIGRP_FSM_STATE_ACTIVE_2, EIGRP_FSM_STATE_ACTIVE_3,
          EIGRP_OPC_UPDATE, EIGRP_OPC_QUERY, EIGRP_OPC_REPLY, eigrp_fsm_event, NSM_func, NSM,
          EIGRP_FSM_KEEP_STATE, NSM_call, eigrp_fsm_event_keep_state, World.emit] at h1
        subst h1
        simp +decide [hrm, EIGRP_OPC_UPDATE, EIGRP_FSM_STATE_MAX, EIGRP_FSM_STATE_PASSIVE]
    · have hout : NSM_func w.msg.pfx.state EIGRP_FSM_KEEP_STATE = none := by
        apply NSM_func_out_of_range
        left
        simp only [EIGRP_FSM_STATE_MAX, EIGRP_FSM_STATE_PASSIVE, EIGRP_FSM_STATE_ACTIVE_0,
          EIGRP_FSM_STATE_ACTIVE_1, EIGRP_FSM_STATE_ACTIVE_2, EIGRP_FSM_STATE_ACTIVE_3] at *
        omega
      simp only [hs, h0, h1s, h2, h3s, if_false, eigrp_fsm_event, hp, hout] at h1
      cases h1

theorem settled_step (T : Topology) (fuel : Nat) (v : World) (e : eigrp_neighbor_entry)
    (H2 : ∀ m e, m.entry = some e → e.reported_metric = m.incoming_metric →
        T.update_distance m = ⟨m.pfx.entries, e, m.pfx.distance, 0⟩)
    (hpkt : v.msg.packet_type = EIGRP_OPC_UPDATE)
    (he : v.msg.entry = some e) (hem : e.reported_metric = v.msg.incoming_metric)
    (hst : v.msg.pfx.state < EIGRP_FSM_STATE_MAX)
    (hp : v.msg.pfx.state = EIGRP_FSM_STATE_PASSIVE →
        ∃ h, v.msg.pfx.entries.head? = some h
          ∧ h.reported_distance < v.msg.pfx.fdistance
          ∧ v.msg.pfx.reported_metric = h.total_metric) :
    ∃ v', fsm_step T (fuel + 1) v = .ok v'
      ∧ v'.msg.pfx.state = v.msg.pfx.state
      ∧ v'.msg.pfx.fdistance = v.msg.pfx.fdistance
      ∧ v'.msg.pfx.distance = v.msg.pfx.distance
      ∧ v'.msg.pfx.rdistance = v.msg.pfx.rdistance
      ∧ v'.msg.pfx.reported_metric = v.msg.pfx.reported_metric
      ∧ v'.msg.pfx.rij = v.msg.pfx.rij
      ∧ v'.msg.pfx.req_action = v.msg.pfx.req_action := by
  have hu := H2 _ _ he hem
  have hme : msg_entry v.msg = .ok v.msg := by simp only [msg_entry, he]
  have hq : ¬ (EIGRP_OPC_UPDATE = EIGRP_OPC_QUERY) := by decide
  have hr : ¬ (EIGRP_OPC_UPDATE = EIGRP_OPC_REPLY) := by decide
  have hcases : v.msg.pfx.state = 0 ∨ v.msg.pfx.state = 1 ∨ v.msg.pfx.state = 2
      ∨ v.msg.pfx.state = 3 ∨ v.msg.pfx.state = 4 := by
    simp only [EIGRP_FSM_STATE_MAX] at hst
    omega
  rcases hcases with hs | hs | hs | hs | hs
  · obtain ⟨h, hh, hfd, hrm⟩ := hp hs
    cases hen : v.msg.pfx.entries with
    | nil => rw [hen] at hh; cases hh
    | cons a tl =>
      rw [hen] at hh
      simp only [List.head?_cons, Option.some.injEq] at hh
      subst hh
      simp +decide [fsm_step, eigrp_get_fsm_event, hme, eigrp_topology_update_distance, hu, hs,
        hen, list_head, hfd, hpkt, EIGRP_FSM_STATE_PASSIVE, eigrp_fsm_event, NSM_func, NSM,
        EIGRP_FSM_KEEP_STATE, NSM_call, eigrp_fsm_event_keep_state, eigrp_metrics_is_same, hrm,
        World.set_pfx, World.emit, eigrp_topology_update_node_flags]
  all_goals
    simp +decide [fsm_step, eigrp_get_fsm_event, hme, eigrp_topology_update_distance, hu, hs,
      hpkt, EIGRP_FSM_STATE_PASSIVE, EIGRP_FSM_STATE_ACTIVE_0, EIGRP_FSM_STATE_ACTIVE_1,
      EIGRP_FSM_STATE_ACTIVE_2, EIGRP_FSM_STATE_ACTIVE_3, eigrp_fsm_event, NSM_func, NSM,
      EIGRP_FSM_KEEP_STATE, NSM_call, eigrp_fsm_event_keep_state,
      World.set_pfx, World.emit]

theorem sample_update_records_metric (m : eigrp_fsm_action_message) (e : eigrp_neighbor_entry)
    (he : m.entry = some e) :
    (sample_topology.update_distance m).entry.reported_metric = m.incoming_metric := by
  simp only [sample_topology, sample_update_distance, he]
  split
  · rename_i h
    simp only [eigrp_metrics_is_same, decide_eq_true_eq] at h
    exact h.symm
  · rfl

theorem sample_update_idempotent (m : eigrp_fsm_action_message) (e : eigrp_neighbor_entry)
    (he : m.entry = some e) (hem : e.reported_metric = m.incoming_metric) :
    sample_topology.update_distance m = ⟨m.pfx.entries, e, m.pfx.distance, 0⟩ := by
  simp only [sample_topology, sample_update_distance, he, eigrp_metrics_is_same, hem,
    decide_True, if_true]

theorem link_update_idempotent (c : Nat) (m : eigrp_fsm_action_message)
    (e : eigrp_neighbor_entry)
    (he : m.entry = some e) (hem : e.reported_metric = m.incoming_metric) :
    (link_topology c).update_distance m = ⟨m.pfx.entries, e, m.pfx.distance, 0⟩ := by
  simp only [link_topology, link_update_distance, he, eigrp_metrics_is_same, hem,
    decide_True, if_true]

/-- C24, as the code has it: applying the same UPDATE twice is idempotent only
when, after the first update, the head of the entries reports a distance below
its own distance.  Let `update_distance` leave in the message an entry that
records the incoming metric, and be a no-op reporting change 0 when the entry
already records it.  If the head of the entries after the first update has
`reported_distance < distance`, then for a prefix in any state a second FSM
step on the message of an UPDATE succeeds and leaves `state`, `fdistance`,
`distance`, `rdistance`, `reported_metric`, `rij` and `req_action` as the first
step left them. -/
theorem same_update_twice (T : Topology) (fuel : Nat) (w w1 : World)
    (H1 : ∀ m e, m.entry = some e →
        (T.update_distance m).entry.reported_metric = m.incoming_metric)
    (H2 : ∀ m e, m.entry = some e → e.reported_metric = m.incoming_metric →
        T.update_distance m = ⟨m.pfx.entries, e, m.pfx.distance, 0⟩)
    (hpkt : w.msg.packet_type = EIGRP_OPC_UPDATE)
    (H3 : ∀ m1 h, msg_entry w.msg = .ok m1 → (T.update_distance m1).entries.head? = some h →
        h.reported_distance < h.distance)
    (h1 : fsm_step T (fuel + 2) w = .ok w1) :
    ∃ w2, fsm_step T (fuel + 2) w1 = .ok w2
      ∧ w2.msg.pfx.state = w1.msg.pfx.state
      ∧ w2.msg.pfx.fdistance = w1.msg.pfx.fdistance
      ∧ w2.msg.pfx.distance = w1.msg.pfx.distance
      ∧ w2.msg.pfx.rdistance = w1.msg.pfx.rdistance
      ∧ w2.msg.pfx.reported_metric = w1.msg.pfx.reported_metric
      ∧ w2.msg.pfx.rij = w1.msg.pfx.rij
      ∧ w2.msg.pfx.req_action = w1.msg.pfx.req_action := by
  by_cases hs : w.msg.pfx.state = EIGRP_FSM_STATE_PASSIVE
  · obtain ⟨hp1, ⟨e, he, hem⟩, hst, hpas⟩ :=
      update_step_settles_passive T (fuel + 1) w w1 H1 hpkt H3 hs h1
    exact settled_step T (fuel + 1) w1 e H2 hp1 he hem hst hpas
  · obtain ⟨hp1, ⟨e, he, hem⟩, hst, hne⟩ :=
      update_step_settles_active T fuel w w1 H1 hpkt hs h1
    exact settled_step T (fuel + 1) w1 e H2 hp1 he hem hst (fun h => absurd h hne)

/-- Witness of C24 (amended): scenario S1 on the sample topology, whose links
cost 50.  The first UPDATE of N1 (reported distance 90) re-baselines the
PASSIVE prefix to feasible distance 140; the second leaves it there. -/
theorem same_update_twice_witness :
    ∃ w1, fsm_step sample_topology 2 (sample_world 0 [] 1 90 2) = .ok w1
      ∧ ∃ w2, fsm_step sample_topology 2 w1 = .ok w2
        ∧ w2.msg.pfx.state = w1.msg.pfx.state
        ∧ w2.msg.pfx.fdistance = w1.msg.pfx.fdistance
        ∧ w2.msg.pfx.distance = w1.msg.pfx.distance
        ∧ w2.msg.pfx.rdistance = w1.msg.pfx.rdistance
        ∧ w2.msg.pfx.reported_metric = w1.msg.pfx.reported_metric
        ∧ w2.msg.pfx.rij = w1.msg.pfx.rij
        ∧ w2.msg.pfx.req_action = w1.msg.pfx.req_action :=
  ⟨_, rfl,
    same_update_twice sample_topology 0 (sample_world 0 [] 1 90 2) _
      sample_update_records_metric sample_update_idempotent rfl
      (by
        intro m1 h hm hh
        have hm1 : msg_entry (sample_world 0 [] 1 90 2).msg
            = .ok (sample_world 0 [] 1 90 2).msg := rfl
        rw [hm1] at hm
        cases hm
        have hh1 : (sample_topology.update_distance (sample_world 0 [] 1 90 2).msg).entries.head?
            = some (sample_entry 1 90 1) := by decide
        rw [hh1] at hh
        cases hh
        decide)
      rfl⟩

/-- Counterexample to C24 as stated: over a link of cost 0 the successor N1 has
distance 100 = reported distance 100 and the PASSIVE prefix has feasible
distance 100.  An UPDATE of N1 lowering the metric to 60 classifies as
KEEP_STATE and re-baselines the feasible distance to 60.  The same UPDATE
again finds the entry already recording the metric (the update is a no-op with
change 0), but 60 < 60 fails the feasibility test: the event is NQ_FCN and the
prefix goes ACTIVE_1 with NEED_QUERY set. -/
theorem same_update_twice_goes_active :
    ∃ w1 w2 e,
      (direct_world 60).msg.packet_type = EIGRP_OPC_UPDATE
      ∧ fsm_step (link_topology 0) 2 (direct_world 60) = .ok w1
      ∧ w1.msg.entry = some e
      ∧ e.reported_metric = w1.msg.incoming_metric
      ∧ (link_topology 0).update_distance w1.msg = ⟨w1.msg.pfx.entries, e, w1.msg.pfx.distance, 0⟩
      ∧ fsm_step (link_topology 0) 2 w1 = .ok w2
      ∧ w1.msg.pfx.state = EIGRP_FSM_STATE_PASSIVE
      ∧ w2.msg.pfx.state = EIGRP_FSM_STATE_ACTIVE_1
      ∧ w1.msg.pfx.fdistance = 60
      ∧ w1.msg.pfx.req_action = EIGRP_FSM_NEED_UPDATE
      ∧ w2.msg.pfx.req_action = EIGRP_FSM_NEED_UPDATE ||| EIGRP_FSM_NEED_QUERY :=
  ⟨_, _, _, rfl, rfl, rfl, rfl, rfl, rfl, rfl, rfl, rfl, rfl, rfl⟩

/-! ## Sequences of UPDATEs -/

theorem get_fsm_event_update_keep (T : Topology) (msg m1 : eigrp_fsm_action_message)
    (hme : msg_entry msg = .ok m1) (hpkt : msg.packet_type = EIGRP_OPC_UPDATE)
    (hs : msg.pfx.state = EIGRP_FSM_STATE_ACTIVE_0 ∨ msg.pfx.state = EIGRP_FSM_STATE_ACTIVE_2) :
    eigrp_get_fsm_event T msg
      = .ok (EIGRP_FSM_KEEP_STATE, (eigrp_topology_update_distance T m1).1) := by
  obtain ⟨-, ht, -⟩ := msg_entry_frame hme
  rcases hs with hs | hs <;>
    simp +decide [eigrp_get_fsm_event, hme, eigrp_topology_update_distance, hs, hpkt, ht,
      EIGRP_FSM_STATE_PASSIVE, EIGRP_FSM_STATE_ACTIVE_0, EIGRP_FSM_STATE_ACTIVE_1,
      EIGRP_FSM_STATE_ACTIVE_2, EIGRP_OPC_UPDATE, EIGRP_OPC_QUERY, EIGRP_OPC_REPLY]

theorem receive_update_active_0_2 (T : Topology) (fuel : Nat) (w : World) (p : Packet)
    (hs : w.msg.pfx.state = EIGRP_FSM_STATE_ACTIVE_0
        ∨ w.msg.pfx.state = EIGRP_FSM_STATE_ACTIVE_2)
    (hp : p.kind = EIGRP_OPC_UPDATE) :
    ∃ w', fsm_receive T (fuel + 1) w p = .ok w'
      ∧ w'.msg.pfx.state = w.msg.pfx.state
      ∧ w'.msg.pfx.fdistance = w.msg.pfx.fdistance
      ∧ w'.msg.pfx.rdistance = w.msg.pfx.rdistance
      ∧ w'.msg.pfx.reported_metric = w.msg.pfx.reported_metric
      ∧ w'.msg.pfx.rij = w.msg.pfx.rij
      ∧ w'.msg.pfx.req_action = w.msg.pfx.req_action := by
  unfold fsm_receive fsm_step
  simp only
  cases hme : msg_entry
      { w.msg with packet_type := p.kind, adv_router := some p.adv_router,
                   incoming_metric := p.metric,
                   entry := w.msg.pfx.entries.find? (fun e => e.adv_router == p.adv_router) } with
  | error f =>
    unfold msg_entry at hme
    simp only at hme
    split at hme <;> cases hme
  | ok m1 =>
    obtain ⟨hpf, ht, -⟩ := msg_entry_frame hme
    simp only [hp] at hpf ht
    rw [get_fsm_event_update_keep T _ m1 hme hp hs]
    rcases hs with hs | hs <;>
      simp +decide [eigrp_fsm_event, eigrp_topology_update_distance, hpf, ht, hs, NSM_func, NSM,
        EIGRP_FSM_KEEP_STATE, EIGRP_FSM_STATE_PASSIVE, EIGRP_FSM_STATE_ACTIVE_0,
        EIGRP_FSM_STATE_ACTIVE_2, NSM_call, eigrp_fsm_event_keep_state, EIGRP_OPC_UPDATE,
        EIGRP_OPC_QUERY]

theorem run_updates_active_0_2 (T : Topology) (fuel : Nat) :
    ∀ (ps : List Packet) (w : World),
      (w.msg.pfx.state = EIGRP_FSM_STATE_ACTIVE_0
        ∨ w.msg.pfx.state = EIGRP_FSM_STATE_ACTIVE_2) →
      (∀ p ∈ ps, p.kind = EIGRP_OPC_UPDATE) →
      ∃ w', fsm_run T (fuel + 1) w ps = .ok w'
        ∧ w'.msg.pfx.state = w.msg.pfx.state
        ∧ w'.msg.pfx.fdistance = w.msg.pfx.fdistance
        ∧ w'.msg.pfx.rdistance = w.msg.pfx.rdistance
        ∧ w'.msg.pfx.reported_metric = w.msg.pfx.reported_metric
        ∧ w'.msg.pfx.rij = w.msg.pfx.rij
        ∧ w'.msg.pfx.req_action = w.msg.pfx.req_action := by
  intro ps
  induction ps with
  | nil =>
    intro w _ _
    exact ⟨w, rfl, rfl, rfl, rfl, rfl, rfl, rfl⟩
  | cons p ps ih =>
    intro w hs hps
    obtain ⟨w1, h1, a1, a2, a3, a4, a5, a6⟩ :=
      receive_update_active_0_2 T fuel w p hs (hps p (List.mem_cons_self _ _))
    obtain ⟨w2, h2, b1, b2, b3, b4, b5, b6⟩ :=
      ih w1 (by rw [a1]; exact hs) (fun q hq => hps q (List.mem_cons_of_mem _ hq))
    refine ⟨w2, ?_, b1.trans a1, b2.trans a2, b3.trans a3, b4.trans a4, b5.trans a5,
      b6.trans a6⟩
    simp only [fsm_run, h1, h2]

/-- C26, as the code has it.  Scenario S1: a PASSIVE prefix with feasible
distance 100 receives an UPDATE after which the head of its entries is N1 with
reported distance 90 and distance 140.  The classifier returns KEEP_STATE and
the step leaves the prefix PASSIVE with N1 as head.  NEED_UPDATE is set only
together with the re-baselining: when the total metric of the head differs
from the metric the prefix reported (as it does in S1, where the metric
changed), `fdistance`, `distance` and `rdistance` all become 140, NEED_UPDATE
is set and the prefix is appended to the change list; when the two metrics
coincide, `fdistance` stays 100 and `req_action` is not written. -/
theorem scenario_s1_keep_state (T : Topology) (fuel : Nat) (w : World)
    (e e1 : eigrp_neighbor_entry) (tl : List eigrp_neighbor_entry)
    (hs : w.msg.pfx.state = EIGRP_FSM_STATE_PASSIVE)
    (hfd : w.msg.pfx.fdistance = 100)
    (hpkt : w.msg.packet_type = EIGRP_OPC_UPDATE)
    (he : w.msg.entry = some e)
    (hen : (T.update_distance w.msg).entries = e1 :: tl)
    (hrd : e1.reported_distance = 90) (hd : e1.distance = 140) :
    (∃ msg, eigrp_get_fsm_event T w.msg = .ok (EIGRP_FSM_KEEP_STATE, msg))
    ∧ ∃ w', fsm_step T (fuel + 1) w = .ok w'
      ∧ w'.msg.pfx.state = EIGRP_FSM_STATE_PASSIVE
      ∧ (∃ h tl', w'.msg.pfx.entries = h :: tl' ∧ h.adv_router = e1.adv_router
          ∧ h.reported_distance = 90 ∧ h.distance = 140)
      ∧ (w.msg.pfx.reported_metric ≠ e1.total_metric →
          w'.msg.pfx.fdistance = 140 ∧ w'.msg.pfx.distance = 140
          ∧ w'.msg.pfx.rdistance = 140
          ∧ w'.msg.pfx.req_action = w.msg.pfx.req_action ||| EIGRP_FSM_NEED_UPDATE
          ∧ w'.msg.eigrp.topology_changes_internalIPV4
              = w.msg.eigrp.topology_changes_internalIPV4 ++ [w.msg.pfx.destination])
      ∧ (w.msg.pfx.reported_metric = e1.total_metric →
          w'.msg.pfx.fdistance = 100
          ∧ w'.msg.pfx.req_action = w.msg.pfx.req_action
          ∧ w'.msg.eigrp.topology_changes_internalIPV4
              = w.msg.eigrp.topology_changes_internalIPV4) := by
  have hme : msg_entry w.msg = .ok w.msg := by simp only [msg_entry, he]
  have hf : e1.reported_distance < w.msg.pfx.fdistance := by rw [hrd, hfd]; decide
  have hc : eigrp_get_fsm_event T w.msg
      = .ok (EIGRP_FSM_KEEP_STATE, (eigrp_topology_update_distance T w.msg).1) := by
    simp +decide [eigrp_get_fsm_event, hme, hs, eigrp_topology_update_distance, hen, list_head,
      hf]
  refine ⟨⟨_, hc⟩, ?_⟩
  by_cases hm : w.msg.pfx.reported_metric = e1.total_metric
  · simp +decide [fsm_step, hc, eigrp_topology_update_distance, hen, hs, eigrp_fsm_event,
      NSM_func, NSM, EIGRP_FSM_KEEP_STATE, EIGRP_FSM_STATE_PASSIVE, NSM_call,
      eigrp_fsm_event_keep_state, list_head, eigrp_metrics_is_same, hm, hpkt, hrd, hd, hfd,
      EIGRP_OPC_UPDATE, EIGRP_OPC_QUERY, World.set_pfx, World.emit,
      eigrp_topology_update_node_flags]
  · simp +decide [fsm_step, hc, eigrp_topology_update_distance, hen, hs, eigrp_fsm_event,
      NSM_func, NSM, EIGRP_FSM_KEEP_STATE, EIGRP_FSM_STATE_PASSIVE, NSM_call,
      eigrp_fsm_event_keep_state, list_head, eigrp_metrics_is_same, hm, hpkt, hrd, hd,
      EIGRP_OPC_UPDATE, EIGRP_OPC_QUERY, World.set_pfx, World.emit, World.add_change,
      eigrp_topology_update_node_flags, listnode_add]

/-- Witness of C26 (amended): the sample prefix of S1 and the UPDATE of N1 with
reported distance 90. -/
theorem scenario_s1_keep_state_witness :
    ∃ w', fsm_step sample_topology 1 (sample_world 0 [] 1 90 2) = .ok w'
      ∧ w'.msg.pfx.state = EIGRP_FSM_STATE_PASSIVE
      ∧ (∃ h tl', w'.msg.pfx.entries = h :: tl' ∧ h.adv_router = 1
          ∧ h.reported_distance = 90 ∧ h.distance = 140)
      ∧ (sample_metric 100 ≠ sample_metric 140 →
          w'.msg.pfx.fdistance = 140 ∧ w'.msg.pfx.distance = 140
          ∧ w'.msg.pfx.rdistance = 140
          ∧ w'.msg.pfx.req_action = 0 ||| EIGRP_FSM_NEED_UPDATE
          ∧ w'.msg.eigrp.topology_changes_internalIPV4 = [] ++ [10])
      ∧ (sample_metric 100 = sample_metric 140 →
          w'.msg.pfx.fdistance = 100
          ∧ w'.msg.pfx.req_action = 0
          ∧ w'.msg.eigrp.topology_changes_internalIPV4 = []) :=
  (scenario_s1_keep_state sample_topology 0 (sample_world 0 [] 1 90 2)
    (sample_entry 1 50 1) (sample_entry 1 90 1) [sample_entry 2 150 0]
    rfl rfl rfl rfl (by decide) rfl rfl).2

/-- Counterexample to C26 as stated: on the prefix of S1 (PASSIVE, feasible
distance 100, N1 with distance 100 and reported distance 50 as successor, N2
with distance 200 and reported distance 150) the UPDATE that makes N1 report 90
at distance 140 classifies as KEEP_STATE and leaves the prefix PASSIVE with N1
as head and NEED_UPDATE set, but `fdistance` is 140 afterwards, not 100. -/
theorem scenario_s1_fdistance_is_rebaselined :
    (sample_world 0 [] 1 90 2).msg.pfx.state = EIGRP_FSM_STATE_PASSIVE
    ∧ (sample_world 0 [] 1 90 2).msg.pfx.fdistance = 100
    ∧ (sample_world 0 [] 1 90 2).msg.pfx.entries.map
        (fun e => (e.adv_router, e.distance, e.reported_distance, is_successor e))
        = [(1, 100, 50, true), (2, 200, 150, false)]
    ∧ ∃ msg w', eigrp_get_fsm_event sample_topology (sample_world 0 [] 1 90 2).msg
          = .ok (EIGRP_FSM_KEEP_STATE, msg)
      ∧ fsm_step sample_topology 1 (sample_world 0 [] 1 90 2) = .ok w'
      ∧ w'.msg.pfx.state = EIGRP_FSM_STATE_PASSIVE
      ∧ w'.msg.pfx.entries.map (fun e => (e.adv_router, e.distance, e.reported_distance))
          = [(1, 140, 90), (2, 200, 150)]
      ∧ w'.msg.pfx.req_action &&& EIGRP_FSM_NEED_UPDATE = EIGRP_FSM_NEED_UPDATE
      ∧ w'.msg.pfx.fdistance = 140
      ∧ w'.msg.pfx.fdistance ≠ 100 :=
  ⟨rfl, rfl, rfl, _, _, rfl, rfl, rfl, rfl, rfl, rfl, by decide⟩

/-! ## No head of an empty list -/

theorem successor_list_head {p : eigrp_prefix_entry}
    (h : ∃ e ∈ p.entries, is_successor e = true) :
    ∃ s, list_head (eigrp_topology_get_successor p) = .ok s := by
  obtain ⟨e, he, hs⟩ := h
  have hm : e ∈ eigrp_topology_get_successor p := by
    simp only [eigrp_topology_get_successor, List.mem_filter]
    exact ⟨he, hs⟩
  cases hl : eigrp_topology_get_successor p with
  | nil => rw [hl] at hm; cases hm
  | cons a tl => exact ⟨a, rfl⟩

theorem entries_list_head {p : eigrp_prefix_entry}
    (h : ∃ e ∈ p.entries, is_successor e = true) :
    ∃ s, list_head p.entries = .ok s := by
  obtain ⟨e, he, -⟩ := h
  cases hl : p.entries with
  | nil => rw [hl] at he; cases he
  | cons a tl => exact ⟨a, rfl⟩

theorem lr_returns (T : Topology) (w : World)
    (h : ∃ e ∈ w.msg.pfx.entries, is_successor e = true) :
    ∃ w', eigrp_fsm_event_lr T w = .ok w' := by
  obtain ⟨a, ha⟩ := entries_list_head h
  obtain ⟨s, hs⟩ := successor_list_head h
  simp only [eigrp_topology_get_successor] at hs
  simp only [eigrp_fsm_event_lr, ha, eigrp_topology_get_successor, hs]
  split_ifs <;> exact ⟨_, rfl⟩

theorem lr_fcs_returns (T : Topology) (w : World)
    (h : ∃ e ∈ w.msg.pfx.entries, is_successor e = true) :
    ∃ w', eigrp_fsm_event_lr_fcs T w = .ok w' := by
  obtain ⟨a, ha⟩ := entries_list_head h
  obtain ⟨s, hs⟩ := successor_list_head h
  simp only [eigrp_topology_get_successor] at hs
  simp only [eigrp_fsm_event_lr_fcs, ha, eigrp_topology_get_successor, hs]
  split_ifs <;> exact ⟨_, rfl⟩

theorem nq_fcn_returns (T : Topology) (w : World)
    (h : ∃ e ∈ w.msg.pfx.entries, is_successor e = true) :
    ∃ w', eigrp_fsm_event_nq_fcn T w = .ok w' := by
  obtain ⟨s, hs⟩ := successor_list_head h
  simp only [eigrp_fsm_event_nq_fcn, hs]
  split_ifs <;> first | exact ⟨_, rfl⟩ | exact lr_returns T _ h

theorem q_fcn_returns (T : Topology) (w : World)
    (h : ∃ e ∈ w.msg.pfx.entries, is_successor e = true) :
    ∃ w', eigrp_fsm_event_q_fcn T w = .ok w' := by
  obtain ⟨s, hs⟩ := successor_list_head h
  simp only [eigrp_fsm_event_q_fcn, hs]
  split_ifs <;> first | exact ⟨_, rfl⟩ | exact lr_returns T _ h

theorem lr_fcn_returns (T : Topology) (w : World)
    (h : ∃ e ∈ w.msg.pfx.entries, is_successor e = true) :
    ∃ w', eigrp_fsm_event_lr_fcn T w = .ok w' := by
  obtain ⟨s, hs⟩ := successor_list_head h
  simp only [eigrp_topology_get_successor] at hs
  simp only [eigrp_fsm_event_lr_fcn, eigrp_topology_get_successor, hs]
  split_ifs <;> first | exact ⟨_, rfl⟩ | exact lr_returns T _ h

theorem qact_returns (w : World)
    (h : ∃ e ∈ w.msg.pfx.entries, is_successor e = true) :
    ∃ w', eigrp_fsm_event_qact w = .ok w' := by
  obtain ⟨s, hs⟩ := successor_list_head h
  simp only [eigrp_topology_get_successor] at hs
  simp only [eigrp_fsm_event_qact, eigrp_topology_get_successor, hs]
  exact ⟨_, rfl⟩

theorem keep_state_returns (T : Topology) (w : World)
    (h : ∃ e ∈ w.msg.pfx.entries, is_successor e = true) :
    ∃ w', eigrp_fsm_event_keep_state T w = .ok w' := by
  obtain ⟨a, ha⟩ := entries_list_head h
  by_cases hp : w.msg.pfx.state = EIGRP_FSM_STATE_PASSIVE
  · simp only [eigrp_fsm_event_keep_state, ha, hp, if_true]
    split_ifs <;> exact ⟨_, rfl⟩
  · simp only [eigrp_fsm_event_keep_state, hp, if_false]
    split_ifs <;> exact ⟨_, rfl⟩

theorem get_fsm_event_returns (T : Topology) (msg m1 : eigrp_fsm_action_message)
    (hme : msg_entry msg = .ok m1)
    (h : ∃ e ∈ msg.pfx.entries, is_successor e = true)
    (hT : ∀ m, (∃ e ∈ m.pfx.entries, is_successor e = true) →
        ∃ e ∈ (T.update_distance m).entries, is_successor e = true) :
    ∃ ev msg', eigrp_get_fsm_event T msg = .ok (ev, msg')
      ∧ ev < EIGRP_FSM_EVENT_MAX
      ∧ (∃ e0, msg'.entry = some e0)
      ∧ ∃ e ∈ msg'.pfx.entries, is_successor e = true := by
  obtain ⟨hp, -, -⟩ := msg_entry_frame hme
  obtain ⟨⟨e0, he0⟩, -⟩ := msg_entry_some hme
  have hsucc := hT m1 (by rw [hp]; exact h)
  have hsucc1 : ∃ e ∈ m1.pfx.entries, is_successor e = true := by rw [hp]; exact h
  obtain ⟨a, ha⟩ : ∃ a, list_head (T.update_distance m1).entries = .ok a := by
    obtain ⟨e, he, -⟩ := hsucc
    cases hl : (T.update_distance m1).entries with
    | nil => rw [hl] at he; cases he
    | cons a tl => exact ⟨a, rfl⟩
  cases hc : eigrp_get_fsm_event T msg with
  | error f =>
    exfalso
    unfold eigrp_get_fsm_event at hc
    simp only [hme, eigrp_topology_update_distance, rij_delete, ha] at hc
    by_cases h0 : msg.pfx.state = EIGRP_FSM_STATE_PASSIVE
    · simp only [h0, if_true] at hc
      split_ifs at hc
    simp only [h0, if_false] at hc
    by_cases h1 : msg.pfx.state = EIGRP_FSM_STATE_ACTIVE_0
    · simp only [h1, if_true] at hc
      split_ifs at hc
    simp only [h1, if_false] at hc
    by_cases h2 : msg.pfx.state = EIGRP_FSM_STATE_ACTIVE_1
    · simp only [h2, if_true] at hc
      split_ifs at hc
    simp only [h2, if_false] at hc
    by_cases h3 : msg.pfx.state = EIGRP_FSM_STATE_ACTIVE_2
    · simp only [h3, if_true] at hc
      split_ifs at hc
    simp only [h3, if_false] at hc
    by_cases h4 : msg.pfx.state = EIGRP_FSM_STATE_ACTIVE_3
    · simp only [h4, if_true] at hc
      split_ifs at hc
    simp only [h4, if_false] at hc
    cases hc
  | ok p =>
    obtain ⟨ev, msg'⟩ := p
    refine ⟨ev, msg', rfl, ?_⟩
    unfold eigrp_get_fsm_event at hc
    simp only [hme, eigrp_topology_update_distance, rij_delete, ha] at hc
    by_cases h0 : msg.pfx.state = EIGRP_FSM_STATE_PASSIVE
    · simp only [h0, if_true] at hc
      split_ifs at hc <;>
      · simp only [Except.ok.injEq, Prod.mk.injEq] at hc
        obtain ⟨rfl, rfl⟩ := hc
        exact ⟨by decide, ⟨_, rfl⟩, hsucc⟩
    simp only [h0, if_false] at hc
    by_cases h1 : msg.pfx.state = EIGRP_FSM_STATE_ACTIVE_0
    · simp only [h1, if_true] at hc
      split_ifs at hc <;>
      · simp only [Except.ok.injEq, Prod.mk.injEq] at hc
        obtain ⟨rfl, rfl⟩ := hc
        exact ⟨by decide, ⟨_, rfl⟩, hsucc⟩
    simp only [h1, if_false] at hc
    by_cases h2 : msg.pfx.state = EIGRP_FSM_STATE_ACTIVE_1
    · simp only [h2, if_true] at hc
      split_ifs at hc <;>
      · simp only [Except.ok.injEq, Prod.mk.injEq] at hc
        obtain ⟨rfl, rfl⟩ := hc
        exact ⟨by decide, ⟨_, rfl⟩, hsucc⟩
    simp only [h2, if_false] at hc
    by_cases h3 : msg.pfx.state = EIGRP_FSM_STATE_ACTIVE_2
    · simp only [h3, if_true] at hc
      split_ifs at hc <;>
      · simp only [Except.ok.injEq, Prod.mk.injEq] at hc
        obtain ⟨rfl, rfl⟩ := hc
        exact ⟨by decide, ⟨_, rfl⟩, hsucc⟩
    simp only [h3, if_false] at hc
    by_cases h4 : msg.pfx.state = EIGRP_FSM_STATE_ACTIVE_3
    · simp only [h4, if_true] at hc
      split_ifs at hc <;>
      · simp only [Except.ok.injEq, Prod.mk.injEq] at hc
        obtain ⟨rfl, rfl⟩ := hc
        exact ⟨by decide, ⟨_, rfl⟩, hsucc⟩
    simp only [h4, if_false] at hc
    simp only [Except.ok.injEq, Prod.mk.injEq] at hc
    obtain ⟨rfl, rfl⟩ := hc
    exact ⟨by decide, ⟨e0, he0⟩, hsucc1⟩

theorem dinc_returns (T : Topology) (fuel : Nat) (w : World) (e0 : eigrp_neighbor_entry)
    (he0 : w.msg.entry = some e0)
    (h : ∃ e ∈ w.msg.pfx.entries, is_successor e = true)
    (hT : ∀ m, (∃ e ∈ m.pfx.entries, is_successor e = true) →
        ∃ e ∈ (T.update_distance m).entries, is_successor e = true) :
    ∃ w', eigrp_fsm_event_dinc T (NSM_call T (fuel + 1)) w = .ok w' := by
  obtain ⟨s, hs⟩ := successor_list_head h
  simp only [eigrp_topology_get_successor] at hs
  simp only [eigrp_fsm_event_dinc, eigrp_topology_get_successor, hs, World.set_pfx]
  by_cases hr : w.msg.pfx.rij.length = 0
  · simp only [hr, if_true]
    have hme : msg_entry
        { w.msg with pfx :=
            { w.msg.pfx with
                state := if w.msg.pfx.state = EIGRP_FSM_STATE_ACTIVE_1
                  then EIGRP_FSM_STATE_ACTIVE_0 else EIGRP_FSM_STATE_ACTIVE_2,
                distance := s.distance } }
        = .ok
          { w.msg with pfx :=
              { w.msg.pfx with
                  state := if w.msg.pfx.state = EIGRP_FSM_STATE_ACTIVE_1
                    then EIGRP_FSM_STATE_ACTIVE_0 else EIGRP_FSM_STATE_ACTIVE_2,
                  distance := s.distance } } := by
      simp only [msg_entry, he0]
    obtain ⟨ev, msg', hc, hev, -, hsucc⟩ := get_fsm_event_returns T _ _ hme h hT
    have hst := (get_fsm_event_state_rij hc).1
    simp only at hc hst
    rw [hc]
    simp only
    have hs02 : msg'.pfx.state = EIGRP_FSM_STATE_ACTIVE_0
        ∨ msg'.pfx.state = EIGRP_FSM_STATE_ACTIVE_2 := by
      rw [hst]
      split_ifs
      · exact Or.inl rfl
      · exact Or.inr rfl
    obtain ⟨func, hf⟩ := NSM_func_in_range msg'.pfx.state ev
      (by rcases hs02 with h' | h' <;> rw [h'] <;> decide) hev
    rw [hf]
    rcases NSM_func_active_0_2 hs02 hf with hk | hk | hk | hk <;> subst hk <;>
      simp only [NSM_call]
    · exact keep_state_returns T _ hsucc
    · exact lr_fcs_returns T _ hsucc
    · exact lr_fcn_returns T _ hsucc
    · exact qact_returns _ hsucc
  · simp only [hr, if_false]
    exact ⟨_, rfl⟩

theorem NSM_call_returns (T : Topology) (fuel : Nat) (func : Handler) (w : World)
    (e0 : eigrp_neighbor_entry) (he0 : w.msg.entry = some e0)
    (h : ∃ e ∈ w.msg.pfx.entries, is_successor e = true)
    (hT : ∀ m, (∃ e ∈ m.pfx.entries, is_successor e = true) →
        ∃ e ∈ (T.update_distance m).entries, is_successor e = true) :
    ∃ w', NSM_call T (fuel + 2) func w = .ok w' := by
  cases func <;> simp only [NSM_call]
  · exact keep_state_returns T _ h
  · exact nq_fcn_returns T _ h
  · exact q_fcn_returns T _ h
  · exact lr_returns T _ h
  · exact dinc_returns T fuel w e0 he0 h hT
  · exact lr_fcs_returns T _ h
  · exact lr_fcn_returns T _ h
  · exact qact_returns _ h

/-- C31: under the precondition that the entries of the prefix are not empty
and at least one of them carries the SUCCESSOR flag, and with a topology layer
whose `update_distance` never leaves the prefix without a flagged entry when it
had one, no FSM step (classification, dispatch, the nested `lr` and the
re-dispatch of `dinc`) takes the head of an empty list; when moreover the state
number is one of the five states and the message has an entry or a sender, the
step returns. -/
theorem fsm_step_takes_no_empty_head (T : Topology) (fuel : Nat) (w : World)
    (hpre : w.msg.pfx.entries ≠ [] ∧ ∃ e ∈ w.msg.pfx.entries, is_successor e = true)
    (hT : ∀ m, (∃ e ∈ m.pfx.entries, is_successor e = true) →
        ∃ e ∈ (T.update_distance m).entries, is_successor e = true) :
    fsm_step T (fuel + 2) w ≠ .error .empty_list_head
    ∧ (eigrp_topology_get_successor w.msg.pfx ≠ [])
    ∧ (w.msg.pfx.state < EIGRP_FSM_STATE_MAX →
        (w.msg.entry ≠ none ∨ w.msg.adv_router ≠ none) →
        ∃ w', fsm_step T (fuel + 2) w = .ok w') := by
  obtain ⟨-, h⟩ := hpre
  have hstep : ∀ m1, msg_entry w.msg = .ok m1 →
      (∃ w', fsm_step T (fuel + 2) w = .ok w')
      ∨ (EIGRP_FSM_STATE_MAX ≤ w.msg.pfx.state
          ∧ fsm_step T (fuel + 2) w = .error .nsm_index_out_of_bounds) := by
    intro m1 hme
    obtain ⟨ev, msg', hc, hev, ⟨e0, he0⟩, hsucc⟩ := get_fsm_event_returns T w.msg m1 hme h hT
    have hst := (get_fsm_event_state_rij hc).1
    simp only [fsm_step, hc, eigrp_fsm_event]
    by_cases hlt : w.msg.pfx.state < EIGRP_FSM_STATE_MAX
    · left
      obtain ⟨func, hf⟩ := NSM_func_in_range msg'.pfx.state ev (by rw [hst]; exact hlt) hev
      rw [hf]
      exact NSM_call_returns T fuel func _ e0 he0 hsucc hT
    · right
      refine ⟨Nat.le_of_not_lt hlt, ?_⟩
      rw [NSM_func_out_of_range msg'.pfx.state ev
        (Or.inl (by rw [hst]; exact Nat.le_of_not_lt hlt))]
  refine ⟨?_, ?_, ?_⟩
  · intro hf
    cases hme : msg_entry w.msg with
    | error f =>
      have hnull : f = .null_adv_router := by
        unfold msg_entry at hme
        split at hme
        · cases hme
        · split at hme
          · cases hme; rfl
          · cases hme
      simp only [fsm_step, eigrp_get_fsm_event, hme, hnull] at hf
      cases hf
    | ok m1 =>
      rcases hstep m1 hme with ⟨w', hw⟩ | ⟨-, hw⟩
      · rw [hw] at hf; cases hf
      · rw [hw] at hf; cases hf
  · obtain ⟨s, hs⟩ := successor_list_head h
    intro hnil
    rw [hnil] at hs
    cases hs
  · intro hlt hmsg
    have hme : ∃ m1, msg_entry w.msg = .ok m1 := by
      unfold msg_entry
      cases he : w.msg.entry with
      | some e => exact ⟨_, rfl⟩
      | none =>
        cases ha : w.msg.adv_router with
        | some r => exact ⟨_, rfl⟩
        | none => rcases hmsg with hm | hm
                  · exact absurd he hm
                  · exact absurd ha hm
    obtain ⟨m1, hme⟩ := hme
    rcases hstep m1 hme with hw | ⟨hge, -⟩
    · exact hw
    · exact absurd hlt (Nat.not_lt_of_le hge)

theorem mem_insert_by_distance (e x : eigrp_neighbor_entry) :
    ∀ l : List eigrp_neighbor_entry, x ∈ insert_by_distance e l ↔ x = e ∨ x ∈ l := by
  intro l
  induction l with
  | nil => simp [insert_by_distance]
  | cons a tl ih =>
    simp only [insert_by_distance]
    split_ifs
    · simp
    · simp only [List.mem_cons, ih]
      tauto

theorem inplace_keeps_successor (m : eigrp_fsm_action_message)
    (h : ∃ e ∈ m.pfx.entries, is_successor e = true) :
    ∃ e ∈ (inplace_topology.update_distance m).entries, is_successor e = true := by
  simp only [inplace_topology, inplace_update_distance]
  cases he : m.entry with
  | none => exact h
  | some e =>
    simp only
    by_cases hsame : eigrp_metrics_is_same m.incoming_metric e.reported_metric = true
    · simp only [hsame, if_true]
      exact h
    · simp only [hsame, if_false]
      obtain ⟨f, hf, hflag⟩ := h
      by_cases hfo : f = (m.pfx.entries.find? (fun x => x.adv_router == e.adv_router)).getD e
      · refine ⟨_, (mem_insert_by_distance _ _ _).2 (Or.inl rfl), ?_⟩
        rw [← hfo]
        simpa [is_successor] using hflag
      · exact ⟨f, (mem_insert_by_distance _ _ _).2
          (Or.inr ((List.mem_erase_of_ne hfo).2 hf)), hflag⟩

/-- Witness of C31: on the ACTIVE_1 sample prefix waiting for the reply of N1,
the REPLY of the successor N1 with a larger reported distance runs `dinc`,
which re-classifies and runs `lr_fcs`; the step returns. -/
theorem fsm_step_takes_no_empty_head_witness :
    fsm_step inplace_topology 2 (sample_world 2 [1] 4 90 2) ≠ .error .empty_list_head
    ∧ eigrp_topology_get_successor (sample_world 2 [1] 4 90 2).msg.pfx ≠ []
    ∧ ∃ w', fsm_step inplace_topology 2 (sample_world 2 [1] 4 90 2) = .ok w' :=
  have h := fsm_step_takes_no_empty_head inplace_topology 0 (sample_world 2 [1] 4 90 2)
    ⟨by decide, ⟨sample_entry 1 50 1, by decide, by decide⟩⟩ inplace_keeps_successor
  ⟨h.1, h.2.1, h.2.2 (by decide) (Or.inl (by decide))⟩

/-! ## The daemon holds at most one instance -/

theorem eigrp_lookup_spec (d : Daemon) :
    (eigrp_lookup d = none ↔ d.eigrp_om.eigrp = [])
    ∧ eigrp_lookup d = d.eigrp_om.eigrp.head? := by
  unfold eigrp_lookup listcount
  cases h : d.eigrp_om.eigrp with
  | nil => simp
  | cons a tl => simp

theorem eigrp_get_of_instance (atoi : String → Int) (c : GetCall) (d : Daemon) (p : Nat)
    (tl : List Nat) (h : d.eigrp_om.eigrp = p :: tl) :
    eigrp_get atoi c.AS c.eigrp_socket c.ibuf d = .ok (p, d) := by
  simp [eigrp_get, eigrp_lookup, listcount, h]

theorem eigrp_get_calls_of_instance (atoi : String → Int) (d : Daemon) (p : Nat)
    (tl : List Nat) (h : d.eigrp_om.eigrp = p :: tl) :
    ∀ cs : List GetCall,
      eigrp_get_calls atoi d cs = .ok (List.replicate cs.length p, d) := by
  intro cs
  induction cs with
  | nil => rfl
  | cons c cs ih =>
    simp only [eigrp_get_calls, eigrp_get_of_instance atoi c d p tl h, ih, List.length_cons,
      List.replicate_succ]

theorem eigrp_get_first (atoi : String → Int) (c : GetCall) (d0 : Daemon) :
    (0 ≤ c.eigrp_socket → c.ibuf = true →
      eigrp_get atoi c.AS c.eigrp_socket c.ibuf (eigrp_master_init d0)
        = .ok (d0.heap.length,
            { heap := d0.heap ++ [⟨0, 0, atoi c.AS, [], []⟩],
              eigrp_om := { eigrp := [d0.heap.length] } }))
    ∧ (¬ (0 ≤ c.eigrp_socket ∧ c.ibuf = true) →
      eigrp_get atoi c.AS c.eigrp_socket c.ibuf (eigrp_master_init d0) = .error 1) := by
  refine ⟨?_, ?_⟩
  · intro hs hb
    have hs2 : ¬ c.eigrp_socket < 0 := not_lt.mpr hs
    simp [eigrp_get, eigrp_lookup, listcount, eigrp_master_init, list_new, eigrp_new, hs2, hb,
      eigrp_add, listnode_add]
  · intro hn
    by_cases hs : c.eigrp_socket < 0
    · simp [eigrp_get, eigrp_lookup, listcount, eigrp_master_init, list_new, eigrp_new, hs]
    · have hb : c.ibuf = false := by
        cases hb : c.ibuf
        · rfl
        · exact absurd ⟨not_lt.mp hs, hb⟩ hn
      simp [eigrp_get, eigrp_lookup, listcount, eigrp_master_init, list_new, eigrp_new, hs, hb]

/-- C32: the daemon holds at most one EIGRP instance.  Starting from
`eigrp_master_init`, after a sequence of `eigrp_get` calls (with any AS
strings) the instance list has at most one element: none when no call was
made, and exactly one, the instance the first call allocated from its AS
string, after at least one call; every call returns the pointer to that same
instance and a later call neither allocates nor reads its AS argument.  The
sequence returns whenever the first call finds a socket and a buffer (a later
call cannot exit).  `eigrp_lookup` returns NULL exactly when the list is empty,
and the head of the list otherwise. -/
theorem eigrp_get_single_instance (atoi : String → Int) (d0 : Daemon) (calls : List GetCall) :
    (∀ ptrs d, eigrp_get_calls atoi (eigrp_master_init d0) calls = .ok (ptrs, d) →
      listcount d.eigrp_om.eigrp ≤ 1
      ∧ ptrs.length = calls.length
      ∧ (calls = [] → d.eigrp_om.eigrp = [] ∧ d.heap = d0.heap)
      ∧ (∀ c cs, calls = c :: cs →
          d.eigrp_om.eigrp = [d0.heap.length]
          ∧ listcount d.eigrp_om.eigrp = 1
          ∧ (∀ p ∈ ptrs, p = d0.heap.length)
          ∧ d.heap = d0.heap ++ [⟨0, 0, atoi c.AS, [], []⟩]
          ∧ eigrp_lookup d = some d0.heap.length))
    ∧ (∀ c cs, calls = c :: cs → 0 ≤ c.eigrp_socket → c.ibuf = true →
        ∃ ptrs d, eigrp_get_calls atoi (eigrp_master_init d0) calls = .ok (ptrs, d))
    ∧ (∀ d : Daemon, (eigrp_lookup d = none ↔ d.eigrp_om.eigrp = [])
        ∧ eigrp_lookup d = d.eigrp_om.eigrp.head?) := by
  refine ⟨?_, ?_, eigrp_lookup_spec⟩
  · intro ptrs d h
    cases calls with
    | nil =>
      simp only [eigrp_get_calls, Except.ok.injEq, Prod.mk.injEq] at h
      obtain ⟨rfl, rfl⟩ := h
      refine ⟨by simp [listcount, eigrp_master_init, list_new], rfl, ?_, ?_⟩
      · intro _
        exact ⟨rfl, rfl⟩
      · intro c cs hc
        cases hc
    | cons c cs =>
      by_cases hok : 0 ≤ c.eigrp_socket ∧ c.ibuf = true
      · have h1 := (eigrp_get_first atoi c d0).1 hok.1 hok.2
        have h2 := eigrp_get_calls_of_instance atoi
          { heap := d0.heap ++ [⟨0, 0, atoi c.AS, [], []⟩],
            eigrp_om := { eigrp := [d0.heap.length] } } d0.heap.length [] rfl cs
        simp only [eigrp_get_calls, h1, h2, Except.ok.injEq, Prod.mk.injEq] at h
        obtain ⟨rfl, rfl⟩ := h
        refine ⟨by simp [listcount], by simp, ?_, ?_⟩
        · intro hc
          cases hc
        · intro c' cs' hc
          simp only [List.cons.injEq] at hc
          obtain ⟨rfl, rfl⟩ := hc
          refine ⟨rfl, rfl, ?_, rfl, ?_⟩
          · intro p hp
            simp only [List.mem_cons, List.mem_replicate] at hp
            rcases hp with hp | ⟨-, hp⟩ <;> exact hp
          · simp [eigrp_lookup, listcount]
      · have h1 := (eigrp_get_first atoi c d0).2 hok
        simp only [eigrp_get_calls, h1] at h
        cases h
  · intro c cs hc hs hb
    subst hc
    have h1 := (eigrp_get_first atoi c d0).1 hs hb
    have h2 := eigrp_get_calls_of_instance atoi
      { heap := d0.heap ++ [⟨0, 0, atoi c.AS, [], []⟩],
        eigrp_om := { eigrp := [d0.heap.length] } } d0.heap.length [] rfl cs
    exact ⟨d0.heap.length :: List.replicate cs.length d0.heap.length,
      { heap := d0.heap ++ [⟨0, 0, atoi c.AS, [], []⟩],
        eigrp_om := { eigrp := [d0.heap.length] } },
      by simp only [eigrp_get_calls, h1, h2]⟩

/-- Witness of C32: three `eigrp_get` calls with the AS strings 100, 200 and
300, the later two with no socket to be had; all three return the instance of
AS 100 and the list holds that instance alone. -/
theorem eigrp_get_single_instance_witness :
    eigrp_get_calls (fun s => if s = "100" then 100 else if s = "200" then 200 else 300) (eigrp_master_init ⟨[], ⟨[7, 8]⟩⟩)
        [⟨"100", 3, true⟩, ⟨"200", -1, false⟩, ⟨"300", -1, false⟩]
      = .ok ([0, 0, 0], ⟨[⟨0, 0, 100, [], []⟩], ⟨[0]⟩⟩)
    ∧ listcount [0] ≤ 1
    ∧ eigrp_lookup ⟨[⟨0, 0, 100, [], []⟩], ⟨[0]⟩⟩ = some 0 :=
  have h := ((eigrp_get_single_instance (fun s => if s = "100" then 100 else if s = "200" then 200 else 300) ⟨[], ⟨[7, 8]⟩⟩
      [⟨"100", 3, true⟩, ⟨"200", -1, false⟩, ⟨"300", -1, false⟩]).1
        [0, 0, 0] ⟨[⟨0, 0, 100, [], []⟩], ⟨[0]⟩⟩ rfl)
  ⟨rfl, h.1, (h.2.2.2 _ _ rfl).2.2.2.2⟩

end Eigrp
